import Mathlib

/-!
# The visitor traversal of the WebIDL syntax tree (`ast/accept.go`, `ast/util.go`)

A shallow embedding of `Accept`, `AcceptInterfaceMember`, `AcceptMixinMember`,
`acceptMember`, `AcceptLiteral`, `EmptyVisitor` and `GetAllErrorNodes`.

* A Go visitor is a value with mutable state behind 25 methods.  Here a visitor
  over a state type `σ` is a record of pure hooks `σ → σ` (leaf hooks) and
  `σ → Bool × σ` (composite hooks, the Bool being the method's result).
* A walk returns a `Walk σ`: the visitor state it ends in, the hook invocations
  it made in order, and the panic message when it ended in `unknownTypeError`.
  A panic ends the whole walk: nothing runs after it.
* The node types are declared in a file of the package that is not among the
  sources read here; they are modelled from the specification's data model and
  from the way the two source files use them. A nil pointer wrapped in a non-nil
  interface value is not modelled.
* Hooks are total functions: a hook that itself panics or does not return is
  outside the model.
-/

namespace ast

/-! ## Data model -/

/-- Modelled from the spec: the error record `ErrorNode`, whose declaration is not in
`accept.go` or `util.go`. It embeds a `Base` (it has `NodeBase()`, and `Base.Errors`
holds values of this very type), so the embedded error list is its first field. -/
inductive ErrorNode where
  | mk (Errors : List ErrorNode) (Message : String)

/-- Modelled from the spec: the `Base` record every node carries, "notably a list of
locally attached error records". Positions are not touched by the traversal and are
left out. -/
structure Base where
  Errors : List ErrorNode

/-- The method `NodeBase()` of an `*ErrorNode`: its embedded `Base`. -/
def ErrorNode.NodeBase : ErrorNode → Base
  | .mk es _ => ⟨es⟩

/-- Modelled from the spec: the values of the Go interface `Literal`: the nil interface
value, the two kinds of the closed set, and `other` for a value of any further type
that implements the interface (named by what `%T` prints for it). -/
inductive Literal where
  | nil
  | BasicLiteral (base : Base) (Value : String)
  | SequenceLiteral (base : Base) (Elems : List Literal)
  | other (typeName : String)

mutual
/-- Modelled from the spec: an `*Annotation` (ordered parameters). It is a type of its
own because `Accept` hands the elements of `Parameter.Annotations` and
`Typedef.Annotations` to the `Annotation` hook directly. -/
inductive Annotation where
  | mk (base : Base) (Parameters : List Node)
/-- Modelled from the spec: a `*Member` (a type, an optional initializer literal,
ordered parameters, annotations), the argument type of `acceptMember`. -/
inductive Member where
  | mk (base : Base) (Typ : Node) (Init : Literal) (Parameters : List Node)
      (Annotations : List Node)
/-- Modelled from the spec: the values of the Go interface `Node` (and of the member
interfaces `InterfaceMember` and `MixinMember`, whose values are nodes): the nil
interface value, one constructor per kind of the closed set with the fields the
traversal reads, and `other` for a value of any further type (with the `Base` its
`NodeBase()` returns and the name `%T` prints). A child that the source passes to
`Accept` is a `Node`, one passed to `AcceptLiteral` a `Literal`, and one passed
straight to the `Annotation` hook an `Annotation`. -/
inductive Node where
  | nil
  | ErrorNode (value : ErrorNode)
  | File (base : Base) (Declarations : List Node)
  | Interface (base : Base) (Annotations : List Node) (Members : List Node)
      (CustomOps : List Node) (Patterns : List Node)
  | Mixin (base : Base) (Annotations : List Node) (Members : List Node)
      (CustomOps : List Node) (Patterns : List Node)
  | Dictionary (base : Base) (Annotations : List Node) (Members : List Node)
  | Annotation (value : Annotation)
  | Parameter (base : Base) (Typ : Node) (Init : Literal) (Annotations : List Annotation)
  | Implementation (base : Base)
  | Includes (base : Base)
  | Member (value : Member)
  | CustomOp (base : Base)
  | TypeName (base : Base)
  | Pattern (base : Base)
  | Callback (base : Base) (Return : Node) (Parameters : List Node)
  | Enum (base : Base) (Annotations : List Node) (Values : List Literal)
  | Typedef (base : Base) (Typ : Node) (Annotations : List Annotation)
  | AnyType (base : Base)
  | SequenceType (base : Base) (Elem : Node)
  | RecordType (base : Base) (Key : Node) (Elem : Node)
  | ParametrizedType (base : Base) (Elems : List Node)
  | UnionType (base : Base) (Types : List Node)
  | NullableType (base : Base) (Typ : Node)
  | other (base : Base) (typeName : String)
end

/-- The method `NodeBase()` of an `*Annotation`. -/
def Annotation.NodeBase : Annotation → Base
  | .mk b _ => b

/-- The method `NodeBase()` of a `*Member`. -/
def Member.NodeBase : Member → Base
  | .mk b _ _ _ _ => b

/-- What `%T` prints for a node, as used in the message of `unknownTypeError`. -/
def Node.typeName : Node → String
  | .nil => "<nil>"
  | .ErrorNode _ => "*ast.ErrorNode"
  | .File _ _ => "*ast.File"
  | .Interface _ _ _ _ _ => "*ast.Interface"
  | .Mixin _ _ _ _ _ => "*ast.Mixin"
  | .Dictionary _ _ _ => "*ast.Dictionary"
  | Node.Annotation _ => "*ast.Annotation"
  | .Parameter _ _ _ _ => "*ast.Parameter"
  | .Implementation _ => "*ast.Implementation"
  | .Includes _ => "*ast.Includes"
  | .Member _ => "*ast.Member"
  | .CustomOp _ => "*ast.CustomOp"
  | .TypeName _ => "*ast.TypeName"
  | .Pattern _ => "*ast.Pattern"
  | .Callback _ _ _ => "*ast.Callback"
  | .Enum _ _ _ => "*ast.Enum"
  | .Typedef _ _ _ => "*ast.Typedef"
  | .AnyType _ => "*ast.AnyType"
  | .SequenceType _ _ => "*ast.SequenceType"
  | .RecordType _ _ _ => "*ast.RecordType"
  | .ParametrizedType _ _ => "*ast.ParametrizedType"
  | .UnionType _ _ => "*ast.UnionType"
  | .NullableType _ _ => "*ast.NullableType"
  | .other _ t => t

/-! ## Visitors and walks -/

/-- One invocation of a method of the `Visitor` interface, with its argument. -/
inductive Call where
  | Base (base : Base)
  | ErrorNode (value : ErrorNode)
  | File (value : Node)
  | Interface (value : Node)
  | Mixin (value : Node)
  | Dictionary (value : Node)
  | Annotation (value : Annotation)
  | Parameter (value : Node)
  | Implementation (value : Node)
  | Includes (value : Node)
  | Member (value : Member)
  | CustomOp (value : Node)
  | TypeName (value : Node)
  | Pattern (value : Node)
  | Callback (value : Node)
  | Enum (value : Node)
  | Typedef (value : Node)
  | AnyType (value : Node)
  | SequenceType (value : Node)
  | RecordType (value : Node)
  | ParametrizedType (value : Node)
  | UnionType (value : Node)
  | NullableType (value : Node)
  | BasicLiteral (value : Literal)
  | SequenceLiteral (value : Literal)

/-- Whether the call is of the base hook (`true`) or of a kind-specific hook. -/
def Call.isBase : Call → Bool
  | .Base _ => true
  | _ => false

/-- The interface `Visitor`, over the visitor's state `σ`: a hook without result maps
the state, a hook with a `bool` result also returns that result. -/
structure Visitor (σ : Type) where
  Base : Base → σ → σ
  ErrorNode : ErrorNode → σ → σ
  File : Node → σ → Bool × σ
  Interface : Node → σ → Bool × σ
  Mixin : Node → σ → Bool × σ
  Dictionary : Node → σ → Bool × σ
  Annotation : Annotation → σ → Bool × σ
  Parameter : Node → σ → Bool × σ
  Implementation : Node → σ → σ
  Includes : Node → σ → σ
  Member : Member → σ → Bool × σ
  CustomOp : Node → σ → σ
  TypeName : Node → σ → σ
  Pattern : Node → σ → σ
  Callback : Node → σ → Bool × σ
  Enum : Node → σ → Bool × σ
  Typedef : Node → σ → Bool × σ
  AnyType : Node → σ → σ
  SequenceType : Node → σ → Bool × σ
  RecordType : Node → σ → Bool × σ
  ParametrizedType : Node → σ → Bool × σ
  UnionType : Node → σ → Bool × σ
  NullableType : Node → σ → Bool × σ
  BasicLiteral : Literal → σ → σ
  SequenceLiteral : Literal → σ → Bool × σ

/-- The outcome of a walk: the visitor state it ends in, the hook invocations made, in
order, and the message of the panic when the walk ended in one. -/
structure Walk (σ : Type) where
  state : σ
  calls : List Call
  failure : Option String

variable {σ : Type}

/-- A walk that does nothing (`return` at once). -/
def Walk.done (s : σ) : Walk σ := ⟨s, [], none⟩

/-- One hook invocation `c` that leaves the visitor in state `s`. -/
def Walk.call (c : Call) (s : σ) : Walk σ := ⟨s, [c], none⟩

/-- Sequencing of statements: `f` runs from the state `w` ends in, unless `w` ended in a
panic, which nothing follows. -/
def Walk.andThen (w : Walk σ) (f : σ → Walk σ) : Walk σ :=
  match w.failure with
  | some _ => w
  | none => ⟨(f w.state).state, w.calls ++ (f w.state).calls, (f w.state).failure⟩

/-- The statement `if !v.Hook(n) { break }` followed by `f`: the hook is invoked (call
`c`, result and new state `r`) and `f` runs exactly when the result is true. -/
def Walk.ask (c : Call) (r : Bool × σ) (f : σ → Walk σ) : Walk σ :=
  (Walk.call c r.2).andThen fun s => if r.1 then f s else Walk.done s

/-- The function `unknownTypeError`: a panic with the message "unknown type %T". -/
def unknownTypeError (s : σ) (typeName : String) : Walk σ :=
  ⟨s, [], some ("unknown type " ++ typeName)⟩

/-! ## The traversal -/

mutual
/-- The function `AcceptLiteral`. -/
def AcceptLiteral (v : Visitor σ) : Literal → σ → Walk σ
  | .nil, s => Walk.done s
  | .BasicLiteral b x, s =>
    (Walk.call (.Base b) (v.Base b s)).andThen fun s =>
    Walk.call (.BasicLiteral (.BasicLiteral b x)) (v.BasicLiteral (.BasicLiteral b x) s)
  | .SequenceLiteral b es, s =>
    (Walk.call (.Base b) (v.Base b s)).andThen fun s =>
    Walk.ask (.SequenceLiteral (.SequenceLiteral b es))
      (v.SequenceLiteral (.SequenceLiteral b es) s) fun s =>
    AcceptLiteralEach v es s
  | .other t, s => unknownTypeError s t
/-- The loop `for _, e := range xs { AcceptLiteral(e, v) }`. -/
def AcceptLiteralEach (v : Visitor σ) : List Literal → σ → Walk σ
  | [], s => Walk.done s
  | e :: es, s => (AcceptLiteral v e s).andThen fun s => AcceptLiteralEach v es s
end

/-- The loop `for _, a := range n.Annotations { v.Annotation(a) }` of the `*Parameter`
and `*Typedef` cases: the hook is invoked on each element and its result dropped. -/
def visitAnnotations (v : Visitor σ) : List Annotation → σ → Walk σ
  | [], s => Walk.done s
  | a :: as, s =>
    (Walk.call (Call.Annotation a) (v.Annotation a s).2).andThen fun s =>
    visitAnnotations v as s

mutual
/-- The function `Accept`: nothing for nil; otherwise `v.Base(node.NodeBase())` and then
the type switch, whose `default` is `unknownTypeError(node)`. The switch has no
`*Member` case, so a `*Member` takes the default. -/
def Accept (v : Visitor σ) : Node → σ → Walk σ
  | .nil, s => Walk.done s
  | .ErrorNode n, s =>
    (Walk.call (.Base n.NodeBase) (v.Base n.NodeBase s)).andThen fun s =>
    Walk.call (.ErrorNode n) (v.ErrorNode n s)
  | .File b ds, s =>
    (Walk.call (.Base b) (v.Base b s)).andThen fun s =>
    Walk.ask (.File (.File b ds)) (v.File (.File b ds) s) fun s =>
    AcceptEach v ds s
  | .Interface b as ms cs ps, s =>
    (Walk.call (.Base b) (v.Base b s)).andThen fun s =>
    Walk.ask (.Interface (.Interface b as ms cs ps))
      (v.Interface (.Interface b as ms cs ps) s) fun s =>
    (AcceptEach v as s).andThen fun s =>
    (AcceptInterfaceMemberEach v ms s).andThen fun s =>
    (AcceptEach v cs s).andThen fun s =>
    AcceptEach v ps s
  | .Mixin b as ms cs ps, s =>
    (Walk.call (.Base b) (v.Base b s)).andThen fun s =>
    Walk.ask (.Mixin (.Mixin b as ms cs ps)) (v.Mixin (.Mixin b as ms cs ps) s) fun s =>
    (AcceptEach v as s).andThen fun s =>
    (AcceptMixinMemberEach v ms s).andThen fun s =>
    (AcceptEach v cs s).andThen fun s =>
    AcceptEach v ps s
  | .Dictionary b as ms, s =>
    (Walk.call (.Base b) (v.Base b s)).andThen fun s =>
    Walk.ask (.Dictionary (.Dictionary b as ms)) (v.Dictionary (.Dictionary b as ms) s) fun s =>
    (AcceptEach v as s).andThen fun s =>
    AcceptInterfaceMemberEach v ms s
  | Node.Annotation ( Annotation.mk b ps), s =>
    (Walk.call (.Base b) (v.Base b s)).andThen fun s =>
    Walk.ask (Call.Annotation ( Annotation.mk b ps)) (v.Annotation ( Annotation.mk b ps) s) fun s =>
    AcceptEach v ps s
  | .Parameter b t i as, s =>
    (Walk.call (.Base b) (v.Base b s)).andThen fun s =>
    Walk.ask (.Parameter (.Parameter b t i as)) (v.Parameter (.Parameter b t i as) s) fun s =>
    (Accept v t s).andThen fun s =>
    (AcceptLiteral v i s).andThen fun s =>
    visitAnnotations v as s
  | .Implementation b, s =>
    (Walk.call (.Base b) (v.Base b s)).andThen fun s =>
    Walk.call (.Implementation (.Implementation b)) (v.Implementation (.Implementation b) s)
  | .Includes b, s =>
    (Walk.call (.Base b) (v.Base b s)).andThen fun s =>
    Walk.call (.Includes (.Includes b)) (v.Includes (.Includes b) s)
  | .CustomOp b, s =>
    (Walk.call (.Base b) (v.Base b s)).andThen fun s =>
    Walk.call (.CustomOp (.CustomOp b)) (v.CustomOp (.CustomOp b) s)
  | .Pattern b, s =>
    (Walk.call (.Base b) (v.Base b s)).andThen fun s =>
    Walk.call (.Pattern (.Pattern b)) (v.Pattern (.Pattern b) s)
  | .Callback b r ps, s =>
    (Walk.call (.Base b) (v.Base b s)).andThen fun s =>
    Walk.ask (.Callback (.Callback b r ps)) (v.Callback (.Callback b r ps) s) fun s =>
    (Accept v r s).andThen fun s =>
    AcceptEach v ps s
  | .Enum b as qs, s =>
    (Walk.call (.Base b) (v.Base b s)).andThen fun s =>
    Walk.ask (.Enum (.Enum b as qs)) (v.Enum (.Enum b as qs) s) fun s =>
    (AcceptEach v as s).andThen fun s =>
    AcceptLiteralEach v qs s
  | .Typedef b t as, s =>
    (Walk.call (.Base b) (v.Base b s)).andThen fun s =>
    Walk.ask (.Typedef (.Typedef b t as)) (v.Typedef (.Typedef b t as) s) fun s =>
    (Accept v t s).andThen fun s =>
    visitAnnotations v as s
  | .TypeName b, s =>
    (Walk.call (.Base b) (v.Base b s)).andThen fun s =>
    Walk.call (.TypeName (.TypeName b)) (v.TypeName (.TypeName b) s)
  | .AnyType b, s =>
    (Walk.call (.Base b) (v.Base b s)).andThen fun s =>
    Walk.call (.AnyType (.AnyType b)) (v.AnyType (.AnyType b) s)
  | .SequenceType b e, s =>
    (Walk.call (.Base b) (v.Base b s)).andThen fun s =>
    Walk.ask (.SequenceType (.SequenceType b e)) (v.SequenceType (.SequenceType b e) s) fun s =>
    Accept v e s
  | .RecordType b k e, s =>
    (Walk.call (.Base b) (v.Base b s)).andThen fun s =>
    Walk.ask (.RecordType (.RecordType b k e)) (v.RecordType (.RecordType b k e) s) fun s =>
    (Accept v k s).andThen fun s =>
    Accept v e s
  | .ParametrizedType b es, s =>
    (Walk.call (.Base b) (v.Base b s)).andThen fun s =>
    Walk.ask (.ParametrizedType (.ParametrizedType b es))
      (v.ParametrizedType (.ParametrizedType b es) s) fun s =>
    AcceptEach v es s
  | .UnionType b ts, s =>
    (Walk.call (.Base b) (v.Base b s)).andThen fun s =>
    Walk.ask (.UnionType (.UnionType b ts)) (v.UnionType (.UnionType b ts) s) fun s =>
    AcceptEach v ts s
  | .NullableType b t, s =>
    (Walk.call (.Base b) (v.Base b s)).andThen fun s =>
    Walk.ask (.NullableType (.NullableType b t)) (v.NullableType (.NullableType b t) s) fun s =>
    Accept v t s
  | .Member m, s =>
    (Walk.call (.Base m.NodeBase) (v.Base m.NodeBase s)).andThen fun s =>
    unknownTypeError s (Node.Member m).typeName
  | .other b t, s =>
    (Walk.call (.Base b) (v.Base b s)).andThen fun s =>
    unknownTypeError s (Node.other b t).typeName
/-- The loop `for _, c := range xs { Accept(c, v) }`. -/
def AcceptEach (v : Visitor σ) : List Node → σ → Walk σ
  | [], s => Walk.done s
  | c :: cs, s => (Accept v c s).andThen fun s => AcceptEach v cs s
/-- The function `AcceptInterfaceMember`. -/
def AcceptInterfaceMember (v : Visitor σ) : Node → σ → Walk σ
  | .nil, s => Walk.done s
  | .Member m, s => acceptMember v m s
  | n, s => unknownTypeError s n.typeName
/-- The loop `for _, m := range n.Members { AcceptInterfaceMember(m, v) }`. -/
def AcceptInterfaceMemberEach (v : Visitor σ) : List Node → σ → Walk σ
  | [], s => Walk.done s
  | m :: ms, s => (AcceptInterfaceMember v m s).andThen fun s => AcceptInterfaceMemberEach v ms s
/-- The function `AcceptMixinMember`. -/
def AcceptMixinMember (v : Visitor σ) : Node → σ → Walk σ
  | .nil, s => Walk.done s
  | .Member m, s => acceptMember v m s
  | n, s => unknownTypeError s n.typeName
/-- The loop `for _, m := range n.Members { AcceptMixinMember(m, v) }`. -/
def AcceptMixinMemberEach (v : Visitor σ) : List Node → σ → Walk σ
  | [], s => Walk.done s
  | m :: ms, s => (AcceptMixinMember v m s).andThen fun s => AcceptMixinMemberEach v ms s
/-- The function `acceptMember`. -/
def acceptMember (v : Visitor σ) : Member → σ → Walk σ
  | .mk b t i ps as, s =>
    (Walk.call (.Base b) (v.Base b s)).andThen fun s =>
    Walk.ask (.Member (.mk b t i ps as)) (v.Member (.mk b t i ps as) s) fun s =>
    (Accept v t s).andThen fun s =>
    (AcceptLiteral v i s).andThen fun s =>
    (AcceptEach v ps s).andThen fun s =>
    AcceptEach v as s
end

/-! ## The default visitor and the error collector -/

/-- The struct `EmptyVisitor`; Go's zero value has every flag false. -/
structure EmptyVisitor where
  UseFlags : Bool := false
  ScanBase : Bool := false
  ScanErrorNode : Bool := false
  ScanFile : Bool := false
  ScanInterface : Bool := false
  ScanMixin : Bool := false
  ScanDictionary : Bool := false
  ScanAnnotation : Bool := false
  ScanParameter : Bool := false
  ScanImplementation : Bool := false
  ScanIncludes : Bool := false
  ScanMember : Bool := false
  ScanCustomOp : Bool := false
  ScanTypeName : Bool := false
  ScanPattern : Bool := false
  ScanCallback : Bool := false
  ScanEnum : Bool := false
  ScanTypedef : Bool := false
  ScanAnyType : Bool := false
  ScanSequenceType : Bool := false
  ScanRecordType : Bool := false
  ScanParametrizedType : Bool := false
  ScanUnionType : Bool := false
  ScanNullableType : Bool := false
  ScanBasicLiteral : Bool := false
  ScanSequenceLiteral : Bool := false

/-- The method `EmptyVisitor.Base`: an empty body. -/
def EmptyVisitor.Base (t : EmptyVisitor) (_base : ast.Base) : EmptyVisitor := t

/-- The method `EmptyVisitor.ErrorNode`: an empty body. -/
def EmptyVisitor.ErrorNode (t : EmptyVisitor) (_value : ast.ErrorNode) : EmptyVisitor := t

/-- The method `EmptyVisitor.File`. -/
def EmptyVisitor.File (t : EmptyVisitor) (_value : ast.Node) : Bool :=
  !t.UseFlags || (t.UseFlags && t.ScanFile)

/-- The method `EmptyVisitor.Interface`. -/
def EmptyVisitor.Interface (t : EmptyVisitor) (_value : ast.Node) : Bool :=
  !t.UseFlags || (t.UseFlags && t.ScanInterface)

/-- The method `EmptyVisitor.Mixin`. -/
def EmptyVisitor.Mixin (t : EmptyVisitor) (_value : ast.Node) : Bool :=
  !t.UseFlags || (t.UseFlags && t.ScanMixin)

/-- The method `EmptyVisitor.Dictionary`. -/
def EmptyVisitor.Dictionary (t : EmptyVisitor) (_value : ast.Node) : Bool :=
  !t.UseFlags || (t.UseFlags && t.ScanDictionary)

/-- The method `EmptyVisitor.Annotation`. -/
def EmptyVisitor.Annotation (t : EmptyVisitor) (_value : ast.Annotation) : Bool :=
  !t.UseFlags || (t.UseFlags && t.ScanAnnotation)

/-- The method `EmptyVisitor.Parameter`. -/
def EmptyVisitor.Parameter (t : EmptyVisitor) (_value : ast.Node) : Bool :=
  !t.UseFlags || (t.UseFlags && t.ScanParameter)

/-- The method `EmptyVisitor.Implementation`: an empty body. -/
def EmptyVisitor.Implementation (t : EmptyVisitor) (_value : ast.Node) : EmptyVisitor := t

/-- The method `EmptyVisitor.Includes`: an empty body. -/
def EmptyVisitor.Includes (t : EmptyVisitor) (_value : ast.Node) : EmptyVisitor := t

/-- The method `EmptyVisitor.Member`. -/
def EmptyVisitor.Member (t : EmptyVisitor) (_value : ast.Member) : Bool :=
  !t.UseFlags || (t.UseFlags && t.ScanMember)

/-- The method `EmptyVisitor.CustomOp`: an empty body. -/
def EmptyVisitor.CustomOp (t : EmptyVisitor) (_value : ast.Node) : EmptyVisitor := t

/-- The method `EmptyVisitor.TypeName`: an empty body. -/
def EmptyVisitor.TypeName (t : EmptyVisitor) (_value : ast.Node) : EmptyVisitor := t

/-- The method `EmptyVisitor.Pattern`: an empty body. -/
def EmptyVisitor.Pattern (t : EmptyVisitor) (_value : ast.Node) : EmptyVisitor := t

/-- The method `EmptyVisitor.Callback`. -/
def EmptyVisitor.Callback (t : EmptyVisitor) (_value : ast.Node) : Bool :=
  !t.UseFlags || (t.UseFlags && t.ScanCallback)

/-- The method `EmptyVisitor.Enum`. -/
def EmptyVisitor.Enum (t : EmptyVisitor) (_value : ast.Node) : Bool :=
  !t.UseFlags || (t.UseFlags && t.ScanEnum)

/-- The method `EmptyVisitor.Typedef`. -/
def EmptyVisitor.Typedef (t : EmptyVisitor) (_value : ast.Node) : Bool :=
  !t.UseFlags || (t.UseFlags && t.ScanTypedef)

/-- The method `EmptyVisitor.AnyType`: an empty body. -/
def EmptyVisitor.AnyType (t : EmptyVisitor) (_value : ast.Node) : EmptyVisitor := t

/-- The method `EmptyVisitor.SequenceType`. -/
def EmptyVisitor.SequenceType (t : EmptyVisitor) (_value : ast.Node) : Bool :=
  !t.UseFlags || (t.UseFlags && t.ScanSequenceType)

/-- The method `EmptyVisitor.RecordType`. -/
def EmptyVisitor.RecordType (t : EmptyVisitor) (_value : ast.Node) : Bool :=
  !t.UseFlags || (t.UseFlags && t.ScanRecordType)

/-- The method `EmptyVisitor.ParametrizedType`. -/
def EmptyVisitor.ParametrizedType (t : EmptyVisitor) (_value : ast.Node) : Bool :=
  !t.UseFlags || (t.UseFlags && t.ScanParametrizedType)

/-- The method `EmptyVisitor.UnionType`. -/
def EmptyVisitor.UnionType (t : EmptyVisitor) (_value : ast.Node) : Bool :=
  !t.UseFlags || (t.UseFlags && t.ScanUnionType)

/-- The method `EmptyVisitor.NullableType`. -/
def EmptyVisitor.NullableType (t : EmptyVisitor) (_value : ast.Node) : Bool :=
  !t.UseFlags || (t.UseFlags && t.ScanNullableType)

/-- The method `EmptyVisitor.BasicLiteral`: an empty body. -/
def EmptyVisitor.BasicLiteral (t : EmptyVisitor) (_value : ast.Literal) : EmptyVisitor := t

/-- The method `EmptyVisitor.SequenceLiteral`. -/
def EmptyVisitor.SequenceLiteral (t : EmptyVisitor) (_value : ast.Literal) : Bool :=
  !t.UseFlags || (t.UseFlags && t.ScanSequenceLiteral)

/-- An `*EmptyVisitor` as a `Visitor`: its state is the struct, which no method changes. -/
def EmptyVisitor.visitor : Visitor EmptyVisitor where
  Base b t := t.Base b
  ErrorNode n t := t.ErrorNode n
  File n t := (t.File n, t)
  Interface n t := (t.Interface n, t)
  Mixin n t := (t.Mixin n, t)
  Dictionary n t := (t.Dictionary n, t)
  Annotation n t := (t.Annotation n, t)
  Parameter n t := (t.Parameter n, t)
  Implementation n t := t.Implementation n
  Includes n t := t.Includes n
  Member n t := (t.Member n, t)
  CustomOp n t := t.CustomOp n
  TypeName n t := t.TypeName n
  Pattern n t := t.Pattern n
  Callback n t := (t.Callback n, t)
  Enum n t := (t.Enum n, t)
  Typedef n t := (t.Typedef n, t)
  AnyType n t := t.AnyType n
  SequenceType n t := (t.SequenceType n, t)
  RecordType n t := (t.RecordType n, t)
  ParametrizedType n t := (t.ParametrizedType n, t)
  UnionType n t := (t.UnionType n, t)
  NullableType n t := (t.NullableType n, t)
  BasicLiteral n t := t.BasicLiteral n
  SequenceLiteral n t := (t.SequenceLiteral n, t)

/-- The struct `getAllErrors`: an embedded `EmptyVisitor` and the output slice. -/
structure getAllErrors extends EmptyVisitor where
  out : List ErrorNode := []

/-- The method `getAllErrors.Base`: `if value.Errors != nil { t.out = append(t.out,
value.Errors...) }`. Appending an empty slice changes nothing, so the test for nil is
the test for the empty list. -/
def getAllErrors.Base (t : getAllErrors) (value : ast.Base) : getAllErrors :=
  if value.Errors.isEmpty then t else { t with out := t.out ++ value.Errors }

/-- A `*getAllErrors` as a `Visitor`: `Base` is its own method, every other method is
promoted from the embedded `EmptyVisitor`. -/
def getAllErrors.visitor : Visitor getAllErrors where
  Base b t := t.Base b
  ErrorNode n t := { t with toEmptyVisitor := t.toEmptyVisitor.ErrorNode n }
  File n t := (t.toEmptyVisitor.File n, t)
  Interface n t := (t.toEmptyVisitor.Interface n, t)
  Mixin n t := (t.toEmptyVisitor.Mixin n, t)
  Dictionary n t := (t.toEmptyVisitor.Dictionary n, t)
  Annotation n t := (t.toEmptyVisitor.Annotation n, t)
  Parameter n t := (t.toEmptyVisitor.Parameter n, t)
  Implementation n t := { t with toEmptyVisitor := t.toEmptyVisitor.Implementation n }
  Includes n t := { t with toEmptyVisitor := t.toEmptyVisitor.Includes n }
  Member n t := (t.toEmptyVisitor.Member n, t)
  CustomOp n t := { t with toEmptyVisitor := t.toEmptyVisitor.CustomOp n }
  TypeName n t := { t with toEmptyVisitor := t.toEmptyVisitor.TypeName n }
  Pattern n t := { t with toEmptyVisitor := t.toEmptyVisitor.Pattern n }
  Callback n t := (t.toEmptyVisitor.Callback n, t)
  Enum n t := (t.toEmptyVisitor.Enum n, t)
  Typedef n t := (t.toEmptyVisitor.Typedef n, t)
  AnyType n t := { t with toEmptyVisitor := t.toEmptyVisitor.AnyType n }
  SequenceType n t := (t.toEmptyVisitor.SequenceType n, t)
  RecordType n t := (t.toEmptyVisitor.RecordType n, t)
  ParametrizedType n t := (t.toEmptyVisitor.ParametrizedType n, t)
  UnionType n t := (t.toEmptyVisitor.UnionType n, t)
  NullableType n t := (t.toEmptyVisitor.NullableType n, t)
  BasicLiteral n t := { t with toEmptyVisitor := t.toEmptyVisitor.BasicLiteral n }
  SequenceLiteral n t := (t.toEmptyVisitor.SequenceLiteral n, t)

/-- The function `GetAllErrorNodes`. It returns `data.out` when the walk returns, and
ends in the walk's panic otherwise. -/
def GetAllErrorNodes (start : Node) : Except String (List ErrorNode) :=
  let data : getAllErrors := {}
  match start with
  | .nil => .ok data.out
  | node =>
    match (Accept getAllErrors.visitor node data).failure with
    | some msg => .error msg
    | none => .ok (Accept getAllErrors.visitor node data).state.out

/-! ## Walking a list of children, as the specification words it -/

/-- Walking every element of a list with `f`, one after another in list order, each from
the state the previous one ended in; a panic ends the sequence. -/
def walkEach {α : Type} (f : α → σ → Walk σ) (xs : List α) (s : σ) : Walk σ :=
  xs.foldl (fun w x => w.andThen (f x)) (Walk.done s)

/-! ## Definitions used to state properties of the error collector -/

/-- What the collector does from a state with flags `e`: whatever `out` holds, the walk
appends the same records `es` to it, leaves the flags alone and ends the same way. -/
def Collects (f : getAllErrors → Walk getAllErrors) : Prop :=
  ∀ e : EmptyVisitor, ∃ (es : List ErrorNode) (fl : Option String),
    ∀ o, (f ⟨e, o⟩).state = ⟨e, o ++ es⟩ ∧ (f ⟨e, o⟩).failure = fl

/-- The method `NodeBase()` of a node (not defined on nil, where the empty record stands
in for it). -/
def Node.NodeBase : Node → Base
  | .nil => ⟨[]⟩
  | .ErrorNode n => n.NodeBase
  | .File b _ => b
  | .Interface b _ _ _ _ => b
  | .Mixin b _ _ _ _ => b
  | .Dictionary b _ _ => b
  | Node.Annotation a => a.NodeBase
  | .Parameter b _ _ _ => b
  | .Implementation b => b
  | .Includes b => b
  | .Member m => m.NodeBase
  | .CustomOp b => b
  | .TypeName b => b
  | .Pattern b => b
  | .Callback b _ _ => b
  | .Enum b _ _ => b
  | .Typedef b _ _ => b
  | .AnyType b => b
  | .SequenceType b _ => b
  | .RecordType b _ _ => b
  | .ParametrizedType b _ => b
  | .UnionType b _ => b
  | .NullableType b _ => b
  | .other b _ => b

/-- The outputs of `GetAllErrorNodes` on each element of a list, concatenated in list
order; the first failure ends it. -/
def GetAllErrorNodesEach : List Node → Except String (List ErrorNode)
  | [] => .ok []
  | d :: ds =>
    match GetAllErrorNodes d with
    | .error msg => .error msg
    | .ok out =>
      match GetAllErrorNodesEach ds with
      | .error msg => .error msg
      | .ok rest => .ok (out ++ rest)

/-! ## Visitors and trees used in the statements about selective mode -/

/-- The `EmptyVisitor` in selective mode whose only set flag is `ScanInterface`. -/
def selectInterface : EmptyVisitor := { UseFlags := true, ScanInterface := true }

/-- The `EmptyVisitor` in selective mode whose only set flags are `ScanFile` and
`ScanInterface`. -/
def selectFileInterface : EmptyVisitor :=
  { UseFlags := true, ScanFile := true, ScanInterface := true }

/-! ## The size of a tree -/

mutual
/-- The number of literals in a literal (nil is none). -/
def Literal.count : Literal → Nat
  | .nil => 0
  | .BasicLiteral _ _ => 1
  | .SequenceLiteral _ es => 1 + countLiterals es
  | .other _ => 1
/-- The number of literals in a list of literals. -/
def countLiterals : List Literal → Nat
  | [] => 0
  | l :: ls => l.count + countLiterals ls
end

mutual
/-- The number of nodes and literals in the tree under a node (nil is none; the error
records of a `Base` are not nodes of the tree). -/
def Node.count : Node → Nat
  | Node.nil => 0
  | Node.ErrorNode _ => 1
  | Node.File _ ds => 1 + countNodes ds
  | Node.Interface _ as ms cs ps => 1 + countNodes as + countNodes ms + countNodes cs + countNodes ps
  | Node.Mixin _ as ms cs ps => 1 + countNodes as + countNodes ms + countNodes cs + countNodes ps
  | Node.Dictionary _ as ms => 1 + countNodes as + countNodes ms
  | Node.Annotation a => a.count
  | Node.Parameter _ t i as => 1 + t.count + i.count + countAnnotations as
  | Node.Implementation _ => 1
  | Node.Includes _ => 1
  | Node.Member m => m.count
  | Node.CustomOp _ => 1
  | Node.TypeName _ => 1
  | Node.Pattern _ => 1
  | Node.Callback _ r ps => 1 + r.count + countNodes ps
  | Node.Enum _ as qs => 1 + countNodes as + countLiterals qs
  | Node.Typedef _ t as => 1 + t.count + countAnnotations as
  | Node.AnyType _ => 1
  | Node.SequenceType _ e => 1 + e.count
  | Node.RecordType _ k e => 1 + k.count + e.count
  | Node.ParametrizedType _ es => 1 + countNodes es
  | Node.UnionType _ ts => 1 + countNodes ts
  | Node.NullableType _ t => 1 + t.count
  | Node.other _ _ => 1
/-- The number of nodes and literals in the tree under an annotation. -/
def Annotation.count : Annotation → Nat
  | .mk _ ps => 1 + countNodes ps
/-- The number of nodes and literals in the tree under a member. -/
def Member.count : Member → Nat
  | .mk _ t i ps as => 1 + t.count + i.count + countNodes ps + countNodes as
/-- The number of nodes and literals in the trees under a list of nodes. -/
def countNodes : List Node → Nat
  | [] => 0
  | n :: ns => n.count + countNodes ns
/-- The number of nodes and literals in the trees under a list of annotations. -/
def countAnnotations : List Annotation → Nat
  | [] => 0
  | a :: as => a.count + countAnnotations as
end

/-- The walk `f` makes at most `k` hook invocations, whatever state it starts from. -/
def Within (f : σ → Walk σ) (k : Nat) : Prop :=
  ∀ s, (f s).calls.length ≤ k

/-! ## Definitions used to state what the walk of annotations leaves out -/

mutual
/-- The tree of a node with the `Annotations` list of every `Parameter` and of every
`Typedef` in it emptied; everything else is kept, and so are the annotations of the other
kinds of node. -/
def dropAnnotations : Node → Node
  | Node.nil => Node.nil
  | Node.ErrorNode n => Node.ErrorNode n
  | Node.File b ds => Node.File b (dropAnnotationsEach ds)
  | Node.Interface b as ms cs ps =>
    Node.Interface b (dropAnnotationsEach as) (dropAnnotationsEach ms) (dropAnnotationsEach cs) (dropAnnotationsEach ps)
  | Node.Mixin b as ms cs ps =>
    Node.Mixin b (dropAnnotationsEach as) (dropAnnotationsEach ms) (dropAnnotationsEach cs) (dropAnnotationsEach ps)
  | Node.Dictionary b as ms => Node.Dictionary b (dropAnnotationsEach as) (dropAnnotationsEach ms)
  | Node.Annotation a => Node.Annotation a.dropAnnotations
  | Node.Parameter b t i _ => Node.Parameter b (dropAnnotations t) i []
  | Node.Implementation b => Node.Implementation b
  | Node.Includes b => Node.Includes b
  | Node.Member m => Node.Member m.dropAnnotations
  | Node.CustomOp b => Node.CustomOp b
  | Node.TypeName b => Node.TypeName b
  | Node.Pattern b => Node.Pattern b
  | Node.Callback b r ps => Node.Callback b (dropAnnotations r) (dropAnnotationsEach ps)
  | Node.Enum b as qs => Node.Enum b (dropAnnotationsEach as) qs
  | Node.Typedef b t _ => Node.Typedef b (dropAnnotations t) []
  | Node.AnyType b => Node.AnyType b
  | Node.SequenceType b e => Node.SequenceType b (dropAnnotations e)
  | Node.RecordType b k e => Node.RecordType b (dropAnnotations k) (dropAnnotations e)
  | Node.ParametrizedType b es => Node.ParametrizedType b (dropAnnotationsEach es)
  | Node.UnionType b ts => Node.UnionType b (dropAnnotationsEach ts)
  | Node.NullableType b t => Node.NullableType b (dropAnnotations t)
  | Node.other b t => Node.other b t
/-- The annotation with `dropAnnotations` applied to each of its parameters. -/
def Annotation.dropAnnotations : Annotation → Annotation
  | .mk b ps => .mk b (dropAnnotationsEach ps)
/-- The member with `dropAnnotations` applied to its children. -/
def Member.dropAnnotations : Member → Member
  | .mk b t i ps as => .mk b (dropAnnotations t) i (dropAnnotationsEach ps) (dropAnnotationsEach as)
/-- The list with `dropAnnotations` applied to each element. -/
def dropAnnotationsEach : List Node → List Node
  | [] => []
  | n :: ns => dropAnnotations n :: dropAnnotationsEach ns
end

/-- The walks `f` and `g` end in the same state and in the same way (both return, or both
panic with the same message) from every starting state; the hooks they invoke may differ. -/
def SameOutcome (f g : σ → Walk σ) : Prop :=
  ∀ s, (f s).state = (g s).state ∧ (f s).failure = (g s).failure

/-! ## Definitions used to compare the walks of two visitors -/

/-- `Covers I₁ I₂ v1 v2`: the visitor `v1`, in any state of the set `I₁`, descends wherever
the visitor `v2`, in any state of the set `I₂`, descends. No hook takes the state of `v1`
out of `I₁` or the state of `v2` out of `I₂`, and every hook with a result returns true for
`v2` only on a node on which it returns true for `v1`. The sets stand for the states the
two visitors can be in; for two visitors whose hook results depend only on the node passed
they can be taken to hold every state. -/
structure Covers {σ₁ σ₂ : Type} (I₁ : σ₁ → Prop) (I₂ : σ₂ → Prop) (v1 : Visitor σ₁)
    (v2 : Visitor σ₂) : Prop where
  Base : ∀ b s1 s2, I₁ s1 → I₂ s2 → I₁ (v1.Base b s1) ∧ I₂ (v2.Base b s2)
  ErrorNode : ∀ n s1 s2, I₁ s1 → I₂ s2 → I₁ (v1.ErrorNode n s1) ∧ I₂ (v2.ErrorNode n s2)
  File : ∀ n s1 s2, I₁ s1 → I₂ s2 → I₁ (v1.File n s1).2 ∧ I₂ (v2.File n s2).2 ∧
    ((v2.File n s2).1 = true → (v1.File n s1).1 = true)
  Interface : ∀ n s1 s2, I₁ s1 → I₂ s2 → I₁ (v1.Interface n s1).2 ∧ I₂ (v2.Interface n s2).2 ∧
    ((v2.Interface n s2).1 = true → (v1.Interface n s1).1 = true)
  Mixin : ∀ n s1 s2, I₁ s1 → I₂ s2 → I₁ (v1.Mixin n s1).2 ∧ I₂ (v2.Mixin n s2).2 ∧
    ((v2.Mixin n s2).1 = true → (v1.Mixin n s1).1 = true)
  Dictionary : ∀ n s1 s2, I₁ s1 → I₂ s2 → I₁ (v1.Dictionary n s1).2 ∧ I₂ (v2.Dictionary n s2).2 ∧
    ((v2.Dictionary n s2).1 = true → (v1.Dictionary n s1).1 = true)
  Annotation : ∀ a s1 s2, I₁ s1 → I₂ s2 → I₁ (v1.Annotation a s1).2 ∧ I₂ (v2.Annotation a s2).2 ∧
    ((v2.Annotation a s2).1 = true → (v1.Annotation a s1).1 = true)
  Parameter : ∀ n s1 s2, I₁ s1 → I₂ s2 → I₁ (v1.Parameter n s1).2 ∧ I₂ (v2.Parameter n s2).2 ∧
    ((v2.Parameter n s2).1 = true → (v1.Parameter n s1).1 = true)
  Implementation : ∀ n s1 s2, I₁ s1 → I₂ s2 → I₁ (v1.Implementation n s1) ∧ I₂ (v2.Implementation n s2)
  Includes : ∀ n s1 s2, I₁ s1 → I₂ s2 → I₁ (v1.Includes n s1) ∧ I₂ (v2.Includes n s2)
  Member : ∀ m s1 s2, I₁ s1 → I₂ s2 → I₁ (v1.Member m s1).2 ∧ I₂ (v2.Member m s2).2 ∧
    ((v2.Member m s2).1 = true → (v1.Member m s1).1 = true)
  CustomOp : ∀ n s1 s2, I₁ s1 → I₂ s2 → I₁ (v1.CustomOp n s1) ∧ I₂ (v2.CustomOp n s2)
  TypeName : ∀ n s1 s2, I₁ s1 → I₂ s2 → I₁ (v1.TypeName n s1) ∧ I₂ (v2.TypeName n s2)
  Pattern : ∀ n s1 s2, I₁ s1 → I₂ s2 → I₁ (v1.Pattern n s1) ∧ I₂ (v2.Pattern n s2)
  Callback : ∀ n s1 s2, I₁ s1 → I₂ s2 → I₁ (v1.Callback n s1).2 ∧ I₂ (v2.Callback n s2).2 ∧
    ((v2.Callback n s2).1 = true → (v1.Callback n s1).1 = true)
  Enum : ∀ n s1 s2, I₁ s1 → I₂ s2 → I₁ (v1.Enum n s1).2 ∧ I₂ (v2.Enum n s2).2 ∧
    ((v2.Enum n s2).1 = true → (v1.Enum n s1).1 = true)
  Typedef : ∀ n s1 s2, I₁ s1 → I₂ s2 → I₁ (v1.Typedef n s1).2 ∧ I₂ (v2.Typedef n s2).2 ∧
    ((v2.Typedef n s2).1 = true → (v1.Typedef n s1).1 = true)
  AnyType : ∀ n s1 s2, I₁ s1 → I₂ s2 → I₁ (v1.AnyType n s1) ∧ I₂ (v2.AnyType n s2)
  SequenceType : ∀ n s1 s2, I₁ s1 → I₂ s2 → I₁ (v1.SequenceType n s1).2 ∧ I₂ (v2.SequenceType n s2).2 ∧
    ((v2.SequenceType n s2).1 = true → (v1.SequenceType n s1).1 = true)
  RecordType : ∀ n s1 s2, I₁ s1 → I₂ s2 → I₁ (v1.RecordType n s1).2 ∧ I₂ (v2.RecordType n s2).2 ∧
    ((v2.RecordType n s2).1 = true → (v1.RecordType n s1).1 = true)
  ParametrizedType : ∀ n s1 s2, I₁ s1 → I₂ s2 → I₁ (v1.ParametrizedType n s1).2 ∧ I₂ (v2.ParametrizedType n s2).2 ∧
    ((v2.ParametrizedType n s2).1 = true → (v1.ParametrizedType n s1).1 = true)
  UnionType : ∀ n s1 s2, I₁ s1 → I₂ s2 → I₁ (v1.UnionType n s1).2 ∧ I₂ (v2.UnionType n s2).2 ∧
    ((v2.UnionType n s2).1 = true → (v1.UnionType n s1).1 = true)
  NullableType : ∀ n s1 s2, I₁ s1 → I₂ s2 → I₁ (v1.NullableType n s1).2 ∧ I₂ (v2.NullableType n s2).2 ∧
    ((v2.NullableType n s2).1 = true → (v1.NullableType n s1).1 = true)
  BasicLiteral : ∀ l s1 s2, I₁ s1 → I₂ s2 → I₁ (v1.BasicLiteral l s1) ∧ I₂ (v2.BasicLiteral l s2)
  SequenceLiteral : ∀ l s1 s2, I₁ s1 → I₂ s2 → I₁ (v1.SequenceLiteral l s1).2 ∧ I₂ (v2.SequenceLiteral l s2).2 ∧
    ((v2.SequenceLiteral l s2).1 = true → (v1.SequenceLiteral l s1).1 = true)

/-- The hook results of `v` depend only on the node passed while the state of `v` is in the
set `I`, which no hook leaves: a hook that returns true on a node in one state of `I`
returns true on it in every state of `I`. -/
def Visitor.NodeOnly (v : Visitor σ) (I : σ → Prop) : Prop :=
  Covers I I v v

/-- The walk `f2` is below the walk `f1`: started in states of `I₂` and `I₁`, when `f1`
returns, both end in states of these sets, `f2` returns too, and the hook invocations of
`f2` are a subsequence of those of `f1`. -/
def Below {σ₁ σ₂ : Type} (I₁ : σ₁ → Prop) (I₂ : σ₂ → Prop) (f1 : σ₁ → Walk σ₁)
    (f2 : σ₂ → Walk σ₂) : Prop :=
  ∀ s1 s2, I₁ s1 → I₂ s2 → (f1 s1).failure = none →
    I₁ (f1 s1).state ∧ I₂ (f2 s2).state ∧ (f2 s2).failure = none ∧
      List.Sublist (f2 s2).calls (f1 s1).calls

/-- The `EmptyVisitor` in selective mode whose only set flag is `ScanUnionType`. -/
def selectUnionType : EmptyVisitor := { UseFlags := true, ScanUnionType := true }

/-- From every state of the set `I` from which the walk `f` returns, `f` makes exactly the
hook invocations `cs` and ends in a state of `I`. -/
def Makes (I : σ → Prop) (f : σ → Walk σ) (cs : List Call) : Prop :=
  ∀ s, I s → (f s).failure = none → I (f s).state ∧ (f s).calls = cs

/-! ## Sequencing lemmas -/

theorem Walk.done_andThen (s : σ) (f : σ → Walk σ) : (Walk.done s).andThen f = f s := by
  simp [Walk.andThen, Walk.done]

theorem Walk.andThen_done (w : Walk σ) : w.andThen Walk.done = w := by
  cases w with
  | mk st cs fl => cases fl <;> simp [Walk.andThen, Walk.done]

theorem Walk.andThen_assoc (w : Walk σ) (f g : σ → Walk σ) :
    (w.andThen f).andThen g = w.andThen fun s => (f s).andThen g := by
  cases w with
  | mk st cs fl =>
    cases fl with
    | some m => simp [Walk.andThen]
    | none =>
      cases h : (f st).failure with
      | some m => simp [Walk.andThen, h]
      | none => simp [Walk.andThen, h]

theorem Walk.call_andThen (c : Call) (s : σ) (f : σ → Walk σ) :
    (Walk.call c s).andThen f = ⟨(f s).state, c :: (f s).calls, (f s).failure⟩ := by
  simp [Walk.andThen, Walk.call]

theorem Walk.ask_false (c : Call) (r : Bool × σ) (f : σ → Walk σ) (h : r.1 = false) :
    Walk.ask c r f = ⟨r.2, [c], none⟩ := by
  simp [Walk.ask, Walk.andThen, Walk.call, Walk.done, h]

theorem Walk.ask_true (c : Call) (r : Bool × σ) (f : σ → Walk σ) (h : r.1 = true) :
    Walk.ask c r f = (Walk.call c r.2).andThen f := by
  simp [Walk.ask, h]

theorem walkEach_nil {α : Type} (f : α → σ → Walk σ) (s : σ) :
    walkEach f [] s = Walk.done s := rfl

theorem foldl_andThen {α : Type} (f : α → σ → Walk σ) (xs : List α) (w : Walk σ) :
    xs.foldl (fun w x => w.andThen (f x)) w = w.andThen (walkEach f xs) := by
  induction xs generalizing w with
  | nil =>
    have : walkEach f ([] : List α) = Walk.done := by funext s; rfl
    simp [this, Walk.andThen_done]
  | cons x xs ih =>
    have hx : walkEach f (x :: xs) = fun s => (f x s).andThen (walkEach f xs) := by
      funext s
      simp [walkEach, Walk.done_andThen, ih]
    simp [hx, ih, Walk.andThen_assoc]

theorem walkEach_cons {α : Type} (f : α → σ → Walk σ) (x : α) (xs : List α) (s : σ) :
    walkEach f (x :: xs) s = (f x s).andThen (walkEach f xs) := by
  simp [walkEach, Walk.done_andThen, foldl_andThen]

theorem AcceptEach_eq_walkEach (v : Visitor σ) (xs : List Node) (s : σ) :
    AcceptEach v xs s = walkEach (Accept v) xs s := by
  induction xs generalizing s with
  | nil => simp [AcceptEach, walkEach_nil]
  | cons x xs ih =>
    rw [AcceptEach, walkEach_cons]
    congr 1
    funext s1
    exact ih s1

theorem AcceptInterfaceMemberEach_eq_walkEach (v : Visitor σ) (xs : List Node) (s : σ) :
    AcceptInterfaceMemberEach v xs s = walkEach (AcceptInterfaceMember v) xs s := by
  induction xs generalizing s with
  | nil => simp [AcceptInterfaceMemberEach, walkEach_nil]
  | cons x xs ih =>
    rw [AcceptInterfaceMemberEach, walkEach_cons]
    congr 1
    funext s1
    exact ih s1

theorem AcceptMixinMemberEach_eq_walkEach (v : Visitor σ) (xs : List Node) (s : σ) :
    AcceptMixinMemberEach v xs s = walkEach (AcceptMixinMember v) xs s := by
  induction xs generalizing s with
  | nil => simp [AcceptMixinMemberEach, walkEach_nil]
  | cons x xs ih =>
    rw [AcceptMixinMemberEach, walkEach_cons]
    congr 1
    funext s1
    exact ih s1

theorem AcceptLiteralEach_eq_walkEach (v : Visitor σ) (xs : List Literal) (s : σ) :
    AcceptLiteralEach v xs s = walkEach (AcceptLiteral v) xs s := by
  induction xs generalizing s with
  | nil => simp [AcceptLiteralEach, walkEach_nil]
  | cons x xs ih =>
    rw [AcceptLiteralEach, walkEach_cons]
    congr 1
    funext s1
    exact ih s1

/-! ## Absent nodes -/

/-- C1: with an absent (nil) node, member or literal, each of the four entry points
returns at once: no hook is invoked, the visitor state is unchanged, and the walk does
not fail. -/
theorem C1_absent_input_is_noop (v : Visitor σ) (s : σ) :
    Accept v Node.nil s = ⟨s, [], none⟩ ∧
    AcceptLiteral v Literal.nil s = ⟨s, [], none⟩ ∧
    AcceptInterfaceMember v Node.nil s = ⟨s, [], none⟩ ∧
    AcceptMixinMember v Node.nil s = ⟨s, [], none⟩ := by
  refine ⟨?_, ?_, ?_, ?_⟩
  · simp [Accept, Walk.done]
  · simp [AcceptLiteral, Walk.done]
  · simp [AcceptInterfaceMember, Walk.done]
  · simp [AcceptMixinMember, Walk.done]

/-! ## A composite hook that returns false -/

/-- C3: for each of the sixteen composite kinds, when the kind-specific hook returns
false on a node `n` of that kind (invoked, as the walk does, in the state the base hook
left), walking `n` makes exactly two hook invocations, the base hook on the node's `Base`
and then the kind-specific hook on `n`; nothing is invoked for a child or descendant, and
the walk does not fail. A `Member` is walked by `acceptMember`, which both member entry
points call. -/
theorem C3_false_hook_stops_descent (v : Visitor σ) (s : σ) :
    (∀ n b ds, n = Node.File b ds → (v.File n (v.Base b s)).1 = false →
      Accept v n s = ⟨(v.File n (v.Base b s)).2, [Call.Base b, Call.File n], none⟩) ∧
    (∀ n b as ms cs ps, n = Node.Interface b as ms cs ps → (v.Interface n (v.Base b s)).1 = false →
      Accept v n s = ⟨(v.Interface n (v.Base b s)).2, [Call.Base b, Call.Interface n], none⟩) ∧
    (∀ n b as ms cs ps, n = Node.Mixin b as ms cs ps → (v.Mixin n (v.Base b s)).1 = false →
      Accept v n s = ⟨(v.Mixin n (v.Base b s)).2, [Call.Base b, Call.Mixin n], none⟩) ∧
    (∀ n b as ms, n = Node.Dictionary b as ms → (v.Dictionary n (v.Base b s)).1 = false →
      Accept v n s = ⟨(v.Dictionary n (v.Base b s)).2, [Call.Base b, Call.Dictionary n], none⟩) ∧
    (∀ a : Annotation, (v.Annotation a (v.Base a.NodeBase s)).1 = false →
      Accept v (Node.Annotation a) s =
        ⟨(v.Annotation a (v.Base a.NodeBase s)).2, [Call.Base a.NodeBase, Call.Annotation a], none⟩) ∧
    (∀ n b t i as, n = Node.Parameter b t i as → (v.Parameter n (v.Base b s)).1 = false →
      Accept v n s = ⟨(v.Parameter n (v.Base b s)).2, [Call.Base b, Call.Parameter n], none⟩) ∧
    (∀ n b r ps, n = Node.Callback b r ps → (v.Callback n (v.Base b s)).1 = false →
      Accept v n s = ⟨(v.Callback n (v.Base b s)).2, [Call.Base b, Call.Callback n], none⟩) ∧
    (∀ n b as qs, n = Node.Enum b as qs → (v.Enum n (v.Base b s)).1 = false →
      Accept v n s = ⟨(v.Enum n (v.Base b s)).2, [Call.Base b, Call.Enum n], none⟩) ∧
    (∀ n b t as, n = Node.Typedef b t as → (v.Typedef n (v.Base b s)).1 = false →
      Accept v n s = ⟨(v.Typedef n (v.Base b s)).2, [Call.Base b, Call.Typedef n], none⟩) ∧
    (∀ n b e, n = Node.SequenceType b e → (v.SequenceType n (v.Base b s)).1 = false →
      Accept v n s = ⟨(v.SequenceType n (v.Base b s)).2, [Call.Base b, Call.SequenceType n], none⟩) ∧
    (∀ n b k e, n = Node.RecordType b k e → (v.RecordType n (v.Base b s)).1 = false →
      Accept v n s = ⟨(v.RecordType n (v.Base b s)).2, [Call.Base b, Call.RecordType n], none⟩) ∧
    (∀ n b es, n = Node.ParametrizedType b es → (v.ParametrizedType n (v.Base b s)).1 = false →
      Accept v n s = ⟨(v.ParametrizedType n (v.Base b s)).2, [Call.Base b, Call.ParametrizedType n], none⟩) ∧
    (∀ n b ts, n = Node.UnionType b ts → (v.UnionType n (v.Base b s)).1 = false →
      Accept v n s = ⟨(v.UnionType n (v.Base b s)).2, [Call.Base b, Call.UnionType n], none⟩) ∧
    (∀ n b t, n = Node.NullableType b t → (v.NullableType n (v.Base b s)).1 = false →
      Accept v n s = ⟨(v.NullableType n (v.Base b s)).2, [Call.Base b, Call.NullableType n], none⟩) ∧
    (∀ m : Member, (v.Member m (v.Base m.NodeBase s)).1 = false →
      acceptMember v m s =
        ⟨(v.Member m (v.Base m.NodeBase s)).2, [Call.Base m.NodeBase, Call.Member m], none⟩ ∧
      AcceptInterfaceMember v (Node.Member m) s = acceptMember v m s ∧
      AcceptMixinMember v (Node.Member m) s = acceptMember v m s) ∧
    (∀ l b es, l = Literal.SequenceLiteral b es → (v.SequenceLiteral l (v.Base b s)).1 = false →
      AcceptLiteral v l s =
        ⟨(v.SequenceLiteral l (v.Base b s)).2, [Call.Base b, Call.SequenceLiteral l], none⟩) := by
  refine ⟨?_, ?_, ?_, ?_, ?_, ?_, ?_, ?_, ?_, ?_, ?_, ?_, ?_, ?_, ?_, ?_⟩
  case refine_5 =>
    rintro ⟨b, ps⟩ h
    simp only [ Annotation.NodeBase] at h
    simp [Accept, Annotation.NodeBase, Walk.ask_false _ _ _ h, Walk.call_andThen]
  case refine_15 =>
    rintro ⟨b, t, i, ps, as⟩ h
    simp only [Member.NodeBase] at h
    simp [acceptMember, AcceptInterfaceMember, AcceptMixinMember, Member.NodeBase,
      Walk.ask_false _ _ _ h, Walk.call_andThen]
  case refine_16 =>
    rintro l b es rfl h
    simp [AcceptLiteral, Walk.ask_false _ _ _ h, Walk.call_andThen]
  all_goals
    intros
    subst_vars
    rename_i h
    simp [Accept, Walk.ask_false _ _ _ h, Walk.call_andThen]

/-- C3, at a concrete input: a selective default visitor with no flag set returns false
from its `File` hook and stops at a `File`, whose one declaration gets no hook
invocation. -/
theorem C3_false_hook_stops_descent_witness :
    (EmptyVisitor.visitor.File (Node.File ⟨[]⟩ [Node.AnyType ⟨[]⟩])
        (EmptyVisitor.visitor.Base ⟨[]⟩ { UseFlags := true })).1 = false ∧
    Accept EmptyVisitor.visitor (Node.File ⟨[]⟩ [Node.AnyType ⟨[]⟩]) { UseFlags := true } =
      ⟨{ UseFlags := true }, [Call.Base ⟨[]⟩, Call.File (Node.File ⟨[]⟩ [Node.AnyType ⟨[]⟩])],
        none⟩ :=
  ⟨rfl, (C3_false_hook_stops_descent EmptyVisitor.visitor { UseFlags := true }).1 _ ⟨[]⟩
    [Node.AnyType ⟨[]⟩] rfl rfl⟩

/-! ## Children of the structural containers -/

/-- C5: when the `File` hook returns true on a file, `Accept` invokes the base hook on
the file's `Base`, then the `File` hook on the file, and then walks the elements of
`Declarations` with `Accept`, one after another in list order (`walkEach`: each from the
state the previous one left, each once), and does nothing else. -/
theorem C5_file_walks_declarations_in_order (v : Visitor σ) (s : σ) (b : Base)
    (ds : List Node) (h : (v.File (Node.File b ds) (v.Base b s)).1 = true) :
    Accept v (Node.File b ds) s =
      (Walk.call (Call.Base b) (v.Base b s)).andThen fun s1 =>
      (Walk.call (Call.File (Node.File b ds)) (v.File (Node.File b ds) s1).2).andThen fun s2 =>
      walkEach (Accept v) ds s2 := by
  have hw : AcceptEach v ds = walkEach (Accept v) ds := by
    funext s; exact AcceptEach_eq_walkEach v ds s
  simp [Accept, Walk.ask_true _ _ _ h, Walk.call_andThen, hw]

/-- C5, at a concrete input: a file with two declarations under the default visitor; the
`File` hook returns true and the declarations are visited in list order. -/
theorem C5_file_walks_declarations_in_order_witness :
    (EmptyVisitor.visitor.File (Node.File ⟨[]⟩ [Node.TypeName ⟨[]⟩, Node.AnyType ⟨[]⟩])
        (EmptyVisitor.visitor.Base ⟨[]⟩ {})).1 = true ∧
    Accept EmptyVisitor.visitor
        (Node.File ⟨[]⟩ [Node.TypeName ⟨[]⟩, Node.AnyType ⟨[]⟩]) {} =
      ⟨{}, [Call.Base ⟨[]⟩, Call.File (Node.File ⟨[]⟩ [Node.TypeName ⟨[]⟩, Node.AnyType ⟨[]⟩]),
            Call.Base ⟨[]⟩, Call.TypeName (Node.TypeName ⟨[]⟩),
            Call.Base ⟨[]⟩, Call.AnyType (Node.AnyType ⟨[]⟩)], none⟩ :=
  ⟨rfl, (C5_file_walks_declarations_in_order EmptyVisitor.visitor {} ⟨[]⟩
    [Node.TypeName ⟨[]⟩, Node.AnyType ⟨[]⟩] rfl).trans rfl⟩

/-- C6: when its hook returns true, an `Interface` has, after the base hook and the
`Interface` hook, its `Annotations` walked in order, then its `Members` in order through
`AcceptInterfaceMember`, then its `CustomOps` in order, then its `Patterns` in order; a
`Mixin` likewise with `AcceptMixinMember`; a `Dictionary` has its `Annotations` walked in
order and then its `Members` in order through `AcceptInterfaceMember`. -/
theorem C6_container_children_in_order (v : Visitor σ) (s : σ) :
    (∀ n b as ms cs ps, n = Node.Interface b as ms cs ps →
      (v.Interface n (v.Base b s)).1 = true →
      Accept v n s =
        (Walk.call (Call.Base b) (v.Base b s)).andThen fun s1 =>
        (Walk.call (Call.Interface n) (v.Interface n s1).2).andThen fun s2 =>
        (walkEach (Accept v) as s2).andThen fun s3 =>
        (walkEach (AcceptInterfaceMember v) ms s3).andThen fun s4 =>
        (walkEach (Accept v) cs s4).andThen fun s5 =>
        walkEach (Accept v) ps s5) ∧
    (∀ n b as ms cs ps, n = Node.Mixin b as ms cs ps →
      (v.Mixin n (v.Base b s)).1 = true →
      Accept v n s =
        (Walk.call (Call.Base b) (v.Base b s)).andThen fun s1 =>
        (Walk.call (Call.Mixin n) (v.Mixin n s1).2).andThen fun s2 =>
        (walkEach (Accept v) as s2).andThen fun s3 =>
        (walkEach (AcceptMixinMember v) ms s3).andThen fun s4 =>
        (walkEach (Accept v) cs s4).andThen fun s5 =>
        walkEach (Accept v) ps s5) ∧
    (∀ n b as ms, n = Node.Dictionary b as ms →
      (v.Dictionary n (v.Base b s)).1 = true →
      Accept v n s =
        (Walk.call (Call.Base b) (v.Base b s)).andThen fun s1 =>
        (Walk.call (Call.Dictionary n) (v.Dictionary n s1).2).andThen fun s2 =>
        (walkEach (Accept v) as s2).andThen fun s3 =>
        walkEach (AcceptInterfaceMember v) ms s3) := by
  have hw : ∀ xs, AcceptEach v xs = walkEach (Accept v) xs := fun xs => by
    funext s; exact AcceptEach_eq_walkEach v xs s
  have hi : ∀ xs, AcceptInterfaceMemberEach v xs = walkEach (AcceptInterfaceMember v) xs :=
    fun xs => by funext s; exact AcceptInterfaceMemberEach_eq_walkEach v xs s
  have hm : ∀ xs, AcceptMixinMemberEach v xs = walkEach (AcceptMixinMember v) xs :=
    fun xs => by funext s; exact AcceptMixinMemberEach_eq_walkEach v xs s
  refine ⟨?_, ?_, ?_⟩
  · rintro n b as ms cs ps rfl h
    simp [Accept, Walk.ask_true _ _ _ h, Walk.call_andThen, hw, hi]
  · rintro n b as ms cs ps rfl h
    simp [Accept, Walk.ask_true _ _ _ h, Walk.call_andThen, hw, hm]
  · rintro n b as ms rfl h
    simp [Accept, Walk.ask_true _ _ _ h, Walk.call_andThen, hw, hi]

/-- C6, at a concrete input: an interface with one annotation, one member, one custom
operator and one pattern under the default visitor, whose `Interface` hook returns true;
they are visited in that order. -/
theorem C6_container_children_in_order_witness :
    (EmptyVisitor.visitor.Interface
        (Node.Interface ⟨[]⟩ [Node.Annotation ( Annotation.mk ⟨[]⟩ [])]
          [Node.Member (Member.mk ⟨[]⟩ Node.nil Literal.nil [] [])]
          [Node.CustomOp ⟨[]⟩] [Node.Pattern ⟨[]⟩])
        (EmptyVisitor.visitor.Base ⟨[]⟩ {})).1 = true ∧
    (Accept EmptyVisitor.visitor
        (Node.Interface ⟨[]⟩ [Node.Annotation ( Annotation.mk ⟨[]⟩ [])]
          [Node.Member (Member.mk ⟨[]⟩ Node.nil Literal.nil [] [])]
          [Node.CustomOp ⟨[]⟩] [Node.Pattern ⟨[]⟩]) {}).calls =
      [Call.Base ⟨[]⟩,
       Call.Interface (Node.Interface ⟨[]⟩ [Node.Annotation ( Annotation.mk ⟨[]⟩ [])]
          [Node.Member (Member.mk ⟨[]⟩ Node.nil Literal.nil [] [])]
          [Node.CustomOp ⟨[]⟩] [Node.Pattern ⟨[]⟩]),
       Call.Base ⟨[]⟩, Call.Annotation ( Annotation.mk ⟨[]⟩ []),
       Call.Base ⟨[]⟩, Call.Member (Member.mk ⟨[]⟩ Node.nil Literal.nil [] []),
       Call.Base ⟨[]⟩, Call.CustomOp (Node.CustomOp ⟨[]⟩),
       Call.Base ⟨[]⟩, Call.Pattern (Node.Pattern ⟨[]⟩)] :=
  ⟨rfl, (congrArg Walk.calls
    ((C6_container_children_in_order EmptyVisitor.visitor {}).1 _ ⟨[]⟩
      [Node.Annotation ( Annotation.mk ⟨[]⟩ [])]
      [Node.Member (Member.mk ⟨[]⟩ Node.nil Literal.nil [] [])]
      [Node.CustomOp ⟨[]⟩] [Node.Pattern ⟨[]⟩] rfl rfl)).trans rfl⟩

/-! ## The two member entry points -/

/-- C7: on a `Member`, `AcceptInterfaceMember` and `AcceptMixinMember` both run
`acceptMember`; started from the same visitor state they make the same hook invocations
in the same order and end in the same state. On every other value they agree as well. -/
theorem C7_member_entry_points_agree (v : Visitor σ) (s : σ) :
    (∀ m : Member,
      AcceptInterfaceMember v (Node.Member m) s = acceptMember v m s ∧
      AcceptMixinMember v (Node.Member m) s = acceptMember v m s ∧
      AcceptInterfaceMember v (Node.Member m) s = AcceptMixinMember v (Node.Member m) s) ∧
    (∀ n : Node, AcceptInterfaceMember v n s = AcceptMixinMember v n s) := by
  refine ⟨fun m => ?_, fun n => ?_⟩
  · simp [AcceptInterfaceMember, AcceptMixinMember]
  · cases n <;> simp [AcceptInterfaceMember, AcceptMixinMember]

/-! ## The error collector -/

/-- C10: on an absent (nil) root `GetAllErrorNodes` walks nothing and returns the empty
sequence, of length 0. -/
theorem C10_absent_root_gives_no_errors :
    GetAllErrorNodes Node.nil = Except.ok [] := rfl

/-! ## What the error collector accumulates

The collector never reads `out` and only appends to it, so its walk from any `out` is its
walk from the empty `out`, shifted. This is proved for every traversal function by
induction over the tree. -/

theorem Collects.done : Collects Walk.done := by
  intro e; exact ⟨[], none, fun o => by simp [Walk.done]⟩

theorem Collects.fail (t : String) : Collects (fun s => unknownTypeError s t) := by
  intro e; exact ⟨[], some ("unknown type " ++ t), fun o => by simp [unknownTypeError]⟩

theorem Collects.base (b : Base) :
    Collects (fun s => Walk.call (Call.Base b) (getAllErrors.visitor.Base b s)) := by
  intro e
  refine ⟨b.Errors, none, fun o => ?_⟩
  simp only [Walk.call, getAllErrors.visitor, getAllErrors.Base]
  cases h : b.Errors with
  | nil => simp
  | cons x xs => simp

theorem Collects.leaf {h : getAllErrors → getAllErrors} (c : Call) (hh : ∀ s, h s = s) :
    Collects (fun s => Walk.call c (h s)) := by
  intro e; exact ⟨[], none, fun o => by simp [Walk.call, hh]⟩

theorem Collects.andThen {f : getAllErrors → Walk getAllErrors}
    {g : getAllErrors → Walk getAllErrors} (hf : Collects f) (hg : Collects g) :
    Collects (fun s => (f s).andThen g) := by
  intro e
  obtain ⟨es, fl, h1⟩ := hf e
  obtain ⟨es2, fl2, h2⟩ := hg e
  cases fl with
  | some m =>
    refine ⟨es, some m, fun o => ?_⟩
    obtain ⟨a, b⟩ := h1 o
    simp [Walk.andThen, b, a]
  | none =>
    refine ⟨es ++ es2, fl2, fun o => ?_⟩
    obtain ⟨a, b⟩ := h1 o
    obtain ⟨a2, b2⟩ := h2 (o ++ es)
    simp [Walk.andThen, b, a, a2, b2]

theorem Collects.ask {h : getAllErrors → Bool × getAllErrors} (c : Call)
    (h2 : ∀ s, (h s).2 = s) (h1 : ∀ e o o2, (h ⟨e, o⟩).1 = (h ⟨e, o2⟩).1)
    {g : getAllErrors → Walk getAllErrors} (hg : Collects g) :
    Collects (fun s => Walk.ask c (h s) g) := by
  intro e
  obtain ⟨es2, fl2, k2⟩ := hg e
  cases hp : (h ⟨e, []⟩).1 with
  | false =>
    refine ⟨[], none, fun o => ?_⟩
    have := h1 e o []
    simp [Walk.ask, Walk.andThen, Walk.call, Walk.done, hp, this, h2]
  | true =>
    refine ⟨es2, fl2, fun o => ?_⟩
    obtain ⟨a2, b2⟩ := k2 o
    have := h1 e o []
    simp [Walk.ask, Walk.andThen, Walk.call, hp, this, h2, a2, b2]

mutual
theorem Collects_AcceptLiteral : ∀ l : Literal, Collects (AcceptLiteral getAllErrors.visitor l)
  | .nil => Collects.done
  | .BasicLiteral _ _ => Collects.andThen (Collects.base _) (Collects.leaf _ fun _ => rfl)
  | .SequenceLiteral _ es =>
    Collects.andThen (Collects.base _)
      (Collects.ask _ (fun _ => rfl) (fun _ _ _ => rfl) (Collects_AcceptLiteralEach es))
  | .other _ => Collects.fail _
theorem Collects_AcceptLiteralEach :
    ∀ ls : List Literal, Collects (AcceptLiteralEach getAllErrors.visitor ls)
  | [] => Collects.done
  | l :: ls => Collects.andThen (Collects_AcceptLiteral l) (Collects_AcceptLiteralEach ls)
end

theorem Collects_visitAnnotations :
    ∀ as : List Annotation, Collects (visitAnnotations getAllErrors.visitor as)
  | [] => Collects.done
  | _ :: as => Collects.andThen (Collects.leaf _ fun _ => rfl) (Collects_visitAnnotations as)

mutual
theorem Collects_Accept : ∀ n : Node, Collects (Accept getAllErrors.visitor n)
  | Node.nil => Collects.done
  | Node.ErrorNode _ =>
    Collects.andThen (Collects.base _) (Collects.leaf _ fun _ => rfl)
  | Node.File _ ds =>
    Collects.andThen (Collects.base _)
      (Collects.ask _ (fun _ => rfl) (fun _ _ _ => rfl)
        (Collects_AcceptEach ds))
  | Node.Interface _ as ms cs ps =>
    Collects.andThen (Collects.base _)
      (Collects.ask _ (fun _ => rfl) (fun _ _ _ => rfl)
        (Collects.andThen (Collects_AcceptEach as)
        (Collects.andThen (Collects_AcceptInterfaceMemberEach ms)
        (Collects.andThen (Collects_AcceptEach cs)
        (Collects_AcceptEach ps)))))
  | Node.Mixin _ as ms cs ps =>
    Collects.andThen (Collects.base _)
      (Collects.ask _ (fun _ => rfl) (fun _ _ _ => rfl)
        (Collects.andThen (Collects_AcceptEach as)
        (Collects.andThen (Collects_AcceptMixinMemberEach ms)
        (Collects.andThen (Collects_AcceptEach cs)
        (Collects_AcceptEach ps)))))
  | Node.Dictionary _ as ms =>
    Collects.andThen (Collects.base _)
      (Collects.ask _ (fun _ => rfl) (fun _ _ _ => rfl)
        (Collects.andThen (Collects_AcceptEach as)
        (Collects_AcceptInterfaceMemberEach ms)))
  | Node.Annotation ( Annotation.mk _ ps) =>
    Collects.andThen (Collects.base _)
      (Collects.ask _ (fun _ => rfl) (fun _ _ _ => rfl)
        (Collects_AcceptEach ps))
  | Node.Parameter _ t _ _ =>
    Collects.andThen (Collects.base _)
      (Collects.ask _ (fun _ => rfl) (fun _ _ _ => rfl)
        (Collects.andThen (Collects_Accept t)
        (Collects.andThen (Collects_AcceptLiteral _)
        (Collects_visitAnnotations _))))
  | Node.Implementation _ =>
    Collects.andThen (Collects.base _) (Collects.leaf _ fun _ => rfl)
  | Node.Includes _ =>
    Collects.andThen (Collects.base _) (Collects.leaf _ fun _ => rfl)
  | Node.Member _ =>
    Collects.andThen (Collects.base _) (Collects.fail _)
  | Node.CustomOp _ =>
    Collects.andThen (Collects.base _) (Collects.leaf _ fun _ => rfl)
  | Node.TypeName _ =>
    Collects.andThen (Collects.base _) (Collects.leaf _ fun _ => rfl)
  | Node.Pattern _ =>
    Collects.andThen (Collects.base _) (Collects.leaf _ fun _ => rfl)
  | Node.Callback _ r ps =>
    Collects.andThen (Collects.base _)
      (Collects.ask _ (fun _ => rfl) (fun _ _ _ => rfl)
        (Collects.andThen (Collects_Accept r)
        (Collects_AcceptEach ps)))
  | Node.Enum _ as _ =>
    Collects.andThen (Collects.base _)
      (Collects.ask _ (fun _ => rfl) (fun _ _ _ => rfl)
        (Collects.andThen (Collects_AcceptEach as)
        (Collects_AcceptLiteralEach _)))
  | Node.Typedef _ t _ =>
    Collects.andThen (Collects.base _)
      (Collects.ask _ (fun _ => rfl) (fun _ _ _ => rfl)
        (Collects.andThen (Collects_Accept t)
        (Collects_visitAnnotations _)))
  | Node.AnyType _ =>
    Collects.andThen (Collects.base _) (Collects.leaf _ fun _ => rfl)
  | Node.SequenceType _ e =>
    Collects.andThen (Collects.base _)
      (Collects.ask _ (fun _ => rfl) (fun _ _ _ => rfl)
        (Collects_Accept e))
  | Node.RecordType _ k e =>
    Collects.andThen (Collects.base _)
      (Collects.ask _ (fun _ => rfl) (fun _ _ _ => rfl)
        (Collects.andThen (Collects_Accept k)
        (Collects_Accept e)))
  | Node.ParametrizedType _ es =>
    Collects.andThen (Collects.base _)
      (Collects.ask _ (fun _ => rfl) (fun _ _ _ => rfl)
        (Collects_AcceptEach es))
  | Node.UnionType _ ts =>
    Collects.andThen (Collects.base _)
      (Collects.ask _ (fun _ => rfl) (fun _ _ _ => rfl)
        (Collects_AcceptEach ts))
  | Node.NullableType _ t =>
    Collects.andThen (Collects.base _)
      (Collects.ask _ (fun _ => rfl) (fun _ _ _ => rfl)
        (Collects_Accept t))
  | Node.other _ _ =>
    Collects.andThen (Collects.base _) (Collects.fail _)
theorem Collects_AcceptEach : ∀ ns : List Node, Collects (AcceptEach getAllErrors.visitor ns)
  | [] => Collects.done
  | n :: ns => Collects.andThen (Collects_Accept n) (Collects_AcceptEach ns)
theorem Collects_AcceptInterfaceMember : ∀ n : Node, Collects (AcceptInterfaceMember getAllErrors.visitor n)
  | Node.nil => Collects.done
  | Node.ErrorNode _ => Collects.fail _
  | Node.File _ _ => Collects.fail _
  | Node.Interface _ _ _ _ _ => Collects.fail _
  | Node.Mixin _ _ _ _ _ => Collects.fail _
  | Node.Dictionary _ _ _ => Collects.fail _
  | Node.Annotation _ => Collects.fail _
  | Node.Parameter _ _ _ _ => Collects.fail _
  | Node.Implementation _ => Collects.fail _
  | Node.Includes _ => Collects.fail _
  | Node.Member m => Collects_acceptMember m
  | Node.CustomOp _ => Collects.fail _
  | Node.TypeName _ => Collects.fail _
  | Node.Pattern _ => Collects.fail _
  | Node.Callback _ _ _ => Collects.fail _
  | Node.Enum _ _ _ => Collects.fail _
  | Node.Typedef _ _ _ => Collects.fail _
  | Node.AnyType _ => Collects.fail _
  | Node.SequenceType _ _ => Collects.fail _
  | Node.RecordType _ _ _ => Collects.fail _
  | Node.ParametrizedType _ _ => Collects.fail _
  | Node.UnionType _ _ => Collects.fail _
  | Node.NullableType _ _ => Collects.fail _
  | Node.other _ _ => Collects.fail _
theorem Collects_AcceptInterfaceMemberEach :
    ∀ ns : List Node, Collects (AcceptInterfaceMemberEach getAllErrors.visitor ns)
  | [] => Collects.done
  | n :: ns => Collects.andThen (Collects_AcceptInterfaceMember n) (Collects_AcceptInterfaceMemberEach ns)
theorem Collects_AcceptMixinMember : ∀ n : Node, Collects (AcceptMixinMember getAllErrors.visitor n)
  | Node.nil => Collects.done
  | Node.ErrorNode _ => Collects.fail _
  | Node.File _ _ => Collects.fail _
  | Node.Interface _ _ _ _ _ => Collects.fail _
  | Node.Mixin _ _ _ _ _ => Collects.fail _
  | Node.Dictionary _ _ _ => Collects.fail _
  | Node.Annotation _ => Collects.fail _
  | Node.Parameter _ _ _ _ => Collects.fail _
  | Node.Implementation _ => Collects.fail _
  | Node.Includes _ => Collects.fail _
  | Node.Member m => Collects_acceptMember m
  | Node.CustomOp _ => Collects.fail _
  | Node.TypeName _ => Collects.fail _
  | Node.Pattern _ => Collects.fail _
  | Node.Callback _ _ _ => Collects.fail _
  | Node.Enum _ _ _ => Collects.fail _
  | Node.Typedef _ _ _ => Collects.fail _
  | Node.AnyType _ => Collects.fail _
  | Node.SequenceType _ _ => Collects.fail _
  | Node.RecordType _ _ _ => Collects.fail _
  | Node.ParametrizedType _ _ => Collects.fail _
  | Node.UnionType _ _ => Collects.fail _
  | Node.NullableType _ _ => Collects.fail _
  | Node.other _ _ => Collects.fail _
theorem Collects_AcceptMixinMemberEach :
    ∀ ns : List Node, Collects (AcceptMixinMemberEach getAllErrors.visitor ns)
  | [] => Collects.done
  | n :: ns => Collects.andThen (Collects_AcceptMixinMember n) (Collects_AcceptMixinMemberEach ns)
theorem Collects_acceptMember : ∀ m : Member, Collects (acceptMember getAllErrors.visitor m)
  | .mk _ t _ ps as =>
    Collects.andThen (Collects.base _)
      (Collects.ask _ (fun _ => rfl) (fun _ _ _ => rfl)
        (Collects.andThen (Collects_Accept t)
        (Collects.andThen (Collects_AcceptLiteral _)
        (Collects.andThen (Collects_AcceptEach ps)
        (Collects_AcceptEach as)))))
end

/-- The collector's walk from any `out` is its walk from the empty `out`, shifted. -/
theorem Collects.from_empty {f : getAllErrors → Walk getAllErrors} (hf : Collects f)
    (e : EmptyVisitor) (o : List ErrorNode) :
    (f ⟨e, o⟩).state = ⟨e, o ++ (f ⟨e, []⟩).state.out⟩ ∧
    (f ⟨e, o⟩).failure = (f ⟨e, []⟩).failure := by
  obtain ⟨es, fl, h⟩ := hf e
  obtain ⟨a, b⟩ := h o
  obtain ⟨a0, b0⟩ := h []
  simp [a, b, a0, b0]

theorem GetAllErrorNodes_eq (n : Node) :
    GetAllErrorNodes n =
      match (Accept getAllErrors.visitor n {}).failure with
      | some msg => .error msg
      | none => .ok (Accept getAllErrors.visitor n {}).state.out := by
  cases n <;> rfl

/-- On a node that is not nil, the collector's walk is the base hook on the node's `Base`
followed by a walk that only appends to `out`. -/
theorem Accept_collector_base_first : ∀ n : Node, n ≠ Node.nil →
    ∃ g, Collects g ∧ ∀ s, Accept getAllErrors.visitor n s =
      (Walk.call (Call.Base n.NodeBase) (getAllErrors.visitor.Base n.NodeBase s)).andThen g
  | Node.nil, h => absurd rfl h
  | Node.ErrorNode _, _ =>
    ⟨_, Collects.leaf _ fun _ => rfl,
      fun s => by simp only [Accept]; rfl⟩
  | Node.File _ _, _ =>
    ⟨_, Collects.ask _ (fun _ => rfl) (fun _ _ _ => rfl)
      (Collects_AcceptEach _),
      fun s => by simp only [Accept]; rfl⟩
  | Node.Interface _ _ _ _ _, _ =>
    ⟨_, Collects.ask _ (fun _ => rfl) (fun _ _ _ => rfl)
      (Collects.andThen (Collects_AcceptEach _)
      (Collects.andThen (Collects_AcceptInterfaceMemberEach _)
      (Collects.andThen (Collects_AcceptEach _)
      (Collects_AcceptEach _)))),
      fun s => by simp only [Accept]; rfl⟩
  | Node.Mixin _ _ _ _ _, _ =>
    ⟨_, Collects.ask _ (fun _ => rfl) (fun _ _ _ => rfl)
      (Collects.andThen (Collects_AcceptEach _)
      (Collects.andThen (Collects_AcceptMixinMemberEach _)
      (Collects.andThen (Collects_AcceptEach _)
      (Collects_AcceptEach _)))),
      fun s => by simp only [Accept]; rfl⟩
  | Node.Dictionary _ _ _, _ =>
    ⟨_, Collects.ask _ (fun _ => rfl) (fun _ _ _ => rfl)
      (Collects.andThen (Collects_AcceptEach _)
      (Collects_AcceptInterfaceMemberEach _)),
      fun s => by simp only [Accept]; rfl⟩
  | Node.Annotation ( Annotation.mk _ _), _ =>
    ⟨_, Collects.ask _ (fun _ => rfl) (fun _ _ _ => rfl)
      (Collects_AcceptEach _),
      fun s => by simp only [Accept]; rfl⟩
  | Node.Parameter _ _ _ _, _ =>
    ⟨_, Collects.ask _ (fun _ => rfl) (fun _ _ _ => rfl)
      (Collects.andThen (Collects_Accept _)
      (Collects.andThen (Collects_AcceptLiteral _)
      (Collects_visitAnnotations _))),
      fun s => by simp only [Accept]; rfl⟩
  | Node.Implementation _, _ =>
    ⟨_, Collects.leaf _ fun _ => rfl,
      fun s => by simp only [Accept]; rfl⟩
  | Node.Includes _, _ =>
    ⟨_, Collects.leaf _ fun _ => rfl,
      fun s => by simp only [Accept]; rfl⟩
  | Node.Member _, _ =>
    ⟨_, Collects.fail _,
      fun s => by simp only [Accept]; rfl⟩
  | Node.CustomOp _, _ =>
    ⟨_, Collects.leaf _ fun _ => rfl,
      fun s => by simp only [Accept]; rfl⟩
  | Node.TypeName _, _ =>
    ⟨_, Collects.leaf _ fun _ => rfl,
      fun s => by simp only [Accept]; rfl⟩
  | Node.Pattern _, _ =>
    ⟨_, Collects.leaf _ fun _ => rfl,
      fun s => by simp only [Accept]; rfl⟩
  | Node.Callback _ _ _, _ =>
    ⟨_, Collects.ask _ (fun _ => rfl) (fun _ _ _ => rfl)
      (Collects.andThen (Collects_Accept _)
      (Collects_AcceptEach _)),
      fun s => by simp only [Accept]; rfl⟩
  | Node.Enum _ _ _, _ =>
    ⟨_, Collects.ask _ (fun _ => rfl) (fun _ _ _ => rfl)
      (Collects.andThen (Collects_AcceptEach _)
      (Collects_AcceptLiteralEach _)),
      fun s => by simp only [Accept]; rfl⟩
  | Node.Typedef _ _ _, _ =>
    ⟨_, Collects.ask _ (fun _ => rfl) (fun _ _ _ => rfl)
      (Collects.andThen (Collects_Accept _)
      (Collects_visitAnnotations _)),
      fun s => by simp only [Accept]; rfl⟩
  | Node.AnyType _, _ =>
    ⟨_, Collects.leaf _ fun _ => rfl,
      fun s => by simp only [Accept]; rfl⟩
  | Node.SequenceType _ _, _ =>
    ⟨_, Collects.ask _ (fun _ => rfl) (fun _ _ _ => rfl)
      (Collects_Accept _),
      fun s => by simp only [Accept]; rfl⟩
  | Node.RecordType _ _ _, _ =>
    ⟨_, Collects.ask _ (fun _ => rfl) (fun _ _ _ => rfl)
      (Collects.andThen (Collects_Accept _)
      (Collects_Accept _)),
      fun s => by simp only [Accept]; rfl⟩
  | Node.ParametrizedType _ _, _ =>
    ⟨_, Collects.ask _ (fun _ => rfl) (fun _ _ _ => rfl)
      (Collects_AcceptEach _),
      fun s => by simp only [Accept]; rfl⟩
  | Node.UnionType _ _, _ =>
    ⟨_, Collects.ask _ (fun _ => rfl) (fun _ _ _ => rfl)
      (Collects_AcceptEach _),
      fun s => by simp only [Accept]; rfl⟩
  | Node.NullableType _ _, _ =>
    ⟨_, Collects.ask _ (fun _ => rfl) (fun _ _ _ => rfl)
      (Collects_Accept _),
      fun s => by simp only [Accept]; rfl⟩
  | Node.other _ _, _ =>
    ⟨_, Collects.fail _,
      fun s => by simp only [Accept]; rfl⟩

theorem getAllErrors_Base_appends (b : Base) (e : EmptyVisitor) (o : List ErrorNode) :
    getAllErrors.visitor.Base b ⟨e, o⟩ = ⟨e, o ++ b.Errors⟩ := by
  simp only [getAllErrors.visitor, getAllErrors.Base]
  cases h : b.Errors with
  | nil => simp
  | cons x xs => simp

theorem Collects.run {f : getAllErrors → Walk getAllErrors} (hf : Collects f)
    (e : EmptyVisitor) :
    ∃ (es : List ErrorNode) (fl : Option String),
      ((f ⟨e, []⟩).state = ⟨e, es⟩ ∧ (f ⟨e, []⟩).failure = fl) ∧
      ∀ o, (f ⟨e, o⟩).state = ⟨e, o ++ es⟩ ∧ (f ⟨e, o⟩).failure = fl := by
  obtain ⟨es, fl, h⟩ := hf e
  exact ⟨es, fl, by simpa using h [], h⟩

/-- Whenever `GetAllErrorNodes` returns on a node that is not nil, its output begins with
the node's own `Base.Errors`, in their stored order. -/
theorem GetAllErrorNodes_own_errors_first (n : Node) (hn : n ≠ Node.nil)
    (out : List ErrorNode) (h : GetAllErrorNodes n = Except.ok out) :
    ∃ rest, out = n.NodeBase.Errors ++ rest := by
  obtain ⟨g, hg, hacc⟩ := Accept_collector_base_first n hn
  obtain ⟨es, fl, -, hrun⟩ := hg.run {}
  rw [GetAllErrorNodes_eq, hacc, Walk.call_andThen] at h
  have hb : getAllErrors.visitor.Base n.NodeBase {} = ⟨{}, n.NodeBase.Errors⟩ := by
    have := getAllErrors_Base_appends n.NodeBase {} []
    simpa using this
  rw [hb] at h
  obtain ⟨a, b⟩ := hrun n.NodeBase.Errors
  simp only [a, b] at h
  refine ⟨es, ?_⟩
  cases fl with
  | some m => cases h
  | none => cases h; rfl

theorem GetAllErrorNodesEach_eq (ds : List Node) :
    GetAllErrorNodesEach ds =
      match (AcceptEach getAllErrors.visitor ds {}).failure with
      | some msg => .error msg
      | none => .ok (AcceptEach getAllErrors.visitor ds {}).state.out := by
  induction ds with
  | nil => rfl
  | cons d ds ih =>
    rw [GetAllErrorNodesEach, ih, GetAllErrorNodes_eq, AcceptEach]
    obtain ⟨es, fl, ⟨a, b⟩, -⟩ := (Collects_Accept d).run {}
    obtain ⟨es2, fl2, ⟨a0, b0⟩, hrun⟩ := (Collects_AcceptEach ds).run {}
    obtain ⟨a3, b3⟩ := hrun es
    have a1 : (Accept getAllErrors.visitor d {}).state = ⟨{}, es⟩ := a
    have b1 : (Accept getAllErrors.visitor d {}).failure = fl := b
    have a2 : (AcceptEach getAllErrors.visitor ds {}).state = ⟨{}, es2⟩ := a0
    have b2 : (AcceptEach getAllErrors.visitor ds {}).failure = fl2 := b0
    cases fl with
    | some m => simp only [Walk.andThen, b1]
    | none =>
      simp only [Walk.andThen, a1, b1, a2, b2, a3, b3]
      cases fl2 <;> rfl

/-- For a `File`, the output of `GetAllErrorNodes` is the file's own `Base.Errors`
followed by the outputs of `GetAllErrorNodes` on its declarations, concatenated in list
order (and the call fails exactly when one of those does). -/
theorem GetAllErrorNodes_File (b : Base) (ds : List Node) :
    GetAllErrorNodes (Node.File b ds) =
      match GetAllErrorNodesEach ds with
      | .error msg => .error msg
      | .ok rest => .ok (b.Errors ++ rest) := by
  rw [GetAllErrorNodes_eq, GetAllErrorNodesEach_eq]
  simp only [Accept, Walk.call_andThen]
  have hb : getAllErrors.visitor.Base b {} = ⟨{}, b.Errors⟩ := by
    have := getAllErrors_Base_appends b {} []
    simpa using this
  rw [hb]
  have ht : (getAllErrors.visitor.File (Node.File b ds) ⟨{}, b.Errors⟩) =
      (true, ⟨{}, b.Errors⟩) := rfl
  rw [ht, Walk.ask_true _ _ _ rfl, Walk.call_andThen]
  obtain ⟨es2, fl2, ⟨a0, b0⟩, hrun⟩ := (Collects_AcceptEach ds).run {}
  obtain ⟨a3, b3⟩ := hrun b.Errors
  have a2 : (AcceptEach getAllErrors.visitor ds {}).state = ⟨{}, es2⟩ := a0
  have b2 : (AcceptEach getAllErrors.visitor ds {}).failure = fl2 := b0
  simp only [a2, b2, a3, b3]
  cases fl2 <;> rfl


theorem visitAnnotations_collector (as : List Annotation) (s : getAllErrors) :
    (visitAnnotations getAllErrors.visitor as s).state = s ∧
    (visitAnnotations getAllErrors.visitor as s).failure = none := by
  induction as generalizing s with
  | nil => simp [visitAnnotations, Walk.done]
  | cons a as ih =>
    rw [visitAnnotations, Walk.call_andThen]
    exact ih _

theorem Walk.andThen_silent (w : Walk σ) (g : σ → Walk σ)
    (hg : ∀ s, (g s).state = s ∧ (g s).failure = none) :
    (w.andThen g).state = w.state ∧ (w.andThen g).failure = w.failure := by
  cases w with
  | mk st cs fl =>
    cases fl with
    | some m => simp [Walk.andThen]
    | none => simp [Walk.andThen, hg st]

/-- The output of `GetAllErrorNodes` on a `Parameter` or on a `Typedef` does not depend on
the node's `Annotations`: it is the output for the same node without annotations. -/
theorem GetAllErrorNodes_ignores_annotations (b : Base) (t : Node) (i : Literal)
    (as : List Annotation) :
    GetAllErrorNodes (Node.Parameter b t i as) = GetAllErrorNodes (Node.Parameter b t i []) ∧
    GetAllErrorNodes (Node.Typedef b t as) = GetAllErrorNodes (Node.Typedef b t []) := by
  have hp : ∀ (w : Walk getAllErrors) (xs : List Annotation),
      (w.andThen (visitAnnotations getAllErrors.visitor xs)).state = w.state ∧
      (w.andThen (visitAnnotations getAllErrors.visitor xs)).failure = w.failure :=
    fun w xs => Walk.andThen_silent w _ (visitAnnotations_collector xs)
  have hb : getAllErrors.visitor.Base b {} = ⟨{}, b.Errors⟩ := by
    have := getAllErrors_Base_appends b {} []
    simpa using this
  constructor
  · have key : ∀ xs, GetAllErrorNodes (Node.Parameter b t i xs) =
        match ((Accept getAllErrors.visitor t ⟨{}, b.Errors⟩).andThen
            (AcceptLiteral getAllErrors.visitor i)).failure with
        | some msg => .error msg
        | none => .ok ((Accept getAllErrors.visitor t ⟨{}, b.Errors⟩).andThen
            (AcceptLiteral getAllErrors.visitor i)).state.out := by
      intro xs
      rw [GetAllErrorNodes_eq]
      simp only [Accept, Walk.call_andThen]
      rw [hb]
      have ht : getAllErrors.visitor.Parameter (Node.Parameter b t i xs) ⟨{}, b.Errors⟩ =
          (true, ⟨{}, b.Errors⟩) := rfl
      rw [ht, Walk.ask_true _ _ _ rfl, Walk.call_andThen]
      have hre : ((Accept getAllErrors.visitor t ⟨{}, b.Errors⟩).andThen fun s =>
          (AcceptLiteral getAllErrors.visitor i s).andThen fun s =>
            visitAnnotations getAllErrors.visitor xs s) =
          ((Accept getAllErrors.visitor t ⟨{}, b.Errors⟩).andThen
            (AcceptLiteral getAllErrors.visitor i)).andThen
            (visitAnnotations getAllErrors.visitor xs) := by
        rw [Walk.andThen_assoc]
      simp only [hre, hp]
    rw [key as, key []]
  · have key : ∀ xs, GetAllErrorNodes (Node.Typedef b t xs) =
        match (Accept getAllErrors.visitor t ⟨{}, b.Errors⟩).failure with
        | some msg => .error msg
        | none => .ok (Accept getAllErrors.visitor t ⟨{}, b.Errors⟩).state.out := by
      intro xs
      rw [GetAllErrorNodes_eq]
      simp only [Accept, Walk.call_andThen]
      rw [hb]
      have ht : getAllErrors.visitor.Typedef (Node.Typedef b t xs) ⟨{}, b.Errors⟩ =
          (true, ⟨{}, b.Errors⟩) := rfl
      rw [ht, Walk.ask_true _ _ _ rfl, Walk.call_andThen]
      have hre : ((Accept getAllErrors.visitor t ⟨{}, b.Errors⟩).andThen fun s =>
            visitAnnotations getAllErrors.visitor xs s) =
          (Accept getAllErrors.visitor t ⟨{}, b.Errors⟩).andThen
            (visitAnnotations getAllErrors.visitor xs) := rfl
      simp only [hre, hp]
    rw [key as, key []]

/-! ## Where the code departs from the specification -/

/-- For each of the 21 kinds that have a case in the type switch of `Accept`, the walk of
a node of that kind starts with the base hook on the node's `Base` followed by the hook of
that kind on the node. -/
theorem Accept_invokes_matching_hook (v : Visitor σ) (s : σ) :
    (∀ e : ErrorNode, ∃ rest, (Accept v (Node.ErrorNode e) s).calls =
      Call.Base e.NodeBase :: Call.ErrorNode e :: rest) ∧
    (∀ n b ds, n = Node.File b ds → ∃ rest, (Accept v n s).calls =
      Call.Base b :: Call.File n :: rest) ∧
    (∀ n b as ms cs ps, n = Node.Interface b as ms cs ps → ∃ rest, (Accept v n s).calls =
      Call.Base b :: Call.Interface n :: rest) ∧
    (∀ n b as ms cs ps, n = Node.Mixin b as ms cs ps → ∃ rest, (Accept v n s).calls =
      Call.Base b :: Call.Mixin n :: rest) ∧
    (∀ n b as ms, n = Node.Dictionary b as ms → ∃ rest, (Accept v n s).calls =
      Call.Base b :: Call.Dictionary n :: rest) ∧
    (∀ a : Annotation, ∃ rest, (Accept v (Node.Annotation a) s).calls =
      Call.Base a.NodeBase :: Call.Annotation a :: rest) ∧
    (∀ n b t i as, n = Node.Parameter b t i as → ∃ rest, (Accept v n s).calls =
      Call.Base b :: Call.Parameter n :: rest) ∧
    (∀ n b, n = Node.Implementation b → ∃ rest, (Accept v n s).calls =
      Call.Base b :: Call.Implementation n :: rest) ∧
    (∀ n b, n = Node.Includes b → ∃ rest, (Accept v n s).calls =
      Call.Base b :: Call.Includes n :: rest) ∧
    (∀ n b, n = Node.CustomOp b → ∃ rest, (Accept v n s).calls =
      Call.Base b :: Call.CustomOp n :: rest) ∧
    (∀ n b, n = Node.TypeName b → ∃ rest, (Accept v n s).calls =
      Call.Base b :: Call.TypeName n :: rest) ∧
    (∀ n b, n = Node.Pattern b → ∃ rest, (Accept v n s).calls =
      Call.Base b :: Call.Pattern n :: rest) ∧
    (∀ n b r ps, n = Node.Callback b r ps → ∃ rest, (Accept v n s).calls =
      Call.Base b :: Call.Callback n :: rest) ∧
    (∀ n b as qs, n = Node.Enum b as qs → ∃ rest, (Accept v n s).calls =
      Call.Base b :: Call.Enum n :: rest) ∧
    (∀ n b t as, n = Node.Typedef b t as → ∃ rest, (Accept v n s).calls =
      Call.Base b :: Call.Typedef n :: rest) ∧
    (∀ n b, n = Node.AnyType b → ∃ rest, (Accept v n s).calls =
      Call.Base b :: Call.AnyType n :: rest) ∧
    (∀ n b e, n = Node.SequenceType b e → ∃ rest, (Accept v n s).calls =
      Call.Base b :: Call.SequenceType n :: rest) ∧
    (∀ n b k e, n = Node.RecordType b k e → ∃ rest, (Accept v n s).calls =
      Call.Base b :: Call.RecordType n :: rest) ∧
    (∀ n b es, n = Node.ParametrizedType b es → ∃ rest, (Accept v n s).calls =
      Call.Base b :: Call.ParametrizedType n :: rest) ∧
    (∀ n b ts, n = Node.UnionType b ts → ∃ rest, (Accept v n s).calls =
      Call.Base b :: Call.UnionType n :: rest) ∧
    (∀ n b t, n = Node.NullableType b t → ∃ rest, (Accept v n s).calls =
      Call.Base b :: Call.NullableType n :: rest) := by
  refine ⟨?_, ?_, ?_, ?_, ?_, ?_, ?_, ?_, ?_, ?_, ?_, ?_, ?_, ?_, ?_, ?_, ?_, ?_, ?_, ?_, ?_⟩
  case refine_1 =>
    rintro ⟨es, m⟩
    exact ⟨[], by simp only [Accept, Walk.call_andThen, ErrorNode.NodeBase]; rfl⟩
  case refine_6 =>
    rintro ⟨b, ps⟩
    exact ⟨_, by simp only [Accept, Walk.call_andThen, Walk.ask, Annotation.NodeBase]; rfl⟩
  all_goals
    intros
    subst_vars
    first
      | exact ⟨[], by simp only [Accept, Walk.call_andThen]; rfl⟩
      | exact ⟨_, by simp only [Accept, Walk.call_andThen, Walk.ask]; rfl⟩

/-- In `Accept` a `*Member` takes the `default` case of the type switch: the base hook is
invoked and the walk ends in `unknownTypeError`, for every visitor. -/
theorem Accept_Member_fails (v : Visitor σ) (m : Member) (s : σ) :
    Accept v (Node.Member m) s =
      ⟨v.Base m.NodeBase s, [Call.Base m.NodeBase], some "unknown type *ast.Member"⟩ := by
  simp [Accept, Walk.call_andThen, unknownTypeError, Node.typeName]

/-- C2, at the failing input: walking a `Parameter` that has one annotation (under the
default visitor, every hook true) invokes the `Annotation` hook on the annotation right
after the `Parameter` hook, with no base-hook invocation for the annotation; one base
invocation stands against two kind-specific ones. The same holds for a `Typedef`. -/
theorem C2_parameter_annotation_without_base_call :
    (Accept EmptyVisitor.visitor
        (Node.Parameter ⟨[]⟩ Node.nil Literal.nil [ Annotation.mk ⟨[ErrorNode.mk [] "e"]⟩ []])
        {}).calls =
      [Call.Base ⟨[]⟩,
       Call.Parameter
        (Node.Parameter ⟨[]⟩ Node.nil Literal.nil [ Annotation.mk ⟨[ErrorNode.mk [] "e"]⟩ []]),
       Call.Annotation ( Annotation.mk ⟨[ErrorNode.mk [] "e"]⟩ [])] ∧
    ((Accept EmptyVisitor.visitor
        (Node.Parameter ⟨[]⟩ Node.nil Literal.nil [ Annotation.mk ⟨[ErrorNode.mk [] "e"]⟩ []])
        {}).calls.filter Call.isBase).length = 1 ∧
    ((Accept EmptyVisitor.visitor
        (Node.Parameter ⟨[]⟩ Node.nil Literal.nil [ Annotation.mk ⟨[ErrorNode.mk [] "e"]⟩ []])
        {}).calls.filter fun c => !c.isBase).length = 2 ∧
    (Accept EmptyVisitor.visitor
        (Node.Typedef ⟨[]⟩ Node.nil [ Annotation.mk ⟨[ErrorNode.mk [] "e"]⟩ []]) {}).calls =
      [Call.Base ⟨[]⟩,
       Call.Typedef (Node.Typedef ⟨[]⟩ Node.nil [ Annotation.mk ⟨[ErrorNode.mk [] "e"]⟩ []]),
       Call.Annotation ( Annotation.mk ⟨[ErrorNode.mk [] "e"]⟩ [])] :=
  ⟨rfl, rfl, rfl, rfl⟩

/-- C4, at the failing input: `Accept` on a `Member` node invokes the base hook and then
fails with "unknown type *ast.Member"; the `Member` hook is not invoked. The member entry
point on the same node does invoke it. -/
theorem C4_accept_on_member_fails :
    Accept EmptyVisitor.visitor (Node.Member (Member.mk ⟨[]⟩ Node.nil Literal.nil [] [])) {} =
      ⟨{}, [Call.Base ⟨[]⟩], some "unknown type *ast.Member"⟩ ∧
    AcceptInterfaceMember EmptyVisitor.visitor
        (Node.Member (Member.mk ⟨[]⟩ Node.nil Literal.nil [] [])) {} =
      ⟨{}, [Call.Base ⟨[]⟩, Call.Member (Member.mk ⟨[]⟩ Node.nil Literal.nil [] [])], none⟩ :=
  ⟨rfl, rfl⟩

/-- C8, at the failing input: an error record attached to an annotation of a `Parameter`
(or of a `Typedef`) is not in the output of `GetAllErrorNodes`, while the same annotation
under an `Enum`, which walks its annotations with `Accept`, is collected. -/
theorem C8_error_on_parameter_annotation_is_missed :
    GetAllErrorNodes
        (Node.Parameter ⟨[]⟩ Node.nil Literal.nil [ Annotation.mk ⟨[ErrorNode.mk [] "e"]⟩ []]) =
      Except.ok [] ∧
    GetAllErrorNodes
        (Node.Typedef ⟨[]⟩ Node.nil [ Annotation.mk ⟨[ErrorNode.mk [] "e"]⟩ []]) =
      Except.ok [] ∧
    GetAllErrorNodes
        (Node.Enum ⟨[]⟩ [Node.Annotation ( Annotation.mk ⟨[ErrorNode.mk [] "e"]⟩ [])] []) =
      Except.ok [ErrorNode.mk [] "e"] :=
  ⟨rfl, rfl, rfl⟩

/-- C9, at the failing input: on a root that is a `Member` carrying one error record,
`GetAllErrorNodes` ends in the failure "unknown type *ast.Member" and returns no
sequence. The tree of the claim's example, a `File` holding an `Interface` holding a
`Member` with one record each, gives the three records in pre-order. -/
theorem C9_member_root_returns_nothing :
    GetAllErrorNodes
        (Node.Member (Member.mk ⟨[ErrorNode.mk [] "e2"]⟩ Node.nil Literal.nil [] [])) =
      Except.error "unknown type *ast.Member" ∧
    GetAllErrorNodes
        (Node.File ⟨[ErrorNode.mk [] "e0"]⟩
          [Node.Interface ⟨[ErrorNode.mk [] "e1"]⟩ []
            [Node.Member (Member.mk ⟨[ErrorNode.mk [] "e2"]⟩ Node.nil Literal.nil [] [])]
            [] []]) =
      Except.ok [ErrorNode.mk [] "e0", ErrorNode.mk [] "e1", ErrorNode.mk [] "e2"] :=
  ⟨rfl, rfl⟩

/-! ## The default visitor in selective mode -/

/-- C11: every composite hook of an `EmptyVisitor` returns true when `UseFlags` is false
and the value of its own `Scan` flag when `UseFlags` is true. The result is a function of
`UseFlags` and of that one flag: no other flag (of a leaf kind, of another composite kind,
`ScanBase`) and no node enters it. -/
theorem C11_selective_hooks_follow_their_flag (t : EmptyVisitor) :
    (∀ n, t.File n = if t.UseFlags then t.ScanFile else true) ∧
    (∀ n, t.Interface n = if t.UseFlags then t.ScanInterface else true) ∧
    (∀ n, t.Mixin n = if t.UseFlags then t.ScanMixin else true) ∧
    (∀ n, t.Dictionary n = if t.UseFlags then t.ScanDictionary else true) ∧
    (∀ n, t.Annotation n = if t.UseFlags then t.ScanAnnotation else true) ∧
    (∀ n, t.Parameter n = if t.UseFlags then t.ScanParameter else true) ∧
    (∀ n, t.Member n = if t.UseFlags then t.ScanMember else true) ∧
    (∀ n, t.Callback n = if t.UseFlags then t.ScanCallback else true) ∧
    (∀ n, t.Enum n = if t.UseFlags then t.ScanEnum else true) ∧
    (∀ n, t.Typedef n = if t.UseFlags then t.ScanTypedef else true) ∧
    (∀ n, t.SequenceType n = if t.UseFlags then t.ScanSequenceType else true) ∧
    (∀ n, t.RecordType n = if t.UseFlags then t.ScanRecordType else true) ∧
    (∀ n, t.ParametrizedType n = if t.UseFlags then t.ScanParametrizedType else true) ∧
    (∀ n, t.UnionType n = if t.UseFlags then t.ScanUnionType else true) ∧
    (∀ n, t.NullableType n = if t.UseFlags then t.ScanNullableType else true) ∧
    (∀ n, t.SequenceLiteral n = if t.UseFlags then t.ScanSequenceLiteral else true) := by
  refine ⟨?_, ?_, ?_, ?_, ?_, ?_, ?_, ?_, ?_, ?_, ?_, ?_, ?_, ?_, ?_, ?_⟩ <;> intro n
  · cases h : t.UseFlags <;> simp [EmptyVisitor.File, h]
  · cases h : t.UseFlags <;> simp [EmptyVisitor.Interface, h]
  · cases h : t.UseFlags <;> simp [EmptyVisitor.Mixin, h]
  · cases h : t.UseFlags <;> simp [EmptyVisitor.Dictionary, h]
  · cases h : t.UseFlags <;> simp [EmptyVisitor.Annotation, h]
  · cases h : t.UseFlags <;> simp [EmptyVisitor.Parameter, h]
  · cases h : t.UseFlags <;> simp [EmptyVisitor.Member, h]
  · cases h : t.UseFlags <;> simp [EmptyVisitor.Callback, h]
  · cases h : t.UseFlags <;> simp [EmptyVisitor.Enum, h]
  · cases h : t.UseFlags <;> simp [EmptyVisitor.Typedef, h]
  · cases h : t.UseFlags <;> simp [EmptyVisitor.SequenceType, h]
  · cases h : t.UseFlags <;> simp [EmptyVisitor.RecordType, h]
  · cases h : t.UseFlags <;> simp [EmptyVisitor.ParametrizedType, h]
  · cases h : t.UseFlags <;> simp [EmptyVisitor.UnionType, h]
  · cases h : t.UseFlags <;> simp [EmptyVisitor.NullableType, h]
  · cases h : t.UseFlags <;> simp [EmptyVisitor.SequenceLiteral, h]

theorem Walk.ok_andThen (s : σ) (cs : List Call) (f : σ → Walk σ) :
    (⟨s, cs, none⟩ : Walk σ).andThen f = ⟨(f s).state, cs ++ (f s).calls, (f s).failure⟩ :=
  rfl

/-- Under `selectFileInterface` a list of annotations walked with `Accept` gets the base
hook and the `Annotation` hook on each, in order, and nothing below. -/
theorem AcceptEach_annotations_select (as : List Annotation) :
    AcceptEach EmptyVisitor.visitor (as.map Node.Annotation) selectFileInterface =
      ⟨selectFileInterface,
        (as.map fun a => [Call.Base a.NodeBase, Call.Annotation a]).flatten, none⟩ := by
  induction as with
  | nil => rfl
  | cons a as ih =>
    have h1 : Accept EmptyVisitor.visitor (Node.Annotation a) selectFileInterface =
        ⟨selectFileInterface, [Call.Base a.NodeBase, Call.Annotation a], none⟩ := by
      cases a; rfl
    rw [List.map_cons, AcceptEach, h1, Walk.ok_andThen, ih]
    rfl

/-- Under `selectFileInterface` a list of members walked through
`AcceptInterfaceMember` gets the base hook and the `Member` hook on each, in order, and
nothing below. -/
theorem AcceptInterfaceMemberEach_select (ms : List Member) :
    AcceptInterfaceMemberEach EmptyVisitor.visitor (ms.map Node.Member) selectFileInterface =
      ⟨selectFileInterface,
        (ms.map fun m => [Call.Base m.NodeBase, Call.Member m]).flatten, none⟩ := by
  induction ms with
  | nil => rfl
  | cons m ms ih =>
    have h1 : AcceptInterfaceMember EmptyVisitor.visitor (Node.Member m) selectFileInterface =
        ⟨selectFileInterface, [Call.Base m.NodeBase, Call.Member m], none⟩ := by
      cases m; rfl
    rw [List.map_cons, AcceptInterfaceMemberEach, h1, Walk.ok_andThen, ih]
    rfl

/-- Under any `EmptyVisitor` a list of custom operators walked with `Accept` gets the
base hook and the `CustomOp` hook on each, in order. -/
theorem AcceptEach_customOps (t : EmptyVisitor) (cs : List Base) :
    AcceptEach EmptyVisitor.visitor (cs.map Node.CustomOp) t =
      ⟨t, (cs.map fun c => [Call.Base c, Call.CustomOp (Node.CustomOp c)]).flatten, none⟩ := by
  induction cs with
  | nil => rfl
  | cons c cs ih =>
    have h1 : Accept EmptyVisitor.visitor (Node.CustomOp c) t =
        ⟨t, [Call.Base c, Call.CustomOp (Node.CustomOp c)], none⟩ := rfl
    rw [List.map_cons, AcceptEach, h1, Walk.ok_andThen, ih]
    rfl

/-- Under any `EmptyVisitor` a list of patterns walked with `Accept` gets the base hook
and the `Pattern` hook on each, in order. -/
theorem AcceptEach_patterns (t : EmptyVisitor) (ps : List Base) :
    AcceptEach EmptyVisitor.visitor (ps.map Node.Pattern) t =
      ⟨t, (ps.map fun p => [Call.Base p, Call.Pattern (Node.Pattern p)]).flatten, none⟩ := by
  induction ps with
  | nil => rfl
  | cons p ps ih =>
    have h1 : Accept EmptyVisitor.visitor (Node.Pattern p) t =
        ⟨t, [Call.Base p, Call.Pattern (Node.Pattern p)], none⟩ := rfl
    rw [List.map_cons, AcceptEach, h1, Walk.ok_andThen, ih]
    rfl

/-- C12, as amended: with the selective `EmptyVisitor` whose only set flags are `ScanFile`
and `ScanInterface`, walking a `File` whose declarations are one `Interface` and one
`Dictionary` descends into the interface (base hook and `Member` hook on each of its
members, in order, as on its annotations, custom operators and patterns) and stops at the
dictionary: after the base hook and the `Dictionary` hook nothing is invoked for its
annotations or members. -/
theorem C12_selective_walk_descends_into_interface_only (fb ib db : Base)
    (as : List Annotation) (ms : List Member) (cs ps : List Base) (das dms : List Node) :
    Accept EmptyVisitor.visitor
        (Node.File fb
          [Node.Interface ib (as.map Node.Annotation) (ms.map Node.Member)
              (cs.map Node.CustomOp) (ps.map Node.Pattern),
            Node.Dictionary db das dms]) selectFileInterface =
      ⟨selectFileInterface,
        [Call.Base fb,
         Call.File (Node.File fb
          [Node.Interface ib (as.map Node.Annotation) (ms.map Node.Member)
              (cs.map Node.CustomOp) (ps.map Node.Pattern),
            Node.Dictionary db das dms]),
         Call.Base ib,
         Call.Interface (Node.Interface ib (as.map Node.Annotation) (ms.map Node.Member)
              (cs.map Node.CustomOp) (ps.map Node.Pattern))] ++
        (as.map fun a => [Call.Base a.NodeBase, Call.Annotation a]).flatten ++
        (ms.map fun m => [Call.Base m.NodeBase, Call.Member m]).flatten ++
        (cs.map fun c => [Call.Base c, Call.CustomOp (Node.CustomOp c)]).flatten ++
        (ps.map fun p => [Call.Base p, Call.Pattern (Node.Pattern p)]).flatten ++
        [Call.Base db, Call.Dictionary (Node.Dictionary db das dms)],
        none⟩ := by
  have hd : Accept EmptyVisitor.visitor (Node.Dictionary db das dms) selectFileInterface =
      ⟨selectFileInterface, [Call.Base db, Call.Dictionary (Node.Dictionary db das dms)],
        none⟩ := rfl
  have hi : Accept EmptyVisitor.visitor
      (Node.Interface ib (as.map Node.Annotation) (ms.map Node.Member)
        (cs.map Node.CustomOp) (ps.map Node.Pattern)) selectFileInterface =
      ⟨selectFileInterface,
        [Call.Base ib,
         Call.Interface (Node.Interface ib (as.map Node.Annotation) (ms.map Node.Member)
              (cs.map Node.CustomOp) (ps.map Node.Pattern))] ++
        (as.map fun a => [Call.Base a.NodeBase, Call.Annotation a]).flatten ++
        (ms.map fun m => [Call.Base m.NodeBase, Call.Member m]).flatten ++
        (cs.map fun c => [Call.Base c, Call.CustomOp (Node.CustomOp c)]).flatten ++
        (ps.map fun p => [Call.Base p, Call.Pattern (Node.Pattern p)]).flatten, none⟩ := by
    rw [Accept, Walk.call_andThen]
    have hb : EmptyVisitor.visitor.Base ib selectFileInterface = selectFileInterface := rfl
    rw [hb, Walk.ask_true _ _ _ rfl, Walk.call_andThen]
    have hs : (EmptyVisitor.visitor.Interface
        (Node.Interface ib (as.map Node.Annotation) (ms.map Node.Member)
          (cs.map Node.CustomOp) (ps.map Node.Pattern)) selectFileInterface).2 =
        selectFileInterface := rfl
    rw [hs, AcceptEach_annotations_select, Walk.ok_andThen, AcceptInterfaceMemberEach_select,
      Walk.ok_andThen, AcceptEach_customOps, Walk.ok_andThen, AcceptEach_patterns]
    simp
  rw [Accept, Walk.call_andThen]
  have hb : EmptyVisitor.visitor.Base fb selectFileInterface = selectFileInterface := rfl
  rw [hb, Walk.ask_true _ _ _ rfl, Walk.call_andThen]
  have hs : (EmptyVisitor.visitor.File
      (Node.File fb
        [Node.Interface ib (as.map Node.Annotation) (ms.map Node.Member)
            (cs.map Node.CustomOp) (ps.map Node.Pattern),
          Node.Dictionary db das dms]) selectFileInterface).2 = selectFileInterface := rfl
  rw [hs, AcceptEach, hi, Walk.ok_andThen, AcceptEach, hd, Walk.ok_andThen, AcceptEach]
  simp [Walk.done]

/-- C12, the claim as stated fails: with the selective `EmptyVisitor` whose only set flag
is `ScanInterface` the `File` hook itself returns false, so the walk of the file stops
after the base hook and the `File` hook; no hook is invoked for the member of the
interface. -/
theorem C12_only_interface_flag_stops_at_file :
    EmptyVisitor.File selectInterface
        (Node.File ⟨[]⟩
          [Node.Interface ⟨[]⟩ [] [Node.Member (Member.mk ⟨[]⟩ Node.nil Literal.nil [] [])] [] [],
            Node.Dictionary ⟨[]⟩ [] [Node.Member (Member.mk ⟨[]⟩ Node.nil Literal.nil [] [])]]) =
      false ∧
    (Accept EmptyVisitor.visitor
        (Node.File ⟨[]⟩
          [Node.Interface ⟨[]⟩ [] [Node.Member (Member.mk ⟨[]⟩ Node.nil Literal.nil [] [])] [] [],
            Node.Dictionary ⟨[]⟩ [] [Node.Member (Member.mk ⟨[]⟩ Node.nil Literal.nil [] [])]])
        selectInterface).calls =
      [Call.Base ⟨[]⟩,
       Call.File (Node.File ⟨[]⟩
          [Node.Interface ⟨[]⟩ [] [Node.Member (Member.mk ⟨[]⟩ Node.nil Literal.nil [] [])] [] [],
            Node.Dictionary ⟨[]⟩ [] [Node.Member (Member.mk ⟨[]⟩ Node.nil Literal.nil [] [])]])] ∧
    Call.Member (Member.mk ⟨[]⟩ Node.nil Literal.nil [] []) ∉
      (Accept EmptyVisitor.visitor
        (Node.File ⟨[]⟩
          [Node.Interface ⟨[]⟩ [] [Node.Member (Member.mk ⟨[]⟩ Node.nil Literal.nil [] [])] [] [],
            Node.Dictionary ⟨[]⟩ [] [Node.Member (Member.mk ⟨[]⟩ Node.nil Literal.nil [] [])]])
        selectInterface).calls := by
  refine ⟨rfl, rfl, ?_⟩
  have h : (Accept EmptyVisitor.visitor
        (Node.File ⟨[]⟩
          [Node.Interface ⟨[]⟩ [] [Node.Member (Member.mk ⟨[]⟩ Node.nil Literal.nil [] [])] [] [],
            Node.Dictionary ⟨[]⟩ [] [Node.Member (Member.mk ⟨[]⟩ Node.nil Literal.nil [] [])]])
        selectInterface).calls =
      [Call.Base ⟨[]⟩,
       Call.File (Node.File ⟨[]⟩
          [Node.Interface ⟨[]⟩ [] [Node.Member (Member.mk ⟨[]⟩ Node.nil Literal.nil [] [])] [] [],
            Node.Dictionary ⟨[]⟩ [] [Node.Member (Member.mk ⟨[]⟩ Node.nil Literal.nil [] [])]])] :=
    rfl
  rw [h]
  simp

/-! ## Values outside the closed variant set -/

/-- A value of a kind outside the closed set makes every entry point end in the
unknown-type failure, for every visitor: `Accept` after the base hook, the literal and
member entry points before any hook. -/
theorem unknown_kind_fails (v : Visitor σ) (s : σ) (b : Base) (t : String) :
    Accept v (Node.other b t) s = ⟨v.Base b s, [Call.Base b], some ("unknown type " ++ t)⟩ ∧
    AcceptLiteral v (Literal.other t) s = ⟨s, [], some ("unknown type " ++ t)⟩ ∧
    AcceptInterfaceMember v (Node.other b t) s = ⟨s, [], some ("unknown type " ++ t)⟩ ∧
    AcceptMixinMember v (Node.other b t) s = ⟨s, [], some ("unknown type " ++ t)⟩ := by
  refine ⟨?_, ?_, ?_, ?_⟩
  · simp [Accept, Walk.call_andThen, unknownTypeError, Node.typeName]
  · simp [AcceptLiteral, unknownTypeError]
  · simp [AcceptInterfaceMember, unknownTypeError, Node.typeName]
  · simp [AcceptMixinMember, unknownTypeError, Node.typeName]

/-- C13, at the failing input: `Accept` ends in the unknown-type failure on a `Member`,
a kind of the closed set, so the failure is not raised only for values outside the set.
On values outside the set each entry point does fail. -/
theorem C13_failure_raised_for_member :
    (Accept EmptyVisitor.visitor (Node.Member (Member.mk ⟨[]⟩ Node.nil Literal.nil [] []))
        {}).failure = some "unknown type *ast.Member" ∧
    (Accept EmptyVisitor.visitor (Node.other ⟨[]⟩ "*ext.Node") {}).failure =
      some "unknown type *ext.Node" ∧
    (AcceptLiteral EmptyVisitor.visitor (Literal.other "*ext.Literal") {}).failure =
      some "unknown type *ext.Literal" ∧
    (AcceptInterfaceMember EmptyVisitor.visitor (Node.other ⟨[]⟩ "*ext.Member") {}).failure =
      some "unknown type *ext.Member" ∧
    (AcceptMixinMember EmptyVisitor.visitor (Node.other ⟨[]⟩ "*ext.Member") {}).failure =
      some "unknown type *ext.Member" :=
  ⟨rfl, rfl, rfl, rfl, rfl⟩

/-- C14, at the failing input: a `Parameter` with a type, an initializer and one
annotation that itself has a parameter, under the default visitor (every hook true). The
type and the initializer are walked in that order, but the annotation gets the
`Annotation` hook only: no base hook, and its parameter is not walked. Walked on its own
the same annotation gets four invocations. The same holds under a `Typedef`. -/
theorem C14_parameter_annotation_is_not_walked :
    (Accept EmptyVisitor.visitor
        (Node.Parameter ⟨[]⟩ (Node.TypeName ⟨[]⟩) (Literal.BasicLiteral ⟨[]⟩ "1")
          [ Annotation.mk ⟨[]⟩ [Node.Parameter ⟨[]⟩ Node.nil Literal.nil []]]) {}).calls =
      [Call.Base ⟨[]⟩,
       Call.Parameter
        (Node.Parameter ⟨[]⟩ (Node.TypeName ⟨[]⟩) (Literal.BasicLiteral ⟨[]⟩ "1")
          [ Annotation.mk ⟨[]⟩ [Node.Parameter ⟨[]⟩ Node.nil Literal.nil []]]),
       Call.Base ⟨[]⟩, Call.TypeName (Node.TypeName ⟨[]⟩),
       Call.Base ⟨[]⟩, Call.BasicLiteral (Literal.BasicLiteral ⟨[]⟩ "1"),
       Call.Annotation ( Annotation.mk ⟨[]⟩ [Node.Parameter ⟨[]⟩ Node.nil Literal.nil []])] ∧
    (Accept EmptyVisitor.visitor
        (Node.Typedef ⟨[]⟩ (Node.TypeName ⟨[]⟩)
          [ Annotation.mk ⟨[]⟩ [Node.Parameter ⟨[]⟩ Node.nil Literal.nil []]]) {}).calls =
      [Call.Base ⟨[]⟩,
       Call.Typedef
        (Node.Typedef ⟨[]⟩ (Node.TypeName ⟨[]⟩)
          [ Annotation.mk ⟨[]⟩ [Node.Parameter ⟨[]⟩ Node.nil Literal.nil []]]),
       Call.Base ⟨[]⟩, Call.TypeName (Node.TypeName ⟨[]⟩),
       Call.Annotation ( Annotation.mk ⟨[]⟩ [Node.Parameter ⟨[]⟩ Node.nil Literal.nil []])] ∧
    (Accept EmptyVisitor.visitor
        (Node.Annotation ( Annotation.mk ⟨[]⟩ [Node.Parameter ⟨[]⟩ Node.nil Literal.nil []]))
        {}).calls =
      [Call.Base ⟨[]⟩,
       Call.Annotation ( Annotation.mk ⟨[]⟩ [Node.Parameter ⟨[]⟩ Node.nil Literal.nil []]),
       Call.Base ⟨[]⟩, Call.Parameter (Node.Parameter ⟨[]⟩ Node.nil Literal.nil [])] :=
  ⟨rfl, rfl, rfl⟩

/-! ## Members and literals -/

/-- C15: when the `Member` hook returns true on a member, `acceptMember`, and with it
both member entry points, invokes the base hook on the member, then the `Member` hook,
then walks `Type` with `Accept`, `Init` with `AcceptLiteral`, the `Parameters` in list
order and the `Annotations` in list order. With an absent `Type` or an absent `Init` that
step drops out and the remaining children are walked as before. -/
theorem C15_member_children_in_order (v : Visitor σ) (s : σ) :
    (∀ m b t i ps as, m = Member.mk b t i ps as → (v.Member m (v.Base b s)).1 = true →
      acceptMember v m s =
        ((Walk.call (Call.Base b) (v.Base b s)).andThen fun s1 =>
        (Walk.call (Call.Member m) (v.Member m s1).2).andThen fun s2 =>
        (Accept v t s2).andThen fun s3 =>
        (AcceptLiteral v i s3).andThen fun s4 =>
        (walkEach (Accept v) ps s4).andThen fun s5 =>
        walkEach (Accept v) as s5) ∧
      AcceptInterfaceMember v (Node.Member m) s = acceptMember v m s ∧
      AcceptMixinMember v (Node.Member m) s = acceptMember v m s) ∧
    (∀ m b i ps as, m = Member.mk b Node.nil i ps as → (v.Member m (v.Base b s)).1 = true →
      acceptMember v m s =
        (Walk.call (Call.Base b) (v.Base b s)).andThen fun s1 =>
        (Walk.call (Call.Member m) (v.Member m s1).2).andThen fun s2 =>
        (AcceptLiteral v i s2).andThen fun s4 =>
        (walkEach (Accept v) ps s4).andThen fun s5 =>
        walkEach (Accept v) as s5) ∧
    (∀ m b t ps as, m = Member.mk b t Literal.nil ps as → (v.Member m (v.Base b s)).1 = true →
      acceptMember v m s =
        (Walk.call (Call.Base b) (v.Base b s)).andThen fun s1 =>
        (Walk.call (Call.Member m) (v.Member m s1).2).andThen fun s2 =>
        (Accept v t s2).andThen fun s3 =>
        (walkEach (Accept v) ps s3).andThen fun s5 =>
        walkEach (Accept v) as s5) ∧
    (∀ m b ps as, m = Member.mk b Node.nil Literal.nil ps as →
      (v.Member m (v.Base b s)).1 = true →
      acceptMember v m s =
        (Walk.call (Call.Base b) (v.Base b s)).andThen fun s1 =>
        (Walk.call (Call.Member m) (v.Member m s1).2).andThen fun s2 =>
        (walkEach (Accept v) ps s2).andThen fun s5 =>
        walkEach (Accept v) as s5) := by
  have hw : ∀ xs, AcceptEach v xs = walkEach (Accept v) xs := fun xs => by
    funext s; exact AcceptEach_eq_walkEach v xs s
  refine ⟨?_, ?_, ?_, ?_⟩
  · rintro m b t i ps as rfl h
    refine ⟨?_, ?_, ?_⟩
    · simp [acceptMember, Walk.ask_true _ _ _ h, Walk.call_andThen, hw]
    · simp [AcceptInterfaceMember]
    · simp [AcceptMixinMember]
  · rintro m b i ps as rfl h
    simp [acceptMember, Accept, Walk.done_andThen, Walk.ask_true _ _ _ h, Walk.call_andThen, hw]
  · rintro m b t ps as rfl h
    simp [acceptMember, AcceptLiteral, Walk.done_andThen, Walk.ask_true _ _ _ h,
      Walk.call_andThen, hw]
  · rintro m b ps as rfl h
    simp [acceptMember, Accept, AcceptLiteral, Walk.done_andThen, Walk.ask_true _ _ _ h,
      Walk.call_andThen, hw]

/-- C15, at a concrete input: a member without type and without initializer, with one
parameter and one annotation, under the default visitor, through the interface entry
point. -/
theorem C15_member_children_in_order_witness :
    (EmptyVisitor.visitor.Member
        (Member.mk ⟨[]⟩ Node.nil Literal.nil [Node.Parameter ⟨[]⟩ Node.nil Literal.nil []]
          [Node.Annotation ( Annotation.mk ⟨[]⟩ [])])
        (EmptyVisitor.visitor.Base ⟨[]⟩ {})).1 = true ∧
    (AcceptInterfaceMember EmptyVisitor.visitor
        (Node.Member
          (Member.mk ⟨[]⟩ Node.nil Literal.nil [Node.Parameter ⟨[]⟩ Node.nil Literal.nil []]
            [Node.Annotation ( Annotation.mk ⟨[]⟩ [])])) {}).calls =
      [Call.Base ⟨[]⟩,
       Call.Member
        (Member.mk ⟨[]⟩ Node.nil Literal.nil [Node.Parameter ⟨[]⟩ Node.nil Literal.nil []]
          [Node.Annotation ( Annotation.mk ⟨[]⟩ [])]),
       Call.Base ⟨[]⟩, Call.Parameter (Node.Parameter ⟨[]⟩ Node.nil Literal.nil []),
       Call.Base ⟨[]⟩, Call.Annotation ( Annotation.mk ⟨[]⟩ [])] :=
  ⟨rfl, by
    have h := (C15_member_children_in_order EmptyVisitor.visitor {}).1 _ ⟨[]⟩ Node.nil
      Literal.nil [Node.Parameter ⟨[]⟩ Node.nil Literal.nil []]
      [Node.Annotation ( Annotation.mk ⟨[]⟩ [])] rfl rfl
    rw [h.2.1, h.1]
    rfl⟩

/-- C16: `AcceptLiteral` on a `BasicLiteral` invokes the base hook on the literal's
`Base`, then the `BasicLiteral` hook, and nothing else. On a `SequenceLiteral` it invokes
the base hook and the `SequenceLiteral` hook; when that hook returns true the elements of
`Elems` are then walked with `AcceptLiteral` in list order (so nested sequence literals
recursively), when it returns false nothing follows. The literals embedded in nodes, the
`Init` of a `Parameter` and of a `Member` and the `Values` of an `Enum` in list order,
are walked with `AcceptLiteral`. -/
theorem C16_literal_walk (v : Visitor σ) (s : σ) :
    (∀ l b x, l = Literal.BasicLiteral b x →
      AcceptLiteral v l s =
        ⟨v.BasicLiteral l (v.Base b s), [Call.Base b, Call.BasicLiteral l], none⟩) ∧
    (∀ l b es, l = Literal.SequenceLiteral b es → (v.SequenceLiteral l (v.Base b s)).1 = true →
      AcceptLiteral v l s =
        (Walk.call (Call.Base b) (v.Base b s)).andThen fun s1 =>
        (Walk.call (Call.SequenceLiteral l) (v.SequenceLiteral l s1).2).andThen fun s2 =>
        walkEach (AcceptLiteral v) es s2) ∧
    (∀ l b es, l = Literal.SequenceLiteral b es → (v.SequenceLiteral l (v.Base b s)).1 = false →
      AcceptLiteral v l s =
        ⟨(v.SequenceLiteral l (v.Base b s)).2, [Call.Base b, Call.SequenceLiteral l], none⟩) ∧
    (∀ n b t i as, n = Node.Parameter b t i as → (v.Parameter n (v.Base b s)).1 = true →
      Accept v n s =
        (Walk.call (Call.Base b) (v.Base b s)).andThen fun s1 =>
        (Walk.call (Call.Parameter n) (v.Parameter n s1).2).andThen fun s2 =>
        (Accept v t s2).andThen fun s3 =>
        (AcceptLiteral v i s3).andThen fun s4 =>
        visitAnnotations v as s4) ∧
    (∀ m b t i ps as, m = Member.mk b t i ps as → (v.Member m (v.Base b s)).1 = true →
      acceptMember v m s =
        (Walk.call (Call.Base b) (v.Base b s)).andThen fun s1 =>
        (Walk.call (Call.Member m) (v.Member m s1).2).andThen fun s2 =>
        (Accept v t s2).andThen fun s3 =>
        (AcceptLiteral v i s3).andThen fun s4 =>
        (walkEach (Accept v) ps s4).andThen fun s5 =>
        walkEach (Accept v) as s5) ∧
    (∀ n b as qs, n = Node.Enum b as qs → (v.Enum n (v.Base b s)).1 = true →
      Accept v n s =
        (Walk.call (Call.Base b) (v.Base b s)).andThen fun s1 =>
        (Walk.call (Call.Enum n) (v.Enum n s1).2).andThen fun s2 =>
        (walkEach (Accept v) as s2).andThen fun s3 =>
        walkEach (AcceptLiteral v) qs s3) := by
  have hw : ∀ xs, AcceptEach v xs = walkEach (Accept v) xs := fun xs => by
    funext s; exact AcceptEach_eq_walkEach v xs s
  have hl : ∀ xs, AcceptLiteralEach v xs = walkEach (AcceptLiteral v) xs := fun xs => by
    funext s; exact AcceptLiteralEach_eq_walkEach v xs s
  refine ⟨?_, ?_, ?_, ?_, ?_, ?_⟩
  · rintro l b x rfl
    simp only [AcceptLiteral, Walk.call_andThen]
    rfl
  · rintro l b es rfl h
    simp [AcceptLiteral, Walk.ask_true _ _ _ h, Walk.call_andThen, hl]
  · rintro l b es rfl h
    simp [AcceptLiteral, Walk.ask_false _ _ _ h, Walk.call_andThen]
  · rintro n b t i as rfl h
    simp [Accept, Walk.ask_true _ _ _ h, Walk.call_andThen]
  · rintro m b t i ps as rfl h
    simp [acceptMember, Walk.ask_true _ _ _ h, Walk.call_andThen, hw]
  · rintro n b as qs rfl h
    simp [Accept, Walk.ask_true _ _ _ h, Walk.call_andThen, hw, hl]

/-- C16, at a concrete input: a sequence literal holding a basic literal and a nested
sequence literal with one basic literal, under the default visitor. -/
theorem C16_literal_walk_witness :
    (EmptyVisitor.visitor.SequenceLiteral
        (Literal.SequenceLiteral ⟨[]⟩
          [Literal.BasicLiteral ⟨[]⟩ "1",
           Literal.SequenceLiteral ⟨[]⟩ [Literal.BasicLiteral ⟨[]⟩ "2"]])
        (EmptyVisitor.visitor.Base ⟨[]⟩ {})).1 = true ∧
    (AcceptLiteral EmptyVisitor.visitor
        (Literal.SequenceLiteral ⟨[]⟩
          [Literal.BasicLiteral ⟨[]⟩ "1",
           Literal.SequenceLiteral ⟨[]⟩ [Literal.BasicLiteral ⟨[]⟩ "2"]]) {}).calls =
      [Call.Base ⟨[]⟩,
       Call.SequenceLiteral
        (Literal.SequenceLiteral ⟨[]⟩
          [Literal.BasicLiteral ⟨[]⟩ "1",
           Literal.SequenceLiteral ⟨[]⟩ [Literal.BasicLiteral ⟨[]⟩ "2"]]),
       Call.Base ⟨[]⟩, Call.BasicLiteral (Literal.BasicLiteral ⟨[]⟩ "1"),
       Call.Base ⟨[]⟩,
       Call.SequenceLiteral (Literal.SequenceLiteral ⟨[]⟩ [Literal.BasicLiteral ⟨[]⟩ "2"]),
       Call.Base ⟨[]⟩, Call.BasicLiteral (Literal.BasicLiteral ⟨[]⟩ "2")] :=
  ⟨rfl, (congrArg Walk.calls
    ((C16_literal_walk EmptyVisitor.visitor {}).2.1 _ ⟨[]⟩
      [Literal.BasicLiteral ⟨[]⟩ "1",
       Literal.SequenceLiteral ⟨[]⟩ [Literal.BasicLiteral ⟨[]⟩ "2"]] rfl rfl)).trans rfl⟩

/-! ## Termination and the number of hook invocations -/

theorem Within_done : Within (Walk.done : σ → Walk σ) 0 := by
  intro s; simp [Walk.done]

theorem Within_fail (t : String) : Within (fun s : σ => unknownTypeError s t) 0 := by
  intro s; simp [unknownTypeError]

theorem Within_call (c : Call) (h : σ → σ) : Within (fun s => Walk.call c (h s)) 1 := by
  intro s; simp [Walk.call]

theorem Within_andThen {f g : σ → Walk σ} {a b : Nat} (hf : Within f a) (hg : Within g b) :
    Within (fun s => (f s).andThen g) (a + b) := by
  intro s
  have h1 := hf s
  have h2 := hg (f s).state
  show ((f s).andThen g).calls.length ≤ a + b
  cases hfl : (f s).failure with
  | some m => simp only [Walk.andThen, hfl]; omega
  | none => simp only [Walk.andThen, hfl, List.length_append]; omega

theorem Within_ask (c : Call) (h : σ → Bool × σ) {g : σ → Walk σ} {b : Nat}
    (hg : Within g b) : Within (fun s => Walk.ask c (h s) g) (1 + b) := by
  intro s
  have h2 := hg (h s).2
  show (Walk.ask c (h s) g).calls.length ≤ 1 + b
  cases hb : (h s).1 with
  | false => simp [Walk.ask_false _ _ _ hb]
  | true => simp only [Walk.ask_true _ _ _ hb, Walk.call_andThen, List.length_cons]; omega

theorem Within_mono {f : σ → Walk σ} {a b : Nat} (hf : Within f a) (hab : a ≤ b) :
    Within f b :=
  fun s => Nat.le_trans (hf s) hab

mutual
theorem Within_AcceptLiteral (v : Visitor σ) :
    ∀ l : Literal, Within (AcceptLiteral v l) (2 * l.count)
  | Literal.nil => Within_mono Within_done (Nat.zero_le _)
  | Literal.BasicLiteral _ _ =>
    Within_mono (Within_andThen (Within_call _ _) (Within_call _ _))
      (by simp only [Node.count, Member.count, Annotation.count, Literal.count, countNodes,
        countLiterals, countAnnotations]; omega)
  | Literal.SequenceLiteral _ es =>
    Within_mono (Within_andThen (Within_call _ _)
      (Within_ask _ _ (Within_AcceptLiteralEach v es)))
      (by simp only [Node.count, Member.count, Annotation.count, Literal.count, countNodes,
        countLiterals, countAnnotations]; omega)
  | Literal.other _ => Within_mono (Within_fail _)
      (by simp only [Node.count, Member.count, Annotation.count, Literal.count, countNodes,
        countLiterals, countAnnotations]; omega)
theorem Within_AcceptLiteralEach (v : Visitor σ) :
    ∀ ls : List Literal, Within (AcceptLiteralEach v ls) (2 * countLiterals ls)
  | [] => Within_mono Within_done (Nat.zero_le _)
  | l :: ls =>
    Within_mono (Within_andThen (Within_AcceptLiteral v l) (Within_AcceptLiteralEach v ls))
      (by simp only [Node.count, Member.count, Annotation.count, Literal.count, countNodes,
        countLiterals, countAnnotations]; omega)
end

theorem Within_visitAnnotations (v : Visitor σ) :
    ∀ as : List Annotation, Within (visitAnnotations v as) (2 * countAnnotations as)
  | [] => Within_mono Within_done (Nat.zero_le _)
  | ( Annotation.mk _ _) :: as =>
    Within_mono (Within_andThen (Within_call _ _) (Within_visitAnnotations v as))
      (by simp only [Node.count, Member.count, Annotation.count, Literal.count, countNodes,
        countLiterals, countAnnotations]; omega)

mutual
theorem Within_Accept (v : Visitor σ) :
    ∀ n : Node, Within (Accept v n) (2 * n.count)
  | Node.nil => Within_mono Within_done (Nat.zero_le _)
  | Node.ErrorNode _ =>
    Within_mono (Within_andThen (Within_call _ _)
      (Within_call _ _))
      (by simp only [Node.count, Member.count, Annotation.count, Literal.count, countNodes,
        countLiterals, countAnnotations]; omega)
  | Node.File _ ds =>
    Within_mono (Within_andThen (Within_call _ _)
      (Within_ask _ _
        (Within_AcceptEach v ds)))
      (by simp only [Node.count, Member.count, Annotation.count, Literal.count, countNodes,
        countLiterals, countAnnotations]; omega)
  | Node.Interface _ as ms cs ps =>
    Within_mono (Within_andThen (Within_call _ _)
      (Within_ask _ _
        (Within_andThen (Within_AcceptEach v as)
        (Within_andThen (Within_AcceptInterfaceMemberEach v ms)
        (Within_andThen (Within_AcceptEach v cs)
        (Within_AcceptEach v ps))))))
      (by simp only [Node.count, Member.count, Annotation.count, Literal.count, countNodes,
        countLiterals, countAnnotations]; omega)
  | Node.Mixin _ as ms cs ps =>
    Within_mono (Within_andThen (Within_call _ _)
      (Within_ask _ _
        (Within_andThen (Within_AcceptEach v as)
        (Within_andThen (Within_AcceptMixinMemberEach v ms)
        (Within_andThen (Within_AcceptEach v cs)
        (Within_AcceptEach v ps))))))
      (by simp only [Node.count, Member.count, Annotation.count, Literal.count, countNodes,
        countLiterals, countAnnotations]; omega)
  | Node.Dictionary _ as ms =>
    Within_mono (Within_andThen (Within_call _ _)
      (Within_ask _ _
        (Within_andThen (Within_AcceptEach v as)
        (Within_AcceptInterfaceMemberEach v ms))))
      (by simp only [Node.count, Member.count, Annotation.count, Literal.count, countNodes,
        countLiterals, countAnnotations]; omega)
  | Node.Annotation ( Annotation.mk _ ps) =>
    Within_mono (Within_andThen (Within_call _ _)
      (Within_ask _ _
        (Within_AcceptEach v ps)))
      (by simp only [Node.count, Member.count, Annotation.count, Literal.count, countNodes,
        countLiterals, countAnnotations]; omega)
  | Node.Parameter _ t i as =>
    Within_mono (Within_andThen (Within_call _ _)
      (Within_ask _ _
        (Within_andThen (Within_Accept v t)
        (Within_andThen (Within_AcceptLiteral v i)
        (Within_visitAnnotations v as)))))
      (by simp only [Node.count, Member.count, Annotation.count, Literal.count, countNodes,
        countLiterals, countAnnotations]; omega)
  | Node.Implementation _ =>
    Within_mono (Within_andThen (Within_call _ _)
      (Within_call _ _))
      (by simp only [Node.count, Member.count, Annotation.count, Literal.count, countNodes,
        countLiterals, countAnnotations]; omega)
  | Node.Includes _ =>
    Within_mono (Within_andThen (Within_call _ _)
      (Within_call _ _))
      (by simp only [Node.count, Member.count, Annotation.count, Literal.count, countNodes,
        countLiterals, countAnnotations]; omega)
  | Node.Member (Member.mk _ _ _ _ _) =>
    Within_mono (Within_andThen (Within_call _ _)
      (Within_fail _))
      (by simp only [Node.count, Member.count, Annotation.count, Literal.count, countNodes,
        countLiterals, countAnnotations]; omega)
  | Node.CustomOp _ =>
    Within_mono (Within_andThen (Within_call _ _)
      (Within_call _ _))
      (by simp only [Node.count, Member.count, Annotation.count, Literal.count, countNodes,
        countLiterals, countAnnotations]; omega)
  | Node.TypeName _ =>
    Within_mono (Within_andThen (Within_call _ _)
      (Within_call _ _))
      (by simp only [Node.count, Member.count, Annotation.count, Literal.count, countNodes,
        countLiterals, countAnnotations]; omega)
  | Node.Pattern _ =>
    Within_mono (Within_andThen (Within_call _ _)
      (Within_call _ _))
      (by simp only [Node.count, Member.count, Annotation.count, Literal.count, countNodes,
        countLiterals, countAnnotations]; omega)
  | Node.Callback _ r ps =>
    Within_mono (Within_andThen (Within_call _ _)
      (Within_ask _ _
        (Within_andThen (Within_Accept v r)
        (Within_AcceptEach v ps))))
      (by simp only [Node.count, Member.count, Annotation.count, Literal.count, countNodes,
        countLiterals, countAnnotations]; omega)
  | Node.Enum _ as qs =>
    Within_mono (Within_andThen (Within_call _ _)
      (Within_ask _ _
        (Within_andThen (Within_AcceptEach v as)
        (Within_AcceptLiteralEach v qs))))
      (by simp only [Node.count, Member.count, Annotation.count, Literal.count, countNodes,
        countLiterals, countAnnotations]; omega)
  | Node.Typedef _ t as =>
    Within_mono (Within_andThen (Within_call _ _)
      (Within_ask _ _
        (Within_andThen (Within_Accept v t)
        (Within_visitAnnotations v as))))
      (by simp only [Node.count, Member.count, Annotation.count, Literal.count, countNodes,
        countLiterals, countAnnotations]; omega)
  | Node.AnyType _ =>
    Within_mono (Within_andThen (Within_call _ _)
      (Within_call _ _))
      (by simp only [Node.count, Member.count, Annotation.count, Literal.count, countNodes,
        countLiterals, countAnnotations]; omega)
  | Node.SequenceType _ e =>
    Within_mono (Within_andThen (Within_call _ _)
      (Within_ask _ _
        (Within_Accept v e)))
      (by simp only [Node.count, Member.count, Annotation.count, Literal.count, countNodes,
        countLiterals, countAnnotations]; omega)
  | Node.RecordType _ k e =>
    Within_mono (Within_andThen (Within_call _ _)
      (Within_ask _ _
        (Within_andThen (Within_Accept v k)
        (Within_Accept v e))))
      (by simp only [Node.count, Member.count, Annotation.count, Literal.count, countNodes,
        countLiterals, countAnnotations]; omega)
  | Node.ParametrizedType _ es =>
    Within_mono (Within_andThen (Within_call _ _)
      (Within_ask _ _
        (Within_AcceptEach v es)))
      (by simp only [Node.count, Member.count, Annotation.count, Literal.count, countNodes,
        countLiterals, countAnnotations]; omega)
  | Node.UnionType _ ts =>
    Within_mono (Within_andThen (Within_call _ _)
      (Within_ask _ _
        (Within_AcceptEach v ts)))
      (by simp only [Node.count, Member.count, Annotation.count, Literal.count, countNodes,
        countLiterals, countAnnotations]; omega)
  | Node.NullableType _ t =>
    Within_mono (Within_andThen (Within_call _ _)
      (Within_ask _ _
        (Within_Accept v t)))
      (by simp only [Node.count, Member.count, Annotation.count, Literal.count, countNodes,
        countLiterals, countAnnotations]; omega)
  | Node.other _ _ =>
    Within_mono (Within_andThen (Within_call _ _)
      (Within_fail _))
      (by simp only [Node.count, Member.count, Annotation.count, Literal.count, countNodes,
        countLiterals, countAnnotations]; omega)
theorem Within_AcceptEach (v : Visitor σ) :
    ∀ ns : List Node, Within (AcceptEach v ns) (2 * countNodes ns)
  | [] => Within_mono Within_done (Nat.zero_le _)
  | n :: ns =>
    Within_mono (Within_andThen (Within_Accept v n) (Within_AcceptEach v ns))
      (by simp only [Node.count, Member.count, Annotation.count, Literal.count, countNodes,
        countLiterals, countAnnotations]; omega)
theorem Within_AcceptInterfaceMember (v : Visitor σ) :
    ∀ n : Node, Within (AcceptInterfaceMember v n) (2 * n.count)
  | Node.nil => Within_mono Within_done (Nat.zero_le _)
  | Node.ErrorNode _ => Within_mono (Within_fail _)
      (by simp only [Node.count, Member.count, Annotation.count, Literal.count, countNodes,
        countLiterals, countAnnotations]; omega)
  | Node.File _ _ => Within_mono (Within_fail _)
      (by simp only [Node.count, Member.count, Annotation.count, Literal.count, countNodes,
        countLiterals, countAnnotations]; omega)
  | Node.Interface _ _ _ _ _ => Within_mono (Within_fail _)
      (by simp only [Node.count, Member.count, Annotation.count, Literal.count, countNodes,
        countLiterals, countAnnotations]; omega)
  | Node.Mixin _ _ _ _ _ => Within_mono (Within_fail _)
      (by simp only [Node.count, Member.count, Annotation.count, Literal.count, countNodes,
        countLiterals, countAnnotations]; omega)
  | Node.Dictionary _ _ _ => Within_mono (Within_fail _)
      (by simp only [Node.count, Member.count, Annotation.count, Literal.count, countNodes,
        countLiterals, countAnnotations]; omega)
  | Node.Annotation ( Annotation.mk _ _) => Within_mono (Within_fail _)
      (by simp only [Node.count, Member.count, Annotation.count, Literal.count, countNodes,
        countLiterals, countAnnotations]; omega)
  | Node.Parameter _ _ _ _ => Within_mono (Within_fail _)
      (by simp only [Node.count, Member.count, Annotation.count, Literal.count, countNodes,
        countLiterals, countAnnotations]; omega)
  | Node.Implementation _ => Within_mono (Within_fail _)
      (by simp only [Node.count, Member.count, Annotation.count, Literal.count, countNodes,
        countLiterals, countAnnotations]; omega)
  | Node.Includes _ => Within_mono (Within_fail _)
      (by simp only [Node.count, Member.count, Annotation.count, Literal.count, countNodes,
        countLiterals, countAnnotations]; omega)
  | Node.Member m => Within_mono (Within_acceptMember v m)
      (by simp only [Node.count, Member.count, Annotation.count, Literal.count, countNodes,
        countLiterals, countAnnotations]; omega)
  | Node.CustomOp _ => Within_mono (Within_fail _)
      (by simp only [Node.count, Member.count, Annotation.count, Literal.count, countNodes,
        countLiterals, countAnnotations]; omega)
  | Node.TypeName _ => Within_mono (Within_fail _)
      (by simp only [Node.count, Member.count, Annotation.count, Literal.count, countNodes,
        countLiterals, countAnnotations]; omega)
  | Node.Pattern _ => Within_mono (Within_fail _)
      (by simp only [Node.count, Member.count, Annotation.count, Literal.count, countNodes,
        countLiterals, countAnnotations]; omega)
  | Node.Callback _ _ _ => Within_mono (Within_fail _)
      (by simp only [Node.count, Member.count, Annotation.count, Literal.count, countNodes,
        countLiterals, countAnnotations]; omega)
  | Node.Enum _ _ _ => Within_mono (Within_fail _)
      (by simp only [Node.count, Member.count, Annotation.count, Literal.count, countNodes,
        countLiterals, countAnnotations]; omega)
  | Node.Typedef _ _ _ => Within_mono (Within_fail _)
      (by simp only [Node.count, Member.count, Annotation.count, Literal.count, countNodes,
        countLiterals, countAnnotations]; omega)
  | Node.AnyType _ => Within_mono (Within_fail _)
      (by simp only [Node.count, Member.count, Annotation.count, Literal.count, countNodes,
        countLiterals, countAnnotations]; omega)
  | Node.SequenceType _ _ => Within_mono (Within_fail _)
      (by simp only [Node.count, Member.count, Annotation.count, Literal.count, countNodes,
        countLiterals, countAnnotations]; omega)
  | Node.RecordType _ _ _ => Within_mono (Within_fail _)
      (by simp only [Node.count, Member.count, Annotation.count, Literal.count, countNodes,
        countLiterals, countAnnotations]; omega)
  | Node.ParametrizedType _ _ => Within_mono (Within_fail _)
      (by simp only [Node.count, Member.count, Annotation.count, Literal.count, countNodes,
        countLiterals, countAnnotations]; omega)
  | Node.UnionType _ _ => Within_mono (Within_fail _)
      (by simp only [Node.count, Member.count, Annotation.count, Literal.count, countNodes,
        countLiterals, countAnnotations]; omega)
  | Node.NullableType _ _ => Within_mono (Within_fail _)
      (by simp only [Node.count, Member.count, Annotation.count, Literal.count, countNodes,
        countLiterals, countAnnotations]; omega)
  | Node.other _ _ => Within_mono (Within_fail _)
      (by simp only [Node.count, Member.count, Annotation.count, Literal.count, countNodes,
        countLiterals, countAnnotations]; omega)
theorem Within_AcceptInterfaceMemberEach (v : Visitor σ) :
    ∀ ns : List Node, Within (AcceptInterfaceMemberEach v ns) (2 * countNodes ns)
  | [] => Within_mono Within_done (Nat.zero_le _)
  | n :: ns =>
    Within_mono (Within_andThen (Within_AcceptInterfaceMember v n) (Within_AcceptInterfaceMemberEach v ns))
      (by simp only [Node.count, Member.count, Annotation.count, Literal.count, countNodes,
        countLiterals, countAnnotations]; omega)
theorem Within_AcceptMixinMember (v : Visitor σ) :
    ∀ n : Node, Within (AcceptMixinMember v n) (2 * n.count)
  | Node.nil => Within_mono Within_done (Nat.zero_le _)
  | Node.ErrorNode _ => Within_mono (Within_fail _)
      (by simp only [Node.count, Member.count, Annotation.count, Literal.count, countNodes,
        countLiterals, countAnnotations]; omega)
  | Node.File _ _ => Within_mono (Within_fail _)
      (by simp only [Node.count, Member.count, Annotation.count, Literal.count, countNodes,
        countLiterals, countAnnotations]; omega)
  | Node.Interface _ _ _ _ _ => Within_mono (Within_fail _)
      (by simp only [Node.count, Member.count, Annotation.count, Literal.count, countNodes,
        countLiterals, countAnnotations]; omega)
  | Node.Mixin _ _ _ _ _ => Within_mono (Within_fail _)
      (by simp only [Node.count, Member.count, Annotation.count, Literal.count, countNodes,
        countLiterals, countAnnotations]; omega)
  | Node.Dictionary _ _ _ => Within_mono (Within_fail _)
      (by simp only [Node.count, Member.count, Annotation.count, Literal.count, countNodes,
        countLiterals, countAnnotations]; omega)
  | Node.Annotation ( Annotation.mk _ _) => Within_mono (Within_fail _)
      (by simp only [Node.count, Member.count, Annotation.count, Literal.count, countNodes,
        countLiterals, countAnnotations]; omega)
  | Node.Parameter _ _ _ _ => Within_mono (Within_fail _)
      (by simp only [Node.count, Member.count, Annotation.count, Literal.count, countNodes,
        countLiterals, countAnnotations]; omega)
  | Node.Implementation _ => Within_mono (Within_fail _)
      (by simp only [Node.count, Member.count, Annotation.count, Literal.count, countNodes,
        countLiterals, countAnnotations]; omega)
  | Node.Includes _ => Within_mono (Within_fail _)
      (by simp only [Node.count, Member.count, Annotation.count, Literal.count, countNodes,
        countLiterals, countAnnotations]; omega)
  | Node.Member m => Within_mono (Within_acceptMember v m)
      (by simp only [Node.count, Member.count, Annotation.count, Literal.count, countNodes,
        countLiterals, countAnnotations]; omega)
  | Node.CustomOp _ => Within_mono (Within_fail _)
      (by simp only [Node.count, Member.count, Annotation.count, Literal.count, countNodes,
        countLiterals, countAnnotations]; omega)
  | Node.TypeName _ => Within_mono (Within_fail _)
      (by simp only [Node.count, Member.count, Annotation.count, Literal.count, countNodes,
        countLiterals, countAnnotations]; omega)
  | Node.Pattern _ => Within_mono (Within_fail _)
      (by simp only [Node.count, Member.count, Annotation.count, Literal.count, countNodes,
        countLiterals, countAnnotations]; omega)
  | Node.Callback _ _ _ => Within_mono (Within_fail _)
      (by simp only [Node.count, Member.count, Annotation.count, Literal.count, countNodes,
        countLiterals, countAnnotations]; omega)
  | Node.Enum _ _ _ => Within_mono (Within_fail _)
      (by simp only [Node.count, Member.count, Annotation.count, Literal.count, countNodes,
        countLiterals, countAnnotations]; omega)
  | Node.Typedef _ _ _ => Within_mono (Within_fail _)
      (by simp only [Node.count, Member.count, Annotation.count, Literal.count, countNodes,
        countLiterals, countAnnotations]; omega)
  | Node.AnyType _ => Within_mono (Within_fail _)
      (by simp only [Node.count, Member.count, Annotation.count, Literal.count, countNodes,
        countLiterals, countAnnotations]; omega)
  | Node.SequenceType _ _ => Within_mono (Within_fail _)
      (by simp only [Node.count, Member.count, Annotation.count, Literal.count, countNodes,
        countLiterals, countAnnotations]; omega)
  | Node.RecordType _ _ _ => Within_mono (Within_fail _)
      (by simp only [Node.count, Member.count, Annotation.count, Literal.count, countNodes,
        countLiterals, countAnnotations]; omega)
  | Node.ParametrizedType _ _ => Within_mono (Within_fail _)
      (by simp only [Node.count, Member.count, Annotation.count, Literal.count, countNodes,
        countLiterals, countAnnotations]; omega)
  | Node.UnionType _ _ => Within_mono (Within_fail _)
      (by simp only [Node.count, Member.count, Annotation.count, Literal.count, countNodes,
        countLiterals, countAnnotations]; omega)
  | Node.NullableType _ _ => Within_mono (Within_fail _)
      (by simp only [Node.count, Member.count, Annotation.count, Literal.count, countNodes,
        countLiterals, countAnnotations]; omega)
  | Node.other _ _ => Within_mono (Within_fail _)
      (by simp only [Node.count, Member.count, Annotation.count, Literal.count, countNodes,
        countLiterals, countAnnotations]; omega)
theorem Within_AcceptMixinMemberEach (v : Visitor σ) :
    ∀ ns : List Node, Within (AcceptMixinMemberEach v ns) (2 * countNodes ns)
  | [] => Within_mono Within_done (Nat.zero_le _)
  | n :: ns =>
    Within_mono (Within_andThen (Within_AcceptMixinMember v n) (Within_AcceptMixinMemberEach v ns))
      (by simp only [Node.count, Member.count, Annotation.count, Literal.count, countNodes,
        countLiterals, countAnnotations]; omega)
theorem Within_acceptMember (v : Visitor σ) :
    ∀ m : Member, Within (acceptMember v m) (2 * m.count)
  | .mk _ t i ps as =>
    Within_mono (Within_andThen (Within_call _ _)
      (Within_ask _ _
        (Within_andThen (Within_Accept v t)
        (Within_andThen (Within_AcceptLiteral v i)
        (Within_andThen (Within_AcceptEach v ps)
        (Within_AcceptEach v as))))))
      (by simp only [Node.count, Member.count, Annotation.count, Literal.count, countNodes,
        countLiterals, countAnnotations]; omega)
end

/-- C20: the mutually recursive walk is a total function (`Accept`, `AcceptInterfaceMember`,
`AcceptMixinMember`, `acceptMember` and `AcceptLiteral` are defined by structural recursion
on the tree, each recursive call on a child node or literal), and for every visitor and
every starting state the number of hook invocations it makes is at most twice the number
of nodes and literals in the tree. -/
theorem C20_walk_is_total_and_bounded (v : Visitor σ) (s : σ) :
    (∀ n : Node, ∃ w : Walk σ, Accept v n s = w ∧ w.calls.length ≤ 2 * n.count) ∧
    (∀ n : Node, ∃ w : Walk σ, AcceptInterfaceMember v n s = w ∧ w.calls.length ≤ 2 * n.count) ∧
    (∀ n : Node, ∃ w : Walk σ, AcceptMixinMember v n s = w ∧ w.calls.length ≤ 2 * n.count) ∧
    (∀ m : Member, ∃ w : Walk σ, acceptMember v m s = w ∧ w.calls.length ≤ 2 * m.count) ∧
    (∀ l : Literal, ∃ w : Walk σ, AcceptLiteral v l s = w ∧ w.calls.length ≤ 2 * l.count) :=
  ⟨fun n => ⟨_, rfl, Within_Accept v n s⟩,
   fun n => ⟨_, rfl, Within_AcceptInterfaceMember v n s⟩,
   fun n => ⟨_, rfl, Within_AcceptMixinMember v n s⟩,
   fun m => ⟨_, rfl, Within_acceptMember v m s⟩,
   fun l => ⟨_, rfl, Within_AcceptLiteral v l s⟩⟩

/-! ## The collector does not see the annotations of a `Parameter` or a `Typedef` -/

theorem SameOutcome_refl (f : σ → Walk σ) : SameOutcome f f :=
  fun _ => ⟨rfl, rfl⟩

theorem SameOutcome_call (c c' : Call) (h : σ → σ) :
    SameOutcome (fun s => Walk.call c (h s)) (fun s => Walk.call c' (h s)) :=
  fun _ => ⟨rfl, rfl⟩

theorem SameOutcome_andThen {f f' g g' : σ → Walk σ} (hf : SameOutcome f f')
    (hg : SameOutcome g g') :
    SameOutcome (fun s => (f s).andThen g) (fun s => (f' s).andThen g') := by
  intro s
  show ((f s).andThen g).state = ((f' s).andThen g').state ∧
    ((f s).andThen g).failure = ((f' s).andThen g').failure
  have h1 := hf s
  cases hw : f s with
  | mk st cs fl =>
    cases hw' : f' s with
    | mk st' cs' fl' =>
      rw [hw, hw'] at h1
      simp only at h1
      obtain ⟨h2, h3⟩ := h1
      subst h2
      subst h3
      cases fl with
      | some m => simp [Walk.andThen]
      | none => simpa [Walk.andThen] using hg st

theorem SameOutcome_ask (c c' : Call) (h h' : σ → Bool × σ) {g g' : σ → Walk σ}
    (hh : ∀ s, h s = h' s) (hg : SameOutcome g g') :
    SameOutcome (fun s => Walk.ask c (h s) g) (fun s => Walk.ask c' (h' s) g') := by
  intro s
  show (Walk.ask c (h s) g).state = (Walk.ask c' (h' s) g').state ∧
    (Walk.ask c (h s) g).failure = (Walk.ask c' (h' s) g').failure
  rw [← hh s]
  cases hb : (h s).1 with
  | false => rw [Walk.ask_false _ _ _ hb, Walk.ask_false _ _ _ hb]; exact ⟨rfl, rfl⟩
  | true =>
    rw [Walk.ask_true _ _ _ hb, Walk.ask_true _ _ _ hb]
    exact SameOutcome_andThen (SameOutcome_call c c' (fun _ => (h s).2)) hg s

theorem SameOutcome_visitAnnotations (as : List Annotation) :
    SameOutcome (visitAnnotations getAllErrors.visitor as)
      (visitAnnotations getAllErrors.visitor []) :=
  fun s => ⟨(visitAnnotations_collector as s).1, (visitAnnotations_collector as s).2⟩

mutual
theorem SameOutcome_Accept :
    ∀ n : Node, SameOutcome (Accept getAllErrors.visitor n)
      (Accept getAllErrors.visitor (dropAnnotations n))
  | Node.nil => (SameOutcome_refl _)
  | Node.ErrorNode _ =>
    (SameOutcome_andThen (SameOutcome_call _ _ _)
      (SameOutcome_refl _))
  | Node.File _ ds =>
    (SameOutcome_andThen (SameOutcome_call _ _ _)
      (SameOutcome_ask _ _ _ _ (fun _ => rfl)
        (SameOutcome_AcceptEach ds)))
  | Node.Interface _ as ms cs ps =>
    (SameOutcome_andThen (SameOutcome_call _ _ _)
      (SameOutcome_ask _ _ _ _ (fun _ => rfl)
        (SameOutcome_andThen (SameOutcome_AcceptEach as)
        (SameOutcome_andThen (SameOutcome_AcceptInterfaceMemberEach ms)
        (SameOutcome_andThen (SameOutcome_AcceptEach cs)
        (SameOutcome_AcceptEach ps))))))
  | Node.Mixin _ as ms cs ps =>
    (SameOutcome_andThen (SameOutcome_call _ _ _)
      (SameOutcome_ask _ _ _ _ (fun _ => rfl)
        (SameOutcome_andThen (SameOutcome_AcceptEach as)
        (SameOutcome_andThen (SameOutcome_AcceptMixinMemberEach ms)
        (SameOutcome_andThen (SameOutcome_AcceptEach cs)
        (SameOutcome_AcceptEach ps))))))
  | Node.Dictionary _ as ms =>
    (SameOutcome_andThen (SameOutcome_call _ _ _)
      (SameOutcome_ask _ _ _ _ (fun _ => rfl)
        (SameOutcome_andThen (SameOutcome_AcceptEach as)
        (SameOutcome_AcceptInterfaceMemberEach ms))))
  | Node.Annotation ( Annotation.mk _ ps) =>
    (SameOutcome_andThen (SameOutcome_call _ _ _)
      (SameOutcome_ask _ _ _ _ (fun _ => rfl)
        (SameOutcome_AcceptEach ps)))
  | Node.Parameter _ t _ as =>
    (SameOutcome_andThen (SameOutcome_call _ _ _)
      (SameOutcome_ask _ _ _ _ (fun _ => rfl)
        (SameOutcome_andThen (SameOutcome_Accept t)
        (SameOutcome_andThen (SameOutcome_refl _)
        (SameOutcome_visitAnnotations as)))))
  | Node.Implementation _ =>
    (SameOutcome_andThen (SameOutcome_call _ _ _)
      (SameOutcome_refl _))
  | Node.Includes _ =>
    (SameOutcome_andThen (SameOutcome_call _ _ _)
      (SameOutcome_refl _))
  | Node.Member (Member.mk _ _ _ _ _) =>
    (SameOutcome_andThen (SameOutcome_call _ _ _)
      (SameOutcome_refl _))
  | Node.CustomOp _ =>
    (SameOutcome_andThen (SameOutcome_call _ _ _)
      (SameOutcome_refl _))
  | Node.TypeName _ =>
    (SameOutcome_andThen (SameOutcome_call _ _ _)
      (SameOutcome_refl _))
  | Node.Pattern _ =>
    (SameOutcome_andThen (SameOutcome_call _ _ _)
      (SameOutcome_refl _))
  | Node.Callback _ r ps =>
    (SameOutcome_andThen (SameOutcome_call _ _ _)
      (SameOutcome_ask _ _ _ _ (fun _ => rfl)
        (SameOutcome_andThen (SameOutcome_Accept r)
        (SameOutcome_AcceptEach ps))))
  | Node.Enum _ as _ =>
    (SameOutcome_andThen (SameOutcome_call _ _ _)
      (SameOutcome_ask _ _ _ _ (fun _ => rfl)
        (SameOutcome_andThen (SameOutcome_AcceptEach as)
        (SameOutcome_refl _))))
  | Node.Typedef _ t as =>
    (SameOutcome_andThen (SameOutcome_call _ _ _)
      (SameOutcome_ask _ _ _ _ (fun _ => rfl)
        (SameOutcome_andThen (SameOutcome_Accept t)
        (SameOutcome_visitAnnotations as))))
  | Node.AnyType _ =>
    (SameOutcome_andThen (SameOutcome_call _ _ _)
      (SameOutcome_refl _))
  | Node.SequenceType _ e =>
    (SameOutcome_andThen (SameOutcome_call _ _ _)
      (SameOutcome_ask _ _ _ _ (fun _ => rfl)
        (SameOutcome_Accept e)))
  | Node.RecordType _ k e =>
    (SameOutcome_andThen (SameOutcome_call _ _ _)
      (SameOutcome_ask _ _ _ _ (fun _ => rfl)
        (SameOutcome_andThen (SameOutcome_Accept k)
        (SameOutcome_Accept e))))
  | Node.ParametrizedType _ es =>
    (SameOutcome_andThen (SameOutcome_call _ _ _)
      (SameOutcome_ask _ _ _ _ (fun _ => rfl)
        (SameOutcome_AcceptEach es)))
  | Node.UnionType _ ts =>
    (SameOutcome_andThen (SameOutcome_call _ _ _)
      (SameOutcome_ask _ _ _ _ (fun _ => rfl)
        (SameOutcome_AcceptEach ts)))
  | Node.NullableType _ t =>
    (SameOutcome_andThen (SameOutcome_call _ _ _)
      (SameOutcome_ask _ _ _ _ (fun _ => rfl)
        (SameOutcome_Accept t)))
  | Node.other _ _ =>
    (SameOutcome_andThen (SameOutcome_call _ _ _)
      (SameOutcome_refl _))
theorem SameOutcome_AcceptEach :
    ∀ ns : List Node, SameOutcome (AcceptEach getAllErrors.visitor ns)
      (AcceptEach getAllErrors.visitor (dropAnnotationsEach ns))
  | [] => (SameOutcome_refl _)
  | n :: ns =>
    (SameOutcome_andThen (SameOutcome_Accept n) (SameOutcome_AcceptEach ns))
theorem SameOutcome_AcceptInterfaceMember :
    ∀ n : Node, SameOutcome (AcceptInterfaceMember getAllErrors.visitor n)
      (AcceptInterfaceMember getAllErrors.visitor (dropAnnotations n))
  | Node.nil => (SameOutcome_refl _)
  | Node.ErrorNode _ => (SameOutcome_refl _)
  | Node.File _ _ => (SameOutcome_refl _)
  | Node.Interface _ _ _ _ _ => (SameOutcome_refl _)
  | Node.Mixin _ _ _ _ _ => (SameOutcome_refl _)
  | Node.Dictionary _ _ _ => (SameOutcome_refl _)
  | Node.Annotation ( Annotation.mk _ _) => (SameOutcome_refl _)
  | Node.Parameter _ _ _ _ => (SameOutcome_refl _)
  | Node.Implementation _ => (SameOutcome_refl _)
  | Node.Includes _ => (SameOutcome_refl _)
  | Node.Member m => (SameOutcome_acceptMember m)
  | Node.CustomOp _ => (SameOutcome_refl _)
  | Node.TypeName _ => (SameOutcome_refl _)
  | Node.Pattern _ => (SameOutcome_refl _)
  | Node.Callback _ _ _ => (SameOutcome_refl _)
  | Node.Enum _ _ _ => (SameOutcome_refl _)
  | Node.Typedef _ _ _ => (SameOutcome_refl _)
  | Node.AnyType _ => (SameOutcome_refl _)
  | Node.SequenceType _ _ => (SameOutcome_refl _)
  | Node.RecordType _ _ _ => (SameOutcome_refl _)
  | Node.ParametrizedType _ _ => (SameOutcome_refl _)
  | Node.UnionType _ _ => (SameOutcome_refl _)
  | Node.NullableType _ _ => (SameOutcome_refl _)
  | Node.other _ _ => (SameOutcome_refl _)
theorem SameOutcome_AcceptInterfaceMemberEach :
    ∀ ns : List Node, SameOutcome (AcceptInterfaceMemberEach getAllErrors.visitor ns)
      (AcceptInterfaceMemberEach getAllErrors.visitor (dropAnnotationsEach ns))
  | [] => (SameOutcome_refl _)
  | n :: ns =>
    (SameOutcome_andThen (SameOutcome_AcceptInterfaceMember n) (SameOutcome_AcceptInterfaceMemberEach ns))
theorem SameOutcome_AcceptMixinMember :
    ∀ n : Node, SameOutcome (AcceptMixinMember getAllErrors.visitor n)
      (AcceptMixinMember getAllErrors.visitor (dropAnnotations n))
  | Node.nil => (SameOutcome_refl _)
  | Node.ErrorNode _ => (SameOutcome_refl _)
  | Node.File _ _ => (SameOutcome_refl _)
  | Node.Interface _ _ _ _ _ => (SameOutcome_refl _)
  | Node.Mixin _ _ _ _ _ => (SameOutcome_refl _)
  | Node.Dictionary _ _ _ => (SameOutcome_refl _)
  | Node.Annotation ( Annotation.mk _ _) => (SameOutcome_refl _)
  | Node.Parameter _ _ _ _ => (SameOutcome_refl _)
  | Node.Implementation _ => (SameOutcome_refl _)
  | Node.Includes _ => (SameOutcome_refl _)
  | Node.Member m => (SameOutcome_acceptMember m)
  | Node.CustomOp _ => (SameOutcome_refl _)
  | Node.TypeName _ => (SameOutcome_refl _)
  | Node.Pattern _ => (SameOutcome_refl _)
  | Node.Callback _ _ _ => (SameOutcome_refl _)
  | Node.Enum _ _ _ => (SameOutcome_refl _)
  | Node.Typedef _ _ _ => (SameOutcome_refl _)
  | Node.AnyType _ => (SameOutcome_refl _)
  | Node.SequenceType _ _ => (SameOutcome_refl _)
  | Node.RecordType _ _ _ => (SameOutcome_refl _)
  | Node.ParametrizedType _ _ => (SameOutcome_refl _)
  | Node.UnionType _ _ => (SameOutcome_refl _)
  | Node.NullableType _ _ => (SameOutcome_refl _)
  | Node.other _ _ => (SameOutcome_refl _)
theorem SameOutcome_AcceptMixinMemberEach :
    ∀ ns : List Node, SameOutcome (AcceptMixinMemberEach getAllErrors.visitor ns)
      (AcceptMixinMemberEach getAllErrors.visitor (dropAnnotationsEach ns))
  | [] => (SameOutcome_refl _)
  | n :: ns =>
    (SameOutcome_andThen (SameOutcome_AcceptMixinMember n) (SameOutcome_AcceptMixinMemberEach ns))
theorem SameOutcome_acceptMember :
    ∀ m : Member, SameOutcome (acceptMember getAllErrors.visitor m)
      (acceptMember getAllErrors.visitor (m.dropAnnotations))
  | .mk _ t _ ps as =>
    (SameOutcome_andThen (SameOutcome_call _ _ _)
      (SameOutcome_ask _ _ _ _ (fun _ => rfl)
        (SameOutcome_andThen (SameOutcome_Accept t)
        (SameOutcome_andThen (SameOutcome_refl _)
        (SameOutcome_andThen (SameOutcome_AcceptEach ps)
        (SameOutcome_AcceptEach as))))))
end

/-- C18: in the code as written, when `Accept` walks a `Parameter` or a `Typedef` whose
hook returns true, the walk is the base hook, the node's hook, the walk of its `Type` (and
of its `Init` for a `Parameter`) and then the loop over its `Annotations`; that loop
invokes the `Annotation` hook exactly once for each annotation and nothing else (no base
hook, no walk of the annotation's parameters), never panics, and keeps only the state the
hook leaves, whatever value the hook returns. Consequently `GetAllErrorNodes` returns the
same for a tree and for that tree with the annotations of every `Parameter` and `Typedef`
removed. -/
theorem C18_parameter_and_typedef_annotations_get_the_hook_only (v : Visitor σ) (s : σ)
    (b : Base) (t : Node) (i : Literal) (as : List Annotation) :
    ((v.Parameter (Node.Parameter b t i as) (v.Base b s)).1 = true →
      Accept v (Node.Parameter b t i as) s =
        ((Walk.call (Call.Base b) (v.Base b s)).andThen fun s1 =>
          (Walk.call (Call.Parameter (Node.Parameter b t i as))
            (v.Parameter (Node.Parameter b t i as) s1).2).andThen fun s2 =>
          (Accept v t s2).andThen fun s3 =>
          (AcceptLiteral v i s3).andThen fun s4 =>
          visitAnnotations v as s4)) ∧
    ((v.Typedef (Node.Typedef b t as) (v.Base b s)).1 = true →
      Accept v (Node.Typedef b t as) s =
        ((Walk.call (Call.Base b) (v.Base b s)).andThen fun s1 =>
          (Walk.call (Call.Typedef (Node.Typedef b t as))
            (v.Typedef (Node.Typedef b t as) s1).2).andThen fun s2 =>
          (Accept v t s2).andThen fun s3 =>
          visitAnnotations v as s3)) ∧
    (∀ s0, (visitAnnotations v as s0).calls = as.map Call.Annotation ∧
      (visitAnnotations v as s0).failure = none ∧
      (visitAnnotations v as s0).state = as.foldl (fun s a => (v.Annotation a s).2) s0) ∧
    (∀ n : Node, GetAllErrorNodes n = GetAllErrorNodes (dropAnnotations n)) := by
  refine ⟨?_, ?_, ?_, ?_⟩
  · intro hp
    simp only [Accept, Walk.call_andThen]
    rw [Walk.ask_true _ _ _ hp, Walk.call_andThen]
  · intro ht
    simp only [Accept, Walk.call_andThen]
    rw [Walk.ask_true _ _ _ ht, Walk.call_andThen]
  · induction as with
    | nil => intro s0; exact ⟨rfl, rfl, rfl⟩
    | cons a as ih =>
      intro s0
      have h := ih ((v.Annotation a s0).2)
      rw [visitAnnotations, Walk.call_andThen]
      simp only [List.map_cons, List.foldl_cons]
      exact ⟨by rw [h.1], h.2.1, h.2.2⟩
  · intro n
    rw [GetAllErrorNodes_eq, GetAllErrorNodes_eq]
    have h := SameOutcome_Accept n {}
    rw [h.1, h.2]

/-- C18, at a `Parameter` and a `Typedef` with two annotations (the first with a parameter
of its own that carries an error record) under the default visitor. -/
theorem C18_parameter_and_typedef_annotations_get_the_hook_only_witness :
    Accept EmptyVisitor.visitor
        (Node.Parameter ⟨[]⟩ (Node.TypeName ⟨[]⟩) Literal.nil
          [ Annotation.mk ⟨[]⟩ [Node.TypeName ⟨[⟨[], "bad"⟩]⟩], Annotation.mk ⟨[]⟩ []]) {} =
      ((Walk.call (Call.Base ⟨[]⟩) (EmptyVisitor.visitor.Base ⟨[]⟩ {})).andThen fun s1 =>
        (Walk.call (Call.Parameter (Node.Parameter ⟨[]⟩ (Node.TypeName ⟨[]⟩) Literal.nil
            [ Annotation.mk ⟨[]⟩ [Node.TypeName ⟨[⟨[], "bad"⟩]⟩], Annotation.mk ⟨[]⟩ []]))
          (EmptyVisitor.visitor.Parameter (Node.Parameter ⟨[]⟩ (Node.TypeName ⟨[]⟩) Literal.nil
            [ Annotation.mk ⟨[]⟩ [Node.TypeName ⟨[⟨[], "bad"⟩]⟩], Annotation.mk ⟨[]⟩ []])
            s1).2).andThen fun s2 =>
        (Accept EmptyVisitor.visitor (Node.TypeName ⟨[]⟩) s2).andThen fun s3 =>
        (AcceptLiteral EmptyVisitor.visitor Literal.nil s3).andThen fun s4 =>
        visitAnnotations EmptyVisitor.visitor
          [ Annotation.mk ⟨[]⟩ [Node.TypeName ⟨[⟨[], "bad"⟩]⟩], Annotation.mk ⟨[]⟩ []] s4) :=
  (C18_parameter_and_typedef_annotations_get_the_hook_only EmptyVisitor.visitor {} ⟨[]⟩
    (Node.TypeName ⟨[]⟩) Literal.nil
    [ Annotation.mk ⟨[]⟩ [Node.TypeName ⟨[⟨[], "bad"⟩]⟩], Annotation.mk ⟨[]⟩ []]).1 rfl

/-! ## Pruning only removes hook invocations -/

theorem Walk.andThen_ok (w : Walk σ) (g : σ → Walk σ) (h : (w.andThen g).failure = none) :
    w.failure = none ∧ (g w.state).failure = none ∧
      (w.andThen g).calls = w.calls ++ (g w.state).calls ∧
      (w.andThen g).state = (g w.state).state := by
  cases w with
  | mk st cs fl =>
    cases fl with
    | some m => simp [Walk.andThen] at h
    | none =>
      simp only [Walk.andThen] at h
      exact ⟨rfl, h, rfl, rfl⟩

theorem Walk.andThen_of_ok (w : Walk σ) (g : σ → Walk σ) (h : w.failure = none) :
    w.andThen g = ⟨(g w.state).state, w.calls ++ (g w.state).calls, (g w.state).failure⟩ := by
  cases w with
  | mk st cs fl =>
    simp only at h
    subst h
    rfl

theorem Below_done {σ₁ σ₂ : Type} {I₁ : σ₁ → Prop} {I₂ : σ₂ → Prop} :
    Below I₁ I₂ Walk.done Walk.done :=
  fun _ _ h1 h2 _ => ⟨h1, h2, rfl, List.Sublist.refl _⟩

theorem Below_fail {σ₁ σ₂ : Type} {I₁ : σ₁ → Prop} {I₂ : σ₂ → Prop} (t : String)
    (f2 : σ₂ → Walk σ₂) : Below I₁ I₂ (fun s => unknownTypeError s t) f2 := by
  intro s1 s2 _ _ h
  simp [unknownTypeError] at h

theorem Below_call {σ₁ σ₂ : Type} {I₁ : σ₁ → Prop} {I₂ : σ₂ → Prop} (c : Call)
    (h1 : σ₁ → σ₁) (h2 : σ₂ → σ₂) (hh : ∀ s1 s2, I₁ s1 → I₂ s2 → I₁ (h1 s1) ∧ I₂ (h2 s2)) :
    Below I₁ I₂ (fun s => Walk.call c (h1 s)) (fun s => Walk.call c (h2 s)) :=
  fun s1 s2 i1 i2 _ => ⟨(hh s1 s2 i1 i2).1, (hh s1 s2 i1 i2).2, rfl, List.Sublist.refl _⟩

theorem Below_result {σ₁ σ₂ : Type} {I₁ : σ₁ → Prop} {I₂ : σ₂ → Prop} (c : Call)
    (h1 : σ₁ → Bool × σ₁) (h2 : σ₂ → Bool × σ₂)
    (hh : ∀ s1 s2, I₁ s1 → I₂ s2 →
      I₁ (h1 s1).2 ∧ I₂ (h2 s2).2 ∧ ((h2 s2).1 = true → (h1 s1).1 = true)) :
    Below I₁ I₂ (fun s => Walk.call c (h1 s).2) (fun s => Walk.call c (h2 s).2) :=
  fun s1 s2 i1 i2 _ =>
    ⟨(hh s1 s2 i1 i2).1, (hh s1 s2 i1 i2).2.1, rfl, List.Sublist.refl _⟩

theorem Below_andThen {σ₁ σ₂ : Type} {I₁ : σ₁ → Prop} {I₂ : σ₂ → Prop}
    {f1 g1 : σ₁ → Walk σ₁} {f2 g2 : σ₂ → Walk σ₂} (hf : Below I₁ I₂ f1 f2)
    (hg : Below I₁ I₂ g1 g2) :
    Below I₁ I₂ (fun s => (f1 s).andThen g1) (fun s => (f2 s).andThen g2) := by
  intro s1 s2 i1 i2 hok
  have hok' : ((f1 s1).andThen g1).failure = none := hok
  show I₁ ((f1 s1).andThen g1).state ∧ I₂ ((f2 s2).andThen g2).state ∧
    ((f2 s2).andThen g2).failure = none ∧
    List.Sublist ((f2 s2).andThen g2).calls ((f1 s1).andThen g1).calls
  obtain ⟨a1, a2, a3, a4⟩ := Walk.andThen_ok _ _ hok'
  obtain ⟨b1, b2, b3, b4⟩ := hf s1 s2 i1 i2 a1
  obtain ⟨c1, c2, c3, c4⟩ := hg _ _ b1 b2 a2
  rw [a3, a4, Walk.andThen_of_ok (f2 s2) g2 b3]
  exact ⟨c1, c2, c3, b4.append c4⟩

theorem Below_ask {σ₁ σ₂ : Type} {I₁ : σ₁ → Prop} {I₂ : σ₂ → Prop} (c : Call)
    (h1 : σ₁ → Bool × σ₁) (h2 : σ₂ → Bool × σ₂) {g1 : σ₁ → Walk σ₁} {g2 : σ₂ → Walk σ₂}
    (hh : ∀ s1 s2, I₁ s1 → I₂ s2 →
      I₁ (h1 s1).2 ∧ I₂ (h2 s2).2 ∧ ((h2 s2).1 = true → (h1 s1).1 = true))
    (hg : Below I₁ I₂ g1 g2) :
    Below I₁ I₂ (fun s => Walk.ask c (h1 s) g1) (fun s => Walk.ask c (h2 s) g2) := by
  intro s1 s2 i1 i2 hok
  have hok' : (Walk.ask c (h1 s1) g1).failure = none := hok
  show I₁ (Walk.ask c (h1 s1) g1).state ∧ I₂ (Walk.ask c (h2 s2) g2).state ∧
    (Walk.ask c (h2 s2) g2).failure = none ∧
    List.Sublist (Walk.ask c (h2 s2) g2).calls (Walk.ask c (h1 s1) g1).calls
  obtain ⟨k1, k2, k3⟩ := hh s1 s2 i1 i2
  cases hb1 : (h1 s1).1 with
  | false =>
    have hb2 : (h2 s2).1 = false := by
      cases hb : (h2 s2).1 with
      | false => rfl
      | true => rw [k3 hb] at hb1; exact absurd hb1 (by decide)
    rw [Walk.ask_false _ _ _ hb1, Walk.ask_false _ _ _ hb2]
    exact ⟨k1, k2, rfl, List.Sublist.refl _⟩
  | true =>
    rw [Walk.ask_true _ _ _ hb1, Walk.call_andThen] at hok' ⊢
    have hg1 : (g1 (h1 s1).2).failure = none := hok'
    obtain ⟨c1, c2, c3, c4⟩ := hg _ _ k1 k2 hg1
    cases hb2 : (h2 s2).1 with
    | false =>
      rw [Walk.ask_false _ _ _ hb2]
      exact ⟨c1, k2, rfl, (List.Sublist.refl [c]).trans
        (List.Sublist.cons₂ c (List.nil_sublist _))⟩
    | true =>
      rw [Walk.ask_true _ _ _ hb2, Walk.call_andThen]
      exact ⟨c1, c2, c3, List.Sublist.cons₂ c c4⟩

mutual
theorem Below_AcceptLiteral {σ₁ σ₂ : Type} {I₁ : σ₁ → Prop} {I₂ : σ₂ → Prop} {v1 : Visitor σ₁}
    {v2 : Visitor σ₂} (H : Covers I₁ I₂ v1 v2) :
    ∀ l : Literal, Below I₁ I₂ (AcceptLiteral v1 l) (AcceptLiteral v2 l)
  | Literal.nil => Below_done
  | Literal.BasicLiteral _ _ =>
    (Below_andThen (Below_call _ _ _ (H.Base _)) (Below_call _ _ _ (H.BasicLiteral _)))
  | Literal.SequenceLiteral _ es =>
    (Below_andThen (Below_call _ _ _ (H.Base _))
      (Below_ask _ _ _ (H.SequenceLiteral _) (Below_AcceptLiteralEach H es)))
  | Literal.other _ => (Below_fail _ _)
theorem Below_AcceptLiteralEach {σ₁ σ₂ : Type} {I₁ : σ₁ → Prop} {I₂ : σ₂ → Prop} {v1 : Visitor σ₁}
    {v2 : Visitor σ₂} (H : Covers I₁ I₂ v1 v2) :
    ∀ ls : List Literal, Below I₁ I₂ (AcceptLiteralEach v1 ls) (AcceptLiteralEach v2 ls)
  | [] => Below_done
  | l :: ls =>
    (Below_andThen (Below_AcceptLiteral H l) (Below_AcceptLiteralEach H ls))
end

theorem Below_visitAnnotations {σ₁ σ₂ : Type} {I₁ : σ₁ → Prop} {I₂ : σ₂ → Prop} {v1 : Visitor σ₁}
    {v2 : Visitor σ₂} (H : Covers I₁ I₂ v1 v2) :
    ∀ as : List Annotation, Below I₁ I₂ (visitAnnotations v1 as) (visitAnnotations v2 as)
  | [] => Below_done
  | _ :: as =>
    (Below_andThen (Below_result _ _ _ (H.Annotation _)) (Below_visitAnnotations H as))

mutual
theorem Below_Accept {σ₁ σ₂ : Type} {I₁ : σ₁ → Prop} {I₂ : σ₂ → Prop} {v1 : Visitor σ₁}
    {v2 : Visitor σ₂} (H : Covers I₁ I₂ v1 v2) :
    ∀ n : Node, Below I₁ I₂ (Accept v1 n) (Accept v2 n)
  | Node.nil => Below_done
  | Node.ErrorNode _ =>
    (Below_andThen (Below_call _ _ _ (H.Base _))
      (Below_call _ _ _ (H.ErrorNode _)))
  | Node.File _ ds =>
    (Below_andThen (Below_call _ _ _ (H.Base _))
      (Below_ask _ _ _ (H.File _)
        (Below_AcceptEach H ds)))
  | Node.Interface _ as ms cs ps =>
    (Below_andThen (Below_call _ _ _ (H.Base _))
      (Below_ask _ _ _ (H.Interface _)
        (Below_andThen (Below_AcceptEach H as)
        (Below_andThen (Below_AcceptInterfaceMemberEach H ms)
        (Below_andThen (Below_AcceptEach H cs)
        (Below_AcceptEach H ps))))))
  | Node.Mixin _ as ms cs ps =>
    (Below_andThen (Below_call _ _ _ (H.Base _))
      (Below_ask _ _ _ (H.Mixin _)
        (Below_andThen (Below_AcceptEach H as)
        (Below_andThen (Below_AcceptMixinMemberEach H ms)
        (Below_andThen (Below_AcceptEach H cs)
        (Below_AcceptEach H ps))))))
  | Node.Dictionary _ as ms =>
    (Below_andThen (Below_call _ _ _ (H.Base _))
      (Below_ask _ _ _ (H.Dictionary _)
        (Below_andThen (Below_AcceptEach H as)
        (Below_AcceptInterfaceMemberEach H ms))))
  | Node.Annotation ( Annotation.mk _ ps) =>
    (Below_andThen (Below_call _ _ _ (H.Base _))
      (Below_ask _ _ _ (H.Annotation _)
        (Below_AcceptEach H ps)))
  | Node.Parameter _ t i as =>
    (Below_andThen (Below_call _ _ _ (H.Base _))
      (Below_ask _ _ _ (H.Parameter _)
        (Below_andThen (Below_Accept H t)
        (Below_andThen (Below_AcceptLiteral H i)
        (Below_visitAnnotations H as)))))
  | Node.Implementation _ =>
    (Below_andThen (Below_call _ _ _ (H.Base _))
      (Below_call _ _ _ (H.Implementation _)))
  | Node.Includes _ =>
    (Below_andThen (Below_call _ _ _ (H.Base _))
      (Below_call _ _ _ (H.Includes _)))
  | Node.Member _ =>
    (Below_andThen (Below_call _ _ _ (H.Base _))
      (Below_fail _ _))
  | Node.CustomOp _ =>
    (Below_andThen (Below_call _ _ _ (H.Base _))
      (Below_call _ _ _ (H.CustomOp _)))
  | Node.TypeName _ =>
    (Below_andThen (Below_call _ _ _ (H.Base _))
      (Below_call _ _ _ (H.TypeName _)))
  | Node.Pattern _ =>
    (Below_andThen (Below_call _ _ _ (H.Base _))
      (Below_call _ _ _ (H.Pattern _)))
  | Node.Callback _ r ps =>
    (Below_andThen (Below_call _ _ _ (H.Base _))
      (Below_ask _ _ _ (H.Callback _)
        (Below_andThen (Below_Accept H r)
        (Below_AcceptEach H ps))))
  | Node.Enum _ as qs =>
    (Below_andThen (Below_call _ _ _ (H.Base _))
      (Below_ask _ _ _ (H.Enum _)
        (Below_andThen (Below_AcceptEach H as)
        (Below_AcceptLiteralEach H qs))))
  | Node.Typedef _ t as =>
    (Below_andThen (Below_call _ _ _ (H.Base _))
      (Below_ask _ _ _ (H.Typedef _)
        (Below_andThen (Below_Accept H t)
        (Below_visitAnnotations H as))))
  | Node.AnyType _ =>
    (Below_andThen (Below_call _ _ _ (H.Base _))
      (Below_call _ _ _ (H.AnyType _)))
  | Node.SequenceType _ e =>
    (Below_andThen (Below_call _ _ _ (H.Base _))
      (Below_ask _ _ _ (H.SequenceType _)
        (Below_Accept H e)))
  | Node.RecordType _ k e =>
    (Below_andThen (Below_call _ _ _ (H.Base _))
      (Below_ask _ _ _ (H.RecordType _)
        (Below_andThen (Below_Accept H k)
        (Below_Accept H e))))
  | Node.ParametrizedType _ es =>
    (Below_andThen (Below_call _ _ _ (H.Base _))
      (Below_ask _ _ _ (H.ParametrizedType _)
        (Below_AcceptEach H es)))
  | Node.UnionType _ ts =>
    (Below_andThen (Below_call _ _ _ (H.Base _))
      (Below_ask _ _ _ (H.UnionType _)
        (Below_AcceptEach H ts)))
  | Node.NullableType _ t =>
    (Below_andThen (Below_call _ _ _ (H.Base _))
      (Below_ask _ _ _ (H.NullableType _)
        (Below_Accept H t)))
  | Node.other _ _ =>
    (Below_andThen (Below_call _ _ _ (H.Base _))
      (Below_fail _ _))
theorem Below_AcceptEach {σ₁ σ₂ : Type} {I₁ : σ₁ → Prop} {I₂ : σ₂ → Prop} {v1 : Visitor σ₁}
    {v2 : Visitor σ₂} (H : Covers I₁ I₂ v1 v2) :
    ∀ ns : List Node, Below I₁ I₂ (AcceptEach v1 ns) (AcceptEach v2 ns)
  | [] => Below_done
  | n :: ns =>
    (Below_andThen (Below_Accept H n) (Below_AcceptEach H ns))
theorem Below_AcceptInterfaceMember {σ₁ σ₂ : Type} {I₁ : σ₁ → Prop} {I₂ : σ₂ → Prop} {v1 : Visitor σ₁}
    {v2 : Visitor σ₂} (H : Covers I₁ I₂ v1 v2) :
    ∀ n : Node, Below I₁ I₂ (AcceptInterfaceMember v1 n) (AcceptInterfaceMember v2 n)
  | Node.nil => Below_done
  | Node.ErrorNode _ => (Below_fail _ _)
  | Node.File _ _ => (Below_fail _ _)
  | Node.Interface _ _ _ _ _ => (Below_fail _ _)
  | Node.Mixin _ _ _ _ _ => (Below_fail _ _)
  | Node.Dictionary _ _ _ => (Below_fail _ _)
  | Node.Annotation ( Annotation.mk _ _) => (Below_fail _ _)
  | Node.Parameter _ _ _ _ => (Below_fail _ _)
  | Node.Implementation _ => (Below_fail _ _)
  | Node.Includes _ => (Below_fail _ _)
  | Node.Member m => (Below_acceptMember H m)
  | Node.CustomOp _ => (Below_fail _ _)
  | Node.TypeName _ => (Below_fail _ _)
  | Node.Pattern _ => (Below_fail _ _)
  | Node.Callback _ _ _ => (Below_fail _ _)
  | Node.Enum _ _ _ => (Below_fail _ _)
  | Node.Typedef _ _ _ => (Below_fail _ _)
  | Node.AnyType _ => (Below_fail _ _)
  | Node.SequenceType _ _ => (Below_fail _ _)
  | Node.RecordType _ _ _ => (Below_fail _ _)
  | Node.ParametrizedType _ _ => (Below_fail _ _)
  | Node.UnionType _ _ => (Below_fail _ _)
  | Node.NullableType _ _ => (Below_fail _ _)
  | Node.other _ _ => (Below_fail _ _)
theorem Below_AcceptInterfaceMemberEach {σ₁ σ₂ : Type} {I₁ : σ₁ → Prop} {I₂ : σ₂ → Prop} {v1 : Visitor σ₁}
    {v2 : Visitor σ₂} (H : Covers I₁ I₂ v1 v2) :
    ∀ ns : List Node, Below I₁ I₂ (AcceptInterfaceMemberEach v1 ns) (AcceptInterfaceMemberEach v2 ns)
  | [] => Below_done
  | n :: ns =>
    (Below_andThen (Below_AcceptInterfaceMember H n) (Below_AcceptInterfaceMemberEach H ns))
theorem Below_AcceptMixinMember {σ₁ σ₂ : Type} {I₁ : σ₁ → Prop} {I₂ : σ₂ → Prop} {v1 : Visitor σ₁}
    {v2 : Visitor σ₂} (H : Covers I₁ I₂ v1 v2) :
    ∀ n : Node, Below I₁ I₂ (AcceptMixinMember v1 n) (AcceptMixinMember v2 n)
  | Node.nil => Below_done
  | Node.ErrorNode _ => (Below_fail _ _)
  | Node.File _ _ => (Below_fail _ _)
  | Node.Interface _ _ _ _ _ => (Below_fail _ _)
  | Node.Mixin _ _ _ _ _ => (Below_fail _ _)
  | Node.Dictionary _ _ _ => (Below_fail _ _)
  | Node.Annotation ( Annotation.mk _ _) => (Below_fail _ _)
  | Node.Parameter _ _ _ _ => (Below_fail _ _)
  | Node.Implementation _ => (Below_fail _ _)
  | Node.Includes _ => (Below_fail _ _)
  | Node.Member m => (Below_acceptMember H m)
  | Node.CustomOp _ => (Below_fail _ _)
  | Node.TypeName _ => (Below_fail _ _)
  | Node.Pattern _ => (Below_fail _ _)
  | Node.Callback _ _ _ => (Below_fail _ _)
  | Node.Enum _ _ _ => (Below_fail _ _)
  | Node.Typedef _ _ _ => (Below_fail _ _)
  | Node.AnyType _ => (Below_fail _ _)
  | Node.SequenceType _ _ => (Below_fail _ _)
  | Node.RecordType _ _ _ => (Below_fail _ _)
  | Node.ParametrizedType _ _ => (Below_fail _ _)
  | Node.UnionType _ _ => (Below_fail _ _)
  | Node.NullableType _ _ => (Below_fail _ _)
  | Node.other _ _ => (Below_fail _ _)
theorem Below_AcceptMixinMemberEach {σ₁ σ₂ : Type} {I₁ : σ₁ → Prop} {I₂ : σ₂ → Prop} {v1 : Visitor σ₁}
    {v2 : Visitor σ₂} (H : Covers I₁ I₂ v1 v2) :
    ∀ ns : List Node, Below I₁ I₂ (AcceptMixinMemberEach v1 ns) (AcceptMixinMemberEach v2 ns)
  | [] => Below_done
  | n :: ns =>
    (Below_andThen (Below_AcceptMixinMember H n) (Below_AcceptMixinMemberEach H ns))
theorem Below_acceptMember {σ₁ σ₂ : Type} {I₁ : σ₁ → Prop} {I₂ : σ₂ → Prop} {v1 : Visitor σ₁}
    {v2 : Visitor σ₂} (H : Covers I₁ I₂ v1 v2) :
    ∀ m : Member, Below I₁ I₂ (acceptMember v1 m) (acceptMember v2 m)
  | .mk _ t i ps as =>
    (Below_andThen (Below_call _ _ _ (H.Base _))
      (Below_ask _ _ _ (H.Member _)
        (Below_andThen (Below_Accept H t)
        (Below_andThen (Below_AcceptLiteral H i)
        (Below_andThen (Below_AcceptEach H ps)
        (Below_AcceptEach H as))))))
end

/-- The `EmptyVisitor` that is not in selective mode descends wherever any visitor does. -/
theorem Covers_nonselective {σ₂ : Type} (v2 : Visitor σ₂) :
    Covers (fun s : EmptyVisitor => s.UseFlags = false) (fun _ => True)
      EmptyVisitor.visitor v2 where
  Base := fun _ _ _ h _ => ⟨h, trivial⟩
  ErrorNode := fun _ _ _ h _ => ⟨h, trivial⟩
  File := fun _ s1 _ h _ =>
    ⟨h, trivial, fun _ => by simp [EmptyVisitor.visitor, EmptyVisitor.File, h]⟩
  Interface := fun _ s1 _ h _ =>
    ⟨h, trivial, fun _ => by simp [EmptyVisitor.visitor, EmptyVisitor.Interface, h]⟩
  Mixin := fun _ s1 _ h _ =>
    ⟨h, trivial, fun _ => by simp [EmptyVisitor.visitor, EmptyVisitor.Mixin, h]⟩
  Dictionary := fun _ s1 _ h _ =>
    ⟨h, trivial, fun _ => by simp [EmptyVisitor.visitor, EmptyVisitor.Dictionary, h]⟩
  Annotation := fun _ s1 _ h _ =>
    ⟨h, trivial, fun _ => by simp [EmptyVisitor.visitor, EmptyVisitor.Annotation, h]⟩
  Parameter := fun _ s1 _ h _ =>
    ⟨h, trivial, fun _ => by simp [EmptyVisitor.visitor, EmptyVisitor.Parameter, h]⟩
  Implementation := fun _ _ _ h _ => ⟨h, trivial⟩
  Includes := fun _ _ _ h _ => ⟨h, trivial⟩
  Member := fun _ s1 _ h _ =>
    ⟨h, trivial, fun _ => by simp [EmptyVisitor.visitor, EmptyVisitor.Member, h]⟩
  CustomOp := fun _ _ _ h _ => ⟨h, trivial⟩
  TypeName := fun _ _ _ h _ => ⟨h, trivial⟩
  Pattern := fun _ _ _ h _ => ⟨h, trivial⟩
  Callback := fun _ s1 _ h _ =>
    ⟨h, trivial, fun _ => by simp [EmptyVisitor.visitor, EmptyVisitor.Callback, h]⟩
  Enum := fun _ s1 _ h _ =>
    ⟨h, trivial, fun _ => by simp [EmptyVisitor.visitor, EmptyVisitor.Enum, h]⟩
  Typedef := fun _ s1 _ h _ =>
    ⟨h, trivial, fun _ => by simp [EmptyVisitor.visitor, EmptyVisitor.Typedef, h]⟩
  AnyType := fun _ _ _ h _ => ⟨h, trivial⟩
  SequenceType := fun _ s1 _ h _ =>
    ⟨h, trivial, fun _ => by simp [EmptyVisitor.visitor, EmptyVisitor.SequenceType, h]⟩
  RecordType := fun _ s1 _ h _ =>
    ⟨h, trivial, fun _ => by simp [EmptyVisitor.visitor, EmptyVisitor.RecordType, h]⟩
  ParametrizedType := fun _ s1 _ h _ =>
    ⟨h, trivial, fun _ => by simp [EmptyVisitor.visitor, EmptyVisitor.ParametrizedType, h]⟩
  UnionType := fun _ s1 _ h _ =>
    ⟨h, trivial, fun _ => by simp [EmptyVisitor.visitor, EmptyVisitor.UnionType, h]⟩
  NullableType := fun _ s1 _ h _ =>
    ⟨h, trivial, fun _ => by simp [EmptyVisitor.visitor, EmptyVisitor.NullableType, h]⟩
  BasicLiteral := fun _ _ _ h _ => ⟨h, trivial⟩
  SequenceLiteral := fun _ s1 _ h _ =>
    ⟨h, trivial, fun _ => by simp [EmptyVisitor.visitor, EmptyVisitor.SequenceLiteral, h]⟩

/-- C19, amended: pruning only removes hook invocations from a walk that returns. For
every tree and any two visitors `v1`, `v2` such that every hook of `v2` returns true only
on nodes where the same hook of `v1` returns true (`Covers`, over the states the two
visitors can be in), if the walk with `v1` does not panic then the walk with `v2` does not
panic either and its hook invocations are a subsequence of those of the walk with `v1`. In
particular, when the walk with the `EmptyVisitor` that is not in selective mode does not
panic, the hook invocations of the walk with any visitor from any state are a subsequence
of its hook invocations. -/
theorem C19_pruned_walk_is_subsequence {σ₁ σ₂ : Type} (I₁ : σ₁ → Prop) (I₂ : σ₂ → Prop)
    (v1 : Visitor σ₁) (v2 : Visitor σ₂) (s1 : σ₁) (s2 : σ₂) (n : Node)
    (h : Covers I₁ I₂ v1 v2) (h1 : I₁ s1) (h2 : I₂ s2) :
    ((Accept v1 n s1).failure = none →
      (Accept v2 n s2).failure = none ∧
      List.Sublist (Accept v2 n s2).calls (Accept v1 n s1).calls) ∧
    ((Accept EmptyVisitor.visitor n {}).failure = none →
      ∀ (σ : Type) (v : Visitor σ) (s : σ), (Accept v n s).failure = none ∧
        List.Sublist (Accept v n s).calls (Accept EmptyVisitor.visitor n {}).calls) :=
  ⟨fun hok => (Below_Accept h n s1 s2 h1 h2 hok).2.2,
   fun hall _ v s => (Below_Accept (Covers_nonselective v) n {} s rfl trivial hall).2.2⟩

/-- C19, amended, at a union of a sequence type and a type name: the walk with the
`EmptyVisitor` in selective mode with only `ScanUnionType` set stops at the sequence type,
and its six hook invocations are a subsequence of the eight of the walk with the
`EmptyVisitor` that is not in selective mode. -/
theorem C19_pruned_walk_is_subsequence_witness :
    (Accept EmptyVisitor.visitor
      (Node.UnionType ⟨[]⟩ [Node.SequenceType ⟨[]⟩ (Node.TypeName ⟨[]⟩), Node.TypeName ⟨[]⟩])
      {}).calls.length = 8 ∧
    (Accept EmptyVisitor.visitor
      (Node.UnionType ⟨[]⟩ [Node.SequenceType ⟨[]⟩ (Node.TypeName ⟨[]⟩), Node.TypeName ⟨[]⟩])
      selectUnionType).calls.length = 6 ∧
    List.Sublist
      (Accept EmptyVisitor.visitor
        (Node.UnionType ⟨[]⟩ [Node.SequenceType ⟨[]⟩ (Node.TypeName ⟨[]⟩), Node.TypeName ⟨[]⟩])
        selectUnionType).calls
      (Accept EmptyVisitor.visitor
        (Node.UnionType ⟨[]⟩ [Node.SequenceType ⟨[]⟩ (Node.TypeName ⟨[]⟩), Node.TypeName ⟨[]⟩])
        {}).calls :=
  ⟨rfl, rfl,
   (C19_pruned_walk_is_subsequence (fun s : EmptyVisitor => s.UseFlags = false) (fun _ => True)
    EmptyVisitor.visitor EmptyVisitor.visitor {} selectUnionType
    (Node.UnionType ⟨[]⟩ [Node.SequenceType ⟨[]⟩ (Node.TypeName ⟨[]⟩), Node.TypeName ⟨[]⟩])
    (Covers_nonselective EmptyVisitor.visitor) rfl trivial).1 rfl |>.2⟩

/-- C19 as stated fails on a tree whose full walk panics: in a union of a sequence type,
whose element is of a kind `Accept` does not know, and a type name, the `EmptyVisitor` that
is not in selective mode descends wherever the `EmptyVisitor` with only `ScanUnionType` set
does, but its walk panics at the element after five hook invocations, while the selective
walk stops at the sequence type, never reaches the element, and goes on to the type name:
its six invocations are not a subsequence of the five. -/
theorem C19_pruned_walk_gets_past_a_panic :
    Covers (fun s : EmptyVisitor => s.UseFlags = false) (fun _ => True)
      EmptyVisitor.visitor EmptyVisitor.visitor ∧
    (Accept EmptyVisitor.visitor
      (Node.UnionType ⟨[]⟩
        [Node.SequenceType ⟨[]⟩ (Node.other ⟨[]⟩ "*ext.T"), Node.TypeName ⟨[]⟩]) {}).calls =
      [Call.Base ⟨[]⟩,
       Call.UnionType (Node.UnionType ⟨[]⟩
        [Node.SequenceType ⟨[]⟩ (Node.other ⟨[]⟩ "*ext.T"), Node.TypeName ⟨[]⟩]),
       Call.Base ⟨[]⟩,
       Call.SequenceType (Node.SequenceType ⟨[]⟩ (Node.other ⟨[]⟩ "*ext.T")),
       Call.Base ⟨[]⟩] ∧
    (Accept EmptyVisitor.visitor
      (Node.UnionType ⟨[]⟩
        [Node.SequenceType ⟨[]⟩ (Node.other ⟨[]⟩ "*ext.T"), Node.TypeName ⟨[]⟩]) {}).failure =
      some "unknown type *ext.T" ∧
    (Accept EmptyVisitor.visitor
      (Node.UnionType ⟨[]⟩
        [Node.SequenceType ⟨[]⟩ (Node.other ⟨[]⟩ "*ext.T"), Node.TypeName ⟨[]⟩])
      selectUnionType).calls =
      [Call.Base ⟨[]⟩,
       Call.UnionType (Node.UnionType ⟨[]⟩
        [Node.SequenceType ⟨[]⟩ (Node.other ⟨[]⟩ "*ext.T"), Node.TypeName ⟨[]⟩]),
       Call.Base ⟨[]⟩,
       Call.SequenceType (Node.SequenceType ⟨[]⟩ (Node.other ⟨[]⟩ "*ext.T")),
       Call.Base ⟨[]⟩, Call.TypeName (Node.TypeName ⟨[]⟩)] ∧
    (Accept EmptyVisitor.visitor
      (Node.UnionType ⟨[]⟩
        [Node.SequenceType ⟨[]⟩ (Node.other ⟨[]⟩ "*ext.T"), Node.TypeName ⟨[]⟩])
      selectUnionType).failure = none ∧
    ¬ List.Sublist
      (Accept EmptyVisitor.visitor
        (Node.UnionType ⟨[]⟩
          [Node.SequenceType ⟨[]⟩ (Node.other ⟨[]⟩ "*ext.T"), Node.TypeName ⟨[]⟩])
        selectUnionType).calls
      (Accept EmptyVisitor.visitor
        (Node.UnionType ⟨[]⟩
          [Node.SequenceType ⟨[]⟩ (Node.other ⟨[]⟩ "*ext.T"), Node.TypeName ⟨[]⟩]) {}).calls :=
  ⟨Covers_nonselective EmptyVisitor.visitor, rfl, by decide, rfl, rfl,
   fun h => absurd h.length_le (by decide)⟩

/-! ## Stopping one subtree has no effect on its siblings -/

theorem Makes_of_Below {I : σ → Prop} {f : σ → Walk σ} (h : Below I I f f) {s0 : σ}
    (hs0 : I s0) : Makes I f (f s0).calls := by
  intro s hs hok
  obtain ⟨a1, _, a3, a4⟩ := h s s0 hs hs0 hok
  obtain ⟨_, _, _, b4⟩ := h s0 s hs0 hs a3
  exact ⟨a1, List.Sublist.antisymm b4 a4⟩

theorem Makes_andThen {I : σ → Prop} {f g : σ → Walk σ} {a b : List Call}
    (hf : Makes I f a) (hg : Makes I g b) : Makes I (fun s => (f s).andThen g) (a ++ b) := by
  intro s hs hok
  have hok' : ((f s).andThen g).failure = none := hok
  show I ((f s).andThen g).state ∧ ((f s).andThen g).calls = a ++ b
  obtain ⟨a1, a2, a3, a4⟩ := Walk.andThen_ok _ _ hok'
  obtain ⟨b1, b2⟩ := hf s hs a1
  obtain ⟨c1, c2⟩ := hg _ b1 a2
  rw [a3, a4, b2, c2]
  exact ⟨c1, rfl⟩

theorem Makes_call_then {I : σ → Prop} (c : Call) (h : σ → σ) (hI : ∀ s, I s → I (h s))
    {g : σ → Walk σ} {b : List Call} (hg : Makes I g b) :
    Makes I (fun s => (Walk.call c (h s)).andThen g) (c :: b) := by
  intro s hs hok
  have hok' : ((Walk.call c (h s)).andThen g).failure = none := hok
  show I ((Walk.call c (h s)).andThen g).state ∧ ((Walk.call c (h s)).andThen g).calls = c :: b
  rw [Walk.call_andThen] at hok' ⊢
  obtain ⟨c1, c2⟩ := hg _ (hI s hs) hok'
  exact ⟨c1, by rw [← c2]⟩

theorem Makes_ask_true {I : σ → Prop} (c : Call) (h : σ → Bool × σ)
    (hh : ∀ s, I s → I (h s).2 ∧ (h s).1 = true) {g : σ → Walk σ} {b : List Call}
    (hg : Makes I g b) : Makes I (fun s => Walk.ask c (h s) g) (c :: b) := by
  intro s hs hok
  have hok' : (Walk.ask c (h s) g).failure = none := hok
  show I (Walk.ask c (h s) g).state ∧ (Walk.ask c (h s) g).calls = c :: b
  rw [Walk.ask_true _ _ _ (hh s hs).2, Walk.call_andThen] at hok' ⊢
  obtain ⟨c1, c2⟩ := hg _ (hh s hs).1 hok'
  exact ⟨c1, by rw [← c2]⟩

theorem Makes_walkEach {α : Type} {I : σ → Prop} (f : α → σ → Walk σ) (cs : α → List Call)
    (h : ∀ x, Makes I (f x) (cs x)) (xs : List α) :
    Makes I (walkEach f xs) ((xs.map cs).flatten) := by
  induction xs with
  | nil => exact fun s hs _ => ⟨hs, rfl⟩
  | cons x xs ih =>
    intro s hs hok
    rw [walkEach_cons] at hok ⊢
    rw [List.map_cons, List.flatten_cons]
    exact Makes_andThen (h x) ih s hs hok

theorem Makes_Accept {I : σ → Prop} {v : Visitor σ} (hv : v.NodeOnly I) {s0 : σ}
    (hs0 : I s0) (n : Node) : Makes I (Accept v n) (Accept v n s0).calls :=
  Makes_of_Below (Below_Accept hv n) hs0

theorem Makes_AcceptLiteral {I : σ → Prop} {v : Visitor σ} (hv : v.NodeOnly I) {s0 : σ}
    (hs0 : I s0) (l : Literal) : Makes I (AcceptLiteral v l) (AcceptLiteral v l s0).calls :=
  Makes_of_Below (Below_AcceptLiteral hv l) hs0

theorem Makes_AcceptEach {I : σ → Prop} {v : Visitor σ} (hv : v.NodeOnly I) {s0 : σ}
    (hs0 : I s0) (ns : List Node) :
    Makes I (AcceptEach v ns) ((ns.map fun d => (Accept v d s0).calls).flatten) := by
  have e : AcceptEach v ns = walkEach (Accept v) ns := funext (AcceptEach_eq_walkEach v ns)
  rw [e]
  exact Makes_walkEach _ _ (fun d => Makes_Accept hv hs0 d) ns

theorem Makes_AcceptInterfaceMemberEach {I : σ → Prop} {v : Visitor σ} (hv : v.NodeOnly I)
    {s0 : σ} (hs0 : I s0) (ns : List Node) :
    Makes I (AcceptInterfaceMemberEach v ns)
      ((ns.map fun d => (AcceptInterfaceMember v d s0).calls).flatten) := by
  have e : AcceptInterfaceMemberEach v ns = walkEach (AcceptInterfaceMember v) ns :=
    funext (AcceptInterfaceMemberEach_eq_walkEach v ns)
  rw [e]
  exact Makes_walkEach _ _
    (fun d => Makes_of_Below (Below_AcceptInterfaceMember hv d) hs0) ns

theorem Makes_AcceptMixinMemberEach {I : σ → Prop} {v : Visitor σ} (hv : v.NodeOnly I)
    {s0 : σ} (hs0 : I s0) (ns : List Node) :
    Makes I (AcceptMixinMemberEach v ns)
      ((ns.map fun d => (AcceptMixinMember v d s0).calls).flatten) := by
  have e : AcceptMixinMemberEach v ns = walkEach (AcceptMixinMember v) ns :=
    funext (AcceptMixinMemberEach_eq_walkEach v ns)
  rw [e]
  exact Makes_walkEach _ _
    (fun d => Makes_of_Below (Below_AcceptMixinMember hv d) hs0) ns

theorem Makes_AcceptLiteralEach {I : σ → Prop} {v : Visitor σ} (hv : v.NodeOnly I)
    {s0 : σ} (hs0 : I s0) (ls : List Literal) :
    Makes I (AcceptLiteralEach v ls)
      ((ls.map fun l => (AcceptLiteral v l s0).calls).flatten) := by
  have e : AcceptLiteralEach v ls = walkEach (AcceptLiteral v) ls :=
    funext (AcceptLiteralEach_eq_walkEach v ls)
  rw [e]
  exact Makes_walkEach _ _ (fun l => Makes_AcceptLiteral hv hs0 l) ls

/-- An `EmptyVisitor` never changes, and the results of its hooks depend on its flags
only, not on the node and not on what was visited before. -/
theorem NodeOnly_EmptyVisitor (t : EmptyVisitor) :
    EmptyVisitor.visitor.NodeOnly (fun s => s = t) where
  Base := fun _ _ _ h1 h2 => ⟨h1, h2⟩
  ErrorNode := fun _ _ _ h1 h2 => ⟨h1, h2⟩
  File := fun _ _ _ h1 h2 => ⟨h1, h2, fun h => by cases h1; cases h2; exact h⟩
  Interface := fun _ _ _ h1 h2 => ⟨h1, h2, fun h => by cases h1; cases h2; exact h⟩
  Mixin := fun _ _ _ h1 h2 => ⟨h1, h2, fun h => by cases h1; cases h2; exact h⟩
  Dictionary := fun _ _ _ h1 h2 => ⟨h1, h2, fun h => by cases h1; cases h2; exact h⟩
  Annotation := fun _ _ _ h1 h2 => ⟨h1, h2, fun h => by cases h1; cases h2; exact h⟩
  Parameter := fun _ _ _ h1 h2 => ⟨h1, h2, fun h => by cases h1; cases h2; exact h⟩
  Implementation := fun _ _ _ h1 h2 => ⟨h1, h2⟩
  Includes := fun _ _ _ h1 h2 => ⟨h1, h2⟩
  Member := fun _ _ _ h1 h2 => ⟨h1, h2, fun h => by cases h1; cases h2; exact h⟩
  CustomOp := fun _ _ _ h1 h2 => ⟨h1, h2⟩
  TypeName := fun _ _ _ h1 h2 => ⟨h1, h2⟩
  Pattern := fun _ _ _ h1 h2 => ⟨h1, h2⟩
  Callback := fun _ _ _ h1 h2 => ⟨h1, h2, fun h => by cases h1; cases h2; exact h⟩
  Enum := fun _ _ _ h1 h2 => ⟨h1, h2, fun h => by cases h1; cases h2; exact h⟩
  Typedef := fun _ _ _ h1 h2 => ⟨h1, h2, fun h => by cases h1; cases h2; exact h⟩
  AnyType := fun _ _ _ h1 h2 => ⟨h1, h2⟩
  SequenceType := fun _ _ _ h1 h2 => ⟨h1, h2, fun h => by cases h1; cases h2; exact h⟩
  RecordType := fun _ _ _ h1 h2 => ⟨h1, h2, fun h => by cases h1; cases h2; exact h⟩
  ParametrizedType := fun _ _ _ h1 h2 => ⟨h1, h2, fun h => by cases h1; cases h2; exact h⟩
  UnionType := fun _ _ _ h1 h2 => ⟨h1, h2, fun h => by cases h1; cases h2; exact h⟩
  NullableType := fun _ _ _ h1 h2 => ⟨h1, h2, fun h => by cases h1; cases h2; exact h⟩
  BasicLiteral := fun _ _ _ h1 h2 => ⟨h1, h2⟩
  SequenceLiteral := fun _ _ _ h1 h2 => ⟨h1, h2, fun h => by cases h1; cases h2; exact h⟩

/-- What `Accept` does for the children of a composite node in a walk that returns. For
every visitor whose hook results depend only on the node passed (`NodeOnly`, over the
states `I` the visitor can be in) and every composite node whose hook returns true and
whose walk does not panic, the hook invocations of the walk are the base hook, the node's
own hook, and then the concatenation, in child order, of the hook invocations of each
statement of the case run on its own (from any state `s0` of `I`): the walk of a child, or
the loop over the `Annotations` of a `Parameter` or of a `Typedef`, which is not the walk
of each annotation. -/
theorem children_contribute_their_own_walks (v : Visitor σ) (I : σ → Prop) (s s0 : σ)
    (hv : v.NodeOnly I) (hs : I s) (hs0 : I s0) :
    (∀ b ds, (v.File (Node.File b ds) (v.Base b s)).1 = true →
      (Accept v (Node.File b ds) s).failure = none →
      (Accept v (Node.File b ds) s).calls =
        Call.Base b :: Call.File (Node.File b ds) ::
          ((ds.map fun d => (Accept v d s0).calls).flatten)) ∧
    (∀ b as ms cs ps, (v.Interface (Node.Interface b as ms cs ps) (v.Base b s)).1 = true →
      (Accept v (Node.Interface b as ms cs ps) s).failure = none →
      (Accept v (Node.Interface b as ms cs ps) s).calls =
        Call.Base b :: Call.Interface (Node.Interface b as ms cs ps) ::
          ((as.map fun d => (Accept v d s0).calls).flatten ++
          ((ms.map fun d => (AcceptInterfaceMember v d s0).calls).flatten ++
          ((cs.map fun d => (Accept v d s0).calls).flatten ++
          ((ps.map fun d => (Accept v d s0).calls).flatten))))) ∧
    (∀ b as ms cs ps, (v.Mixin (Node.Mixin b as ms cs ps) (v.Base b s)).1 = true →
      (Accept v (Node.Mixin b as ms cs ps) s).failure = none →
      (Accept v (Node.Mixin b as ms cs ps) s).calls =
        Call.Base b :: Call.Mixin (Node.Mixin b as ms cs ps) ::
          ((as.map fun d => (Accept v d s0).calls).flatten ++
          ((ms.map fun d => (AcceptMixinMember v d s0).calls).flatten ++
          ((cs.map fun d => (Accept v d s0).calls).flatten ++
          ((ps.map fun d => (Accept v d s0).calls).flatten))))) ∧
    (∀ b as ms, (v.Dictionary (Node.Dictionary b as ms) (v.Base b s)).1 = true →
      (Accept v (Node.Dictionary b as ms) s).failure = none →
      (Accept v (Node.Dictionary b as ms) s).calls =
        Call.Base b :: Call.Dictionary (Node.Dictionary b as ms) ::
          ((as.map fun d => (Accept v d s0).calls).flatten ++
          ((ms.map fun d => (AcceptInterfaceMember v d s0).calls).flatten))) ∧
    (∀ b ps, (v.Annotation ( Annotation.mk b ps) (v.Base b s)).1 = true →
      (Accept v (Node.Annotation ( Annotation.mk b ps)) s).failure = none →
      (Accept v (Node.Annotation ( Annotation.mk b ps)) s).calls =
        Call.Base b :: Call.Annotation ( Annotation.mk b ps) ::
          ((ps.map fun d => (Accept v d s0).calls).flatten)) ∧
    (∀ b t i as, (v.Parameter (Node.Parameter b t i as) (v.Base b s)).1 = true →
      (Accept v (Node.Parameter b t i as) s).failure = none →
      (Accept v (Node.Parameter b t i as) s).calls =
        Call.Base b :: Call.Parameter (Node.Parameter b t i as) ::
          ((Accept v t s0).calls ++
          ((AcceptLiteral v i s0).calls ++
          ((visitAnnotations v as s0).calls)))) ∧
    (∀ b r ps, (v.Callback (Node.Callback b r ps) (v.Base b s)).1 = true →
      (Accept v (Node.Callback b r ps) s).failure = none →
      (Accept v (Node.Callback b r ps) s).calls =
        Call.Base b :: Call.Callback (Node.Callback b r ps) ::
          ((Accept v r s0).calls ++
          ((ps.map fun d => (Accept v d s0).calls).flatten))) ∧
    (∀ b as qs, (v.Enum (Node.Enum b as qs) (v.Base b s)).1 = true →
      (Accept v (Node.Enum b as qs) s).failure = none →
      (Accept v (Node.Enum b as qs) s).calls =
        Call.Base b :: Call.Enum (Node.Enum b as qs) ::
          ((as.map fun d => (Accept v d s0).calls).flatten ++
          ((qs.map fun l => (AcceptLiteral v l s0).calls).flatten))) ∧
    (∀ b t as, (v.Typedef (Node.Typedef b t as) (v.Base b s)).1 = true →
      (Accept v (Node.Typedef b t as) s).failure = none →
      (Accept v (Node.Typedef b t as) s).calls =
        Call.Base b :: Call.Typedef (Node.Typedef b t as) ::
          ((Accept v t s0).calls ++
          ((visitAnnotations v as s0).calls))) ∧
    (∀ b e, (v.SequenceType (Node.SequenceType b e) (v.Base b s)).1 = true →
      (Accept v (Node.SequenceType b e) s).failure = none →
      (Accept v (Node.SequenceType b e) s).calls =
        Call.Base b :: Call.SequenceType (Node.SequenceType b e) ::
          ((Accept v e s0).calls)) ∧
    (∀ b k e, (v.RecordType (Node.RecordType b k e) (v.Base b s)).1 = true →
      (Accept v (Node.RecordType b k e) s).failure = none →
      (Accept v (Node.RecordType b k e) s).calls =
        Call.Base b :: Call.RecordType (Node.RecordType b k e) ::
          ((Accept v k s0).calls ++
          ((Accept v e s0).calls))) ∧
    (∀ b es, (v.ParametrizedType (Node.ParametrizedType b es) (v.Base b s)).1 = true →
      (Accept v (Node.ParametrizedType b es) s).failure = none →
      (Accept v (Node.ParametrizedType b es) s).calls =
        Call.Base b :: Call.ParametrizedType (Node.ParametrizedType b es) ::
          ((es.map fun d => (Accept v d s0).calls).flatten)) ∧
    (∀ b ts, (v.UnionType (Node.UnionType b ts) (v.Base b s)).1 = true →
      (Accept v (Node.UnionType b ts) s).failure = none →
      (Accept v (Node.UnionType b ts) s).calls =
        Call.Base b :: Call.UnionType (Node.UnionType b ts) ::
          ((ts.map fun d => (Accept v d s0).calls).flatten)) ∧
    (∀ b t, (v.NullableType (Node.NullableType b t) (v.Base b s)).1 = true →
      (Accept v (Node.NullableType b t) s).failure = none →
      (Accept v (Node.NullableType b t) s).calls =
        Call.Base b :: Call.NullableType (Node.NullableType b t) ::
          ((Accept v t s0).calls)) ∧
    (∀ b t i ps as, (v.Member (Member.mk b t i ps as) (v.Base b s)).1 = true →
      (acceptMember v (Member.mk b t i ps as) s).failure = none →
      (acceptMember v (Member.mk b t i ps as) s).calls =
        Call.Base b :: Call.Member (Member.mk b t i ps as) ::
          ((Accept v t s0).calls ++
          ((AcceptLiteral v i s0).calls ++
          ((ps.map fun d => (Accept v d s0).calls).flatten ++
          ((as.map fun d => (Accept v d s0).calls).flatten))))) ∧
    (∀ b es, (v.SequenceLiteral (Literal.SequenceLiteral b es) (v.Base b s)).1 = true →
      (AcceptLiteral v (Literal.SequenceLiteral b es) s).failure = none →
      (AcceptLiteral v (Literal.SequenceLiteral b es) s).calls =
        Call.Base b :: Call.SequenceLiteral (Literal.SequenceLiteral b es) ::
          ((es.map fun l => (AcceptLiteral v l s0).calls).flatten)) ∧
    (∀ xs c ys, (AcceptEach v (xs ++ c :: ys) s).failure = none →
      (AcceptEach v (xs ++ c :: ys) s).calls =
        (xs.map fun d => (Accept v d s0).calls).flatten ++
          ((Accept v c s0).calls ++ (ys.map fun d => (Accept v d s0).calls).flatten)) := by
  have hb : ∀ b, I (v.Base b s) := fun b => (hv.Base b s s hs hs).1
  have hbase : ∀ b s1, I s1 → I (v.Base b s1) := fun b s1 h1 => (hv.Base b s1 s1 h1 h1).1
  refine ⟨?_, ?_, ?_, ?_, ?_, ?_, ?_, ?_, ?_, ?_, ?_, ?_, ?_, ?_, ?_, ?_, ?_⟩
  · intro b ds hh hok
    have m : Makes I (Accept v (Node.File b ds)) _ :=
      Makes_call_then (Call.Base b) (v.Base b) (hbase b)
        (Makes_ask_true (Call.File (Node.File b ds)) (v.File (Node.File b ds))
          (fun s1 h1 => ⟨(hv.File _ s1 s1 h1 h1).1,
            (hv.File _ s1 (v.Base b s) h1 (hb b)).2.2 hh⟩)
          (Makes_AcceptEach hv hs0 ds))
    exact (m s hs hok).2
  · intro b as ms cs ps hh hok
    have m : Makes I (Accept v (Node.Interface b as ms cs ps)) _ :=
      Makes_call_then (Call.Base b) (v.Base b) (hbase b)
        (Makes_ask_true (Call.Interface (Node.Interface b as ms cs ps)) (v.Interface (Node.Interface b as ms cs ps))
          (fun s1 h1 => ⟨(hv.Interface _ s1 s1 h1 h1).1,
            (hv.Interface _ s1 (v.Base b s) h1 (hb b)).2.2 hh⟩)
          (Makes_andThen (Makes_AcceptEach hv hs0 as)
        (Makes_andThen (Makes_AcceptInterfaceMemberEach hv hs0 ms)
        (Makes_andThen (Makes_AcceptEach hv hs0 cs)
        (Makes_AcceptEach hv hs0 ps)))))
    exact (m s hs hok).2
  · intro b as ms cs ps hh hok
    have m : Makes I (Accept v (Node.Mixin b as ms cs ps)) _ :=
      Makes_call_then (Call.Base b) (v.Base b) (hbase b)
        (Makes_ask_true (Call.Mixin (Node.Mixin b as ms cs ps)) (v.Mixin (Node.Mixin b as ms cs ps))
          (fun s1 h1 => ⟨(hv.Mixin _ s1 s1 h1 h1).1,
            (hv.Mixin _ s1 (v.Base b s) h1 (hb b)).2.2 hh⟩)
          (Makes_andThen (Makes_AcceptEach hv hs0 as)
        (Makes_andThen (Makes_AcceptMixinMemberEach hv hs0 ms)
        (Makes_andThen (Makes_AcceptEach hv hs0 cs)
        (Makes_AcceptEach hv hs0 ps)))))
    exact (m s hs hok).2
  · intro b as ms hh hok
    have m : Makes I (Accept v (Node.Dictionary b as ms)) _ :=
      Makes_call_then (Call.Base b) (v.Base b) (hbase b)
        (Makes_ask_true (Call.Dictionary (Node.Dictionary b as ms)) (v.Dictionary (Node.Dictionary b as ms))
          (fun s1 h1 => ⟨(hv.Dictionary _ s1 s1 h1 h1).1,
            (hv.Dictionary _ s1 (v.Base b s) h1 (hb b)).2.2 hh⟩)
          (Makes_andThen (Makes_AcceptEach hv hs0 as)
        (Makes_AcceptInterfaceMemberEach hv hs0 ms)))
    exact (m s hs hok).2
  · intro b ps hh hok
    have m : Makes I (Accept v (Node.Annotation ( Annotation.mk b ps))) _ :=
      Makes_call_then (Call.Base b) (v.Base b) (hbase b)
        (Makes_ask_true (Call.Annotation ( Annotation.mk b ps)) (v.Annotation ( Annotation.mk b ps))
          (fun s1 h1 => ⟨(hv.Annotation _ s1 s1 h1 h1).1,
            (hv.Annotation _ s1 (v.Base b s) h1 (hb b)).2.2 hh⟩)
          (Makes_AcceptEach hv hs0 ps))
    exact (m s hs hok).2
  · intro b t i as hh hok
    have m : Makes I (Accept v (Node.Parameter b t i as)) _ :=
      Makes_call_then (Call.Base b) (v.Base b) (hbase b)
        (Makes_ask_true (Call.Parameter (Node.Parameter b t i as)) (v.Parameter (Node.Parameter b t i as))
          (fun s1 h1 => ⟨(hv.Parameter _ s1 s1 h1 h1).1,
            (hv.Parameter _ s1 (v.Base b s) h1 (hb b)).2.2 hh⟩)
          (Makes_andThen (Makes_Accept hv hs0 t)
        (Makes_andThen (Makes_AcceptLiteral hv hs0 i)
        (Makes_of_Below (Below_visitAnnotations hv as) hs0))))
    exact (m s hs hok).2
  · intro b r ps hh hok
    have m : Makes I (Accept v (Node.Callback b r ps)) _ :=
      Makes_call_then (Call.Base b) (v.Base b) (hbase b)
        (Makes_ask_true (Call.Callback (Node.Callback b r ps)) (v.Callback (Node.Callback b r ps))
          (fun s1 h1 => ⟨(hv.Callback _ s1 s1 h1 h1).1,
            (hv.Callback _ s1 (v.Base b s) h1 (hb b)).2.2 hh⟩)
          (Makes_andThen (Makes_Accept hv hs0 r)
        (Makes_AcceptEach hv hs0 ps)))
    exact (m s hs hok).2
  · intro b as qs hh hok
    have m : Makes I (Accept v (Node.Enum b as qs)) _ :=
      Makes_call_then (Call.Base b) (v.Base b) (hbase b)
        (Makes_ask_true (Call.Enum (Node.Enum b as qs)) (v.Enum (Node.Enum b as qs))
          (fun s1 h1 => ⟨(hv.Enum _ s1 s1 h1 h1).1,
            (hv.Enum _ s1 (v.Base b s) h1 (hb b)).2.2 hh⟩)
          (Makes_andThen (Makes_AcceptEach hv hs0 as)
        (Makes_AcceptLiteralEach hv hs0 qs)))
    exact (m s hs hok).2
  · intro b t as hh hok
    have m : Makes I (Accept v (Node.Typedef b t as)) _ :=
      Makes_call_then (Call.Base b) (v.Base b) (hbase b)
        (Makes_ask_true (Call.Typedef (Node.Typedef b t as)) (v.Typedef (Node.Typedef b t as))
          (fun s1 h1 => ⟨(hv.Typedef _ s1 s1 h1 h1).1,
            (hv.Typedef _ s1 (v.Base b s) h1 (hb b)).2.2 hh⟩)
          (Makes_andThen (Makes_Accept hv hs0 t)
        (Makes_of_Below (Below_visitAnnotations hv as) hs0)))
    exact (m s hs hok).2
  · intro b e hh hok
    have m : Makes I (Accept v (Node.SequenceType b e)) _ :=
      Makes_call_then (Call.Base b) (v.Base b) (hbase b)
        (Makes_ask_true (Call.SequenceType (Node.SequenceType b e)) (v.SequenceType (Node.SequenceType b e))
          (fun s1 h1 => ⟨(hv.SequenceType _ s1 s1 h1 h1).1,
            (hv.SequenceType _ s1 (v.Base b s) h1 (hb b)).2.2 hh⟩)
          (Makes_Accept hv hs0 e))
    exact (m s hs hok).2
  · intro b k e hh hok
    have m : Makes I (Accept v (Node.RecordType b k e)) _ :=
      Makes_call_then (Call.Base b) (v.Base b) (hbase b)
        (Makes_ask_true (Call.RecordType (Node.RecordType b k e)) (v.RecordType (Node.RecordType b k e))
          (fun s1 h1 => ⟨(hv.RecordType _ s1 s1 h1 h1).1,
            (hv.RecordType _ s1 (v.Base b s) h1 (hb b)).2.2 hh⟩)
          (Makes_andThen (Makes_Accept hv hs0 k)
        (Makes_Accept hv hs0 e)))
    exact (m s hs hok).2
  · intro b es hh hok
    have m : Makes I (Accept v (Node.ParametrizedType b es)) _ :=
      Makes_call_then (Call.Base b) (v.Base b) (hbase b)
        (Makes_ask_true (Call.ParametrizedType (Node.ParametrizedType b es)) (v.ParametrizedType (Node.ParametrizedType b es))
          (fun s1 h1 => ⟨(hv.ParametrizedType _ s1 s1 h1 h1).1,
            (hv.ParametrizedType _ s1 (v.Base b s) h1 (hb b)).2.2 hh⟩)
          (Makes_AcceptEach hv hs0 es))
    exact (m s hs hok).2
  · intro b ts hh hok
    have m : Makes I (Accept v (Node.UnionType b ts)) _ :=
      Makes_call_then (Call.Base b) (v.Base b) (hbase b)
        (Makes_ask_true (Call.UnionType (Node.UnionType b ts)) (v.UnionType (Node.UnionType b ts))
          (fun s1 h1 => ⟨(hv.UnionType _ s1 s1 h1 h1).1,
            (hv.UnionType _ s1 (v.Base b s) h1 (hb b)).2.2 hh⟩)
          (Makes_AcceptEach hv hs0 ts))
    exact (m s hs hok).2
  · intro b t hh hok
    have m : Makes I (Accept v (Node.NullableType b t)) _ :=
      Makes_call_then (Call.Base b) (v.Base b) (hbase b)
        (Makes_ask_true (Call.NullableType (Node.NullableType b t)) (v.NullableType (Node.NullableType b t))
          (fun s1 h1 => ⟨(hv.NullableType _ s1 s1 h1 h1).1,
            (hv.NullableType _ s1 (v.Base b s) h1 (hb b)).2.2 hh⟩)
          (Makes_Accept hv hs0 t))
    exact (m s hs hok).2
  · intro b t i ps as hh hok
    have m : Makes I (acceptMember v (Member.mk b t i ps as)) _ :=
      Makes_call_then (Call.Base b) (v.Base b) (hbase b)
        (Makes_ask_true (Call.Member (Member.mk b t i ps as)) (v.Member (Member.mk b t i ps as))
          (fun s1 h1 => ⟨(hv.Member _ s1 s1 h1 h1).1,
            (hv.Member _ s1 (v.Base b s) h1 (hb b)).2.2 hh⟩)
          (Makes_andThen (Makes_Accept hv hs0 t)
        (Makes_andThen (Makes_AcceptLiteral hv hs0 i)
        (Makes_andThen (Makes_AcceptEach hv hs0 ps)
        (Makes_AcceptEach hv hs0 as)))))
    exact (m s hs hok).2
  · intro b es hh hok
    have m : Makes I (AcceptLiteral v (Literal.SequenceLiteral b es)) _ :=
      Makes_call_then (Call.Base b) (v.Base b) (hbase b)
        (Makes_ask_true (Call.SequenceLiteral (Literal.SequenceLiteral b es)) (v.SequenceLiteral (Literal.SequenceLiteral b es))
          (fun s1 h1 => ⟨(hv.SequenceLiteral _ s1 s1 h1 h1).1,
            (hv.SequenceLiteral _ s1 (v.Base b s) h1 (hb b)).2.2 hh⟩)
          (Makes_AcceptLiteralEach hv hs0 es))
    exact (m s hs hok).2
  · intro xs c ys hok
    have m := (Makes_AcceptEach hv hs0 (xs ++ c :: ys) s hs hok).2
    rw [m, List.map_append, List.flatten_append, List.map_cons, List.flatten_cons]

/-- A file under the `EmptyVisitor` in selective mode with `ScanFile` and `ScanInterface`
set: the `Dictionary` hook returns false, the dictionary contributes its two invocations,
and the interface before it and the type name after it contribute what they contribute
when walked on their own. -/
theorem children_contribute_their_own_walks_at_file :
    (Accept EmptyVisitor.visitor
      (Node.File ⟨[]⟩
        [Node.Interface ⟨[]⟩ [] [] [Node.CustomOp ⟨[]⟩] [],
         Node.Dictionary ⟨[]⟩ [] [Node.Member (Member.mk ⟨[]⟩ Node.nil Literal.nil [] [])],
         Node.TypeName ⟨[]⟩])
      selectFileInterface).calls =
      Call.Base ⟨[]⟩ ::
      Call.File
      (Node.File ⟨[]⟩
        [Node.Interface ⟨[]⟩ [] [] [Node.CustomOp ⟨[]⟩] [],
         Node.Dictionary ⟨[]⟩ [] [Node.Member (Member.mk ⟨[]⟩ Node.nil Literal.nil [] [])],
         Node.TypeName ⟨[]⟩]) ::
      (([Node.Interface ⟨[]⟩ [] [] [Node.CustomOp ⟨[]⟩] [],
         Node.Dictionary ⟨[]⟩ [] [Node.Member (Member.mk ⟨[]⟩ Node.nil Literal.nil [] [])],
         Node.TypeName ⟨[]⟩].map
        fun d => (Accept EmptyVisitor.visitor d selectFileInterface).calls).flatten) ∧
    (Accept EmptyVisitor.visitor
      (Node.Dictionary ⟨[]⟩ [] [Node.Member (Member.mk ⟨[]⟩ Node.nil Literal.nil [] [])])
      selectFileInterface).calls =
      [Call.Base ⟨[]⟩, Call.Dictionary
        (Node.Dictionary ⟨[]⟩ [] [Node.Member (Member.mk ⟨[]⟩ Node.nil Literal.nil [] [])])] :=
  ⟨(children_contribute_their_own_walks EmptyVisitor.visitor
      (fun s => s = selectFileInterface) selectFileInterface selectFileInterface
      (NodeOnly_EmptyVisitor selectFileInterface) rfl rfl).1 ⟨[]⟩
      [Node.Interface ⟨[]⟩ [] [] [Node.CustomOp ⟨[]⟩] [],
         Node.Dictionary ⟨[]⟩ [] [Node.Member (Member.mk ⟨[]⟩ Node.nil Literal.nil [] [])],
         Node.TypeName ⟨[]⟩] rfl rfl,
   rfl⟩

/-- A panic in one child ends the walk of its siblings too: under the default visitor,
whose hooks all return true, a file whose declarations are a node of a kind `Accept` does
not know and a type name gets three hook invocations, the walk ending in the panic at the
first declaration; walked on its own the type name gets two invocations, which the walk
of the file never makes. -/
theorem panic_in_a_child_cuts_off_its_siblings :
    EmptyVisitor.visitor.NodeOnly (fun s => s = ({} : EmptyVisitor)) ∧
    (EmptyVisitor.visitor.File (Node.File ⟨[]⟩ [Node.other ⟨[]⟩ "*ext.T", Node.TypeName ⟨[]⟩])
      (EmptyVisitor.visitor.Base ⟨[]⟩ {})).1 = true ∧
    (Accept EmptyVisitor.visitor (Node.File ⟨[]⟩ [Node.other ⟨[]⟩ "*ext.T", Node.TypeName ⟨[]⟩]) {}).calls =
      [Call.Base ⟨[]⟩, Call.File (Node.File ⟨[]⟩ [Node.other ⟨[]⟩ "*ext.T", Node.TypeName ⟨[]⟩]),
       Call.Base ⟨[]⟩] ∧
    (Accept EmptyVisitor.visitor (Node.File ⟨[]⟩ [Node.other ⟨[]⟩ "*ext.T", Node.TypeName ⟨[]⟩]) {}).failure =
      some "unknown type *ext.T" ∧
    (Accept EmptyVisitor.visitor (Node.other ⟨[]⟩ "*ext.T") {}).calls = [Call.Base ⟨[]⟩] ∧
    (Accept EmptyVisitor.visitor (Node.TypeName ⟨[]⟩) {}).calls =
      [Call.Base ⟨[]⟩, Call.TypeName (Node.TypeName ⟨[]⟩)] ∧
    (Accept EmptyVisitor.visitor (Node.File ⟨[]⟩ [Node.other ⟨[]⟩ "*ext.T", Node.TypeName ⟨[]⟩]) {}).calls ≠
      Call.Base ⟨[]⟩ :: Call.File (Node.File ⟨[]⟩ [Node.other ⟨[]⟩ "*ext.T", Node.TypeName ⟨[]⟩]) ::
        (([Node.other ⟨[]⟩ "*ext.T", Node.TypeName ⟨[]⟩].map
          fun d => (Accept EmptyVisitor.visitor d {}).calls).flatten) :=
  ⟨NodeOnly_EmptyVisitor {}, rfl, rfl, by decide, rfl, rfl,
   fun h => absurd (congrArg List.length h) (by decide)⟩

/-- C17, at the failing input: a `Parameter` whose only child is one annotation, under
the default visitor (hook results depend only on the node, every hook true, no panic). The
walk of the parameter makes three hook invocations: after the base hook and the
`Parameter` hook, the annotation contributes the `Annotation` hook alone. Walked on its
own the same annotation makes two invocations, the base hook and the `Annotation` hook, so
the sequence of the parameter's children is not the concatenation of the sequences of
walking each child on its own. Under an `Enum`, whose case walks its annotations with
`Accept`, the same annotation contributes its own walk and the concatenation holds. -/
theorem C17_parameter_annotation_contributes_less_than_its_own_walk :
    EmptyVisitor.visitor.NodeOnly (fun s => s = ({} : EmptyVisitor)) ∧
    (EmptyVisitor.visitor.Parameter (Node.Parameter ⟨[]⟩ Node.nil Literal.nil [ Annotation.mk ⟨[]⟩ []])
      (EmptyVisitor.visitor.Base ⟨[]⟩ {})).1 = true ∧
    (Accept EmptyVisitor.visitor (Node.Parameter ⟨[]⟩ Node.nil Literal.nil [ Annotation.mk ⟨[]⟩ []]) {}).failure = none ∧
    (Accept EmptyVisitor.visitor (Node.Parameter ⟨[]⟩ Node.nil Literal.nil [ Annotation.mk ⟨[]⟩ []]) {}).calls =
      [Call.Base ⟨[]⟩,
       Call.Parameter (Node.Parameter ⟨[]⟩ Node.nil Literal.nil [ Annotation.mk ⟨[]⟩ []]),
       Call.Annotation ( Annotation.mk ⟨[]⟩ [])] ∧
    (Accept EmptyVisitor.visitor (Node.Annotation ( Annotation.mk ⟨[]⟩ [])) {}).calls =
      [Call.Base ⟨[]⟩, Call.Annotation ( Annotation.mk ⟨[]⟩ [])] ∧
    (Accept EmptyVisitor.visitor (Node.Parameter ⟨[]⟩ Node.nil Literal.nil [ Annotation.mk ⟨[]⟩ []]) {}).calls ≠
      Call.Base ⟨[]⟩ ::
      Call.Parameter (Node.Parameter ⟨[]⟩ Node.nil Literal.nil [ Annotation.mk ⟨[]⟩ []]) ::
        ((Accept EmptyVisitor.visitor Node.nil {}).calls ++
          ((AcceptLiteral EmptyVisitor.visitor Literal.nil {}).calls ++
          ([ Annotation.mk ⟨[]⟩ []].map
            fun a => (Accept EmptyVisitor.visitor (Node.Annotation a) {}).calls).flatten)) ∧
    (Accept EmptyVisitor.visitor (Node.Enum ⟨[]⟩ [Node.Annotation ( Annotation.mk ⟨[]⟩ [])] []) {}).calls =
      Call.Base ⟨[]⟩ ::
      Call.Enum (Node.Enum ⟨[]⟩ [Node.Annotation ( Annotation.mk ⟨[]⟩ [])] []) ::
        (([Node.Annotation ( Annotation.mk ⟨[]⟩ [])].map
          fun d => (Accept EmptyVisitor.visitor d {}).calls).flatten ++
          (([] : List Literal).map
            fun l => (AcceptLiteral EmptyVisitor.visitor l {}).calls).flatten) :=
  ⟨NodeOnly_EmptyVisitor {}, rfl, rfl, rfl, rfl,
   fun h => absurd (congrArg List.length h) (by decide), rfl⟩

end ast
